import Mathlib

/-!
Mastermind collector: Group metadata processing and filter matching.

A shallow embedding of `src/collector/Group.cpp` (with the configuration record
of `src/collector/Config.h`), of the handlers of
`src/collector/CocaineHandlers.cpp`, of the download stage and the metadata
stage of `src/collector/Round.cpp` and of `src/collector/StatsParser.cpp`, and
theorems about them.

Conventions of the embedding:

* `std::string` is `String`; `operator<` on strings is the lexicographic
  comparison of the character sequences (`string_less`).
* `int` values are `Int`; the cast `int(u64)` keeps the low 32 bits
  (`int_of_u64`).  `uint64_t`, `uint32_t` and `size_t` values are `Nat`.
* `std::set<Backend*>` is the list of the backends in iteration order.
* Pointers to `Couple` objects, whose key and member ids never change after
  creation, are represented by the couple value; pointers to `Namespace`
  objects by the namespace name, resolved through the `Storage` index.
* A function that writes at most one message to `ostr` and then leaves is
  rendered with `Except String`, the error being the text written to `ostr`.
* Tasks handed to the dispatch queue of a round and calls to other objects are
  recorded in order; the callbacks of the metadata reads are taken one after
  another.
* What libcurl and the system answer during a download is an argument of the
  download stage; the calls that create or release a handle or a descriptor
  are recorded in order.
* The base class of `StatsParser` is an argument of its methods; `std::map`
  from ids to counts is a function to `Option`.
-/

namespace Mastermind

/-! ## msgpack objects -/

/-- The value `msgpack::object` of msgpack-c: a type tag with its payload. -/
inductive MsgObject where
  | NIL
  | BOOLEAN (boolean : Bool)
  | POSITIVE_INTEGER (u64 : Nat)
  | NEGATIVE_INTEGER (i64 : Int)
  | DOUBLE (dec : Nat)
  | RAW (raw : String)
  | ARRAY (array : List MsgObject)
  | MAP (map : List (MsgObject × MsgObject))

/-- The numeric value of `msgpack::type::object_type`, as printed by
`ostr << obj.type`. -/
def MsgObject.type : MsgObject → Nat
  | .NIL => 0
  | .BOOLEAN _ => 1
  | .POSITIVE_INTEGER _ => 2
  | .NEGATIVE_INTEGER _ => 3
  | .DOUBLE _ => 4
  | .RAW _ => 5
  | .ARRAY _ => 6
  | .MAP _ => 7

/-- The conversion `int(x)` of a `uint64_t`: the low 32 bits, read as a
two's complement number. -/
def int_of_u64 (u : Nat) : Int :=
  if u % 2 ^ 32 < 2 ^ 31 then ((u % 2 ^ 32 : Nat) : Int)
  else ((u % 2 ^ 32 : Nat) : Int) - 2 ^ 32

/-! ## Config.h -/

/-- The nested record `Config::metadata`. -/
structure Config.Metadata where
  url : String
  options_connectTimeoutMS : Nat
  history_db : String
  inventory_db : String
  jobs_db : String

/-- The record `Config::NodeInfo`. -/
structure Config.NodeInfo where
  host : String
  port : Int
  family : Int

/-- The record `Config`. -/
structure Config where
  monitor_port : Nat
  wait_timeout : Nat
  forbidden_dht_groups : Nat
  forbidden_unmatched_group_total_space : Nat
  forbidden_ns_without_settings : Nat
  forbidden_dc_sharing_among_groups : Nat
  reserved_space : Nat
  node_backend_stat_stale_timeout : Nat
  dnet_log_mask : Nat
  net_thread_num : Nat
  io_thread_num : Nat
  nonblocking_io_thread_num : Nat
  infrastructure_dc_cache_update_period : Nat
  infrastructure_dc_cache_valid_time : Nat
  inventory_worker_timeout : Nat
  app_name : String
  cache_group_path_prefix : String
  nodes : List Config.NodeInfo
  metadata : Config.Metadata

namespace Config.Default

def monitor_port : Nat := 10025
def wait_timeout : Nat := 10
def forbidden_dht_groups : Nat := 0
def forbidden_unmatched_group_total_space : Nat := 0
def forbidden_ns_without_settings : Nat := 0
def forbidden_dc_sharing_among_groups : Nat := 0
def reserved_space : Nat := (105 <<< 30) % 2 ^ 64
def node_backend_stat_stale_timeout : Nat := 120
def dnet_log_mask : Nat := 3
def net_thread_num : Nat := 3
def io_thread_num : Nat := 3
def nonblocking_io_thread_num : Nat := 3
def infrastructure_dc_cache_update_period : Nat := 150
def infrastructure_dc_cache_valid_time : Nat := 604800
def inventory_worker_timeout : Nat := 5
def metadata_options_connectTimeoutMS : Nat := 5000

end Config.Default

/-- The constructor `Config::Config()`. -/
def Config.new : Config where
  monitor_port := Config.Default.monitor_port
  wait_timeout := Config.Default.wait_timeout
  forbidden_dht_groups := Config.Default.forbidden_dht_groups
  forbidden_unmatched_group_total_space := Config.Default.forbidden_unmatched_group_total_space
  forbidden_ns_without_settings := Config.Default.forbidden_ns_without_settings
  forbidden_dc_sharing_among_groups := Config.Default.forbidden_dc_sharing_among_groups
  reserved_space := Config.Default.reserved_space
  node_backend_stat_stale_timeout := Config.Default.node_backend_stat_stale_timeout
  dnet_log_mask := Config.Default.dnet_log_mask
  net_thread_num := Config.Default.net_thread_num
  io_thread_num := Config.Default.io_thread_num
  nonblocking_io_thread_num := Config.Default.nonblocking_io_thread_num
  infrastructure_dc_cache_update_period := Config.Default.infrastructure_dc_cache_update_period
  infrastructure_dc_cache_valid_time := Config.Default.infrastructure_dc_cache_valid_time
  inventory_worker_timeout := Config.Default.inventory_worker_timeout
  app_name := ""
  cache_group_path_prefix := ""
  nodes := []
  metadata :=
    { url := ""
      options_connectTimeoutMS := Config.Default.metadata_options_connectTimeoutMS
      history_db := ""
      inventory_db := ""
      jobs_db := "" }

/-! ## The objects a Group refers to -/

/-- Modelled from the spec: `Backend::Status` of Backend.h, which is not among
the sources; the spec lists status ∈ {INIT, OK, RO, BAD, STALLED, BROKEN}. -/
inductive Backend.Status where
  | INIT
  | OK
  | RO
  | BAD
  | STALLED
  | BROKEN
  deriving DecidableEq, Repr

/-- Modelled from the spec: the part of a `Backend` (Backend.h is not among the
sources) that `Group` reads through `get_key()`, `get_node().get_key()`,
`get_fs()` (null when the backend has no filesystem) with `get_key()`, and
`get_status()`. -/
structure Backend where
  key : String
  node_key : String
  fs_key : Option String
  status : Backend.Status
  deriving DecidableEq, Repr

/-- Modelled from the spec: a `Couple` (Couple.h is not among the sources), a
set of groups keyed by its sorted group ids. -/
structure Couple where
  m_key : String
  m_group_ids : List Int
  deriving DecidableEq, Repr

/-- Modelled from the spec: `Couple::get_key`. -/
def Couple.get_key (c : Couple) : String := c.m_key

/-- Modelled from the spec: `Couple::get_group_ids`, the ids of the groups the
couple binds. -/
def Couple.get_group_ids (c : Couple) : List Int := c.m_group_ids

/-- Modelled from the spec: `Couple::check`, which accepts an id list exactly
when it is the id list of the couple (after its creation a couple "is only
equal to that same id set"). -/
def Couple.check (c : Couple) (groups : List Int) : Bool :=
  decide (groups = c.m_group_ids)

/-- Modelled from the spec: the couple key, "sorted group ids joined by ':'". -/
def Couple.create_key (group_ids : List Int) : String :=
  String.intercalate ":" (group_ids.map toString)

/-- A `Namespace` (Namespace.cpp): its name and the set of its couples, held
by key. -/
structure Namespace where
  m_name : String
  m_couples : List String
  deriving DecidableEq, Repr

/-- The method `Namespace::add_couple`: insertion into the set of couples. -/
def Namespace.add_couple (n : Namespace) (couple : Couple) : Namespace :=
  if couple.m_key ∈ n.m_couples then n
  else { n with m_couples := n.m_couples ++ [couple.m_key] }

/-- Modelled from the spec: the part of `Storage` (Storage.h is not among the
sources) that `Group` uses: the couple and namespace indexes and the
configuration reached through `get_app().get_config()`. -/
structure Storage where
  m_couples : List Couple
  m_namespaces : List Namespace
  config : Config

/-- Modelled from the spec: `Storage::get_namespace`, which returns the
namespace of the given name, adding an empty one to the index when there is
none. The embedding returns the updated storage; the reference is the name. -/
def Storage.get_namespace (st : Storage) (name : String) : Storage :=
  if st.m_namespaces.any (fun n => n.m_name == name) then st
  else { st with m_namespaces := st.m_namespaces ++ [{ m_name := name, m_couples := [] }] }

/-- Modelled from the spec: lookup of a couple by key, `Storage::get_couple`. -/
def Storage.get_couple (st : Storage) (key : String) : Option Couple :=
  st.m_couples.find? (fun c => c.m_key == key)

/-! ## Group -/

/-- The enumeration `Group::Status`, as listed by `Group::status_str`. -/
inductive Group.Status where
  | INIT
  | COUPLED
  | BAD
  | BROKEN
  | RO
  | MIGRATING
  deriving DecidableEq, Repr

/-- The member `Group::m_service`. -/
structure Group.Service where
  migrating : Bool
  job_id : String
  deriving DecidableEq, Repr

/-- The fields of a `Group`. -/
structure Group where
  m_id : Int
  m_couple : Option Couple
  m_backends : List Backend
  m_clean : Bool
  m_metadata : List Nat
  m_status_text : String
  m_status : Group.Status
  m_metadata_process_start : Nat
  m_metadata_process_time : Nat
  m_frozen : Bool
  m_version : Int
  m_service : Group.Service
  m_namespace : Option String
  deriving DecidableEq, Repr

/-- The constructor `Group::Group(Storage &, int id)`. -/
def Group.new (id : Int) : Group where
  m_id := id
  m_couple := none
  m_backends := []
  m_clean := true
  m_metadata := []
  m_status_text := ""
  m_status := .INIT
  m_metadata_process_start := 0
  m_metadata_process_time := 0
  m_frozen := false
  m_version := 0
  m_service := { migrating := false, job_id := "" }
  m_namespace := none

/-- Modelled from the spec: `Storage::create_couple(group_ids, group)`
(Storage.cpp is not among the sources). A couple is created, under the key of
its ids, the first time a group reveals the id list; the group is bound to the
couple of that key. -/
def Storage.create_couple (st : Storage) (group_ids : List Int) (group : Group) :
    Storage × Group :=
  match st.get_couple (Couple.create_key group_ids) with
  | some c => (st, { group with m_couple := some c })
  | none =>
    let c : Couple := { m_key := Couple.create_key group_ids, m_group_ids := group_ids }
    ({ st with m_couples := st.m_couples ++ [c] }, { group with m_couple := some c })

/-- The environment of `Group::process_metadata`: the library function
`msgpack::unpack` (an error is the `what()` of the exception, or `none` for an
exception that is not a `std::exception`), the clock value stored by
`clock_start` and the time the `Stopwatch` records. -/
structure Runtime where
  unpack : List Nat → Except (Option String) MsgObject
  clock : Nat
  elapsed : Nat

/-! ## parse_couple -/

/-- The loop of `parse_couple`: every element must be a positive integer and
is pushed to the back of `couple`; the loop stops at the first other element
(the flag is what the function then returns). -/
def parse_couple_loop : List MsgObject → List Int → Bool × List Int
  | [], couple => (true, couple)
  | gr_obj :: rest, couple =>
    match gr_obj with
    | .POSITIVE_INTEGER u64 => parse_couple_loop rest (couple ++ [int_of_u64 u64])
    | _ => (false, couple)

/-- The function `parse_couple(obj, couple)`: the returned flag and the value
of the vector `couple` afterwards. `std::sort` is rendered by insertion sort
(the ascending arrangement of a list of integers is unique). -/
def parse_couple (obj : MsgObject) (couple : List Int) : Bool × List Int :=
  match obj with
  | .ARRAY array =>
    match parse_couple_loop array couple with
    | (true, pushed) => (true, pushed.insertionSort (· ≤ ·))
    | (false, pushed) => (false, pushed)
  | _ => (false, couple)

/-! ## Group::process_metadata -/

/-- The local variables `version`, `couple`, `ns`, `frozen`,
`service_migrating` and `service_job_id` of `Group::process_metadata`. -/
structure Group.Locals where
  version : Int
  couple : List Int
  ns : String
  frozen : Bool
  service_migrating : Bool
  service_job_id : String
  deriving DecidableEq, Repr

/-- The initial values of the locals (lines 166-171). -/
def Group.Locals.init : Group.Locals where
  version := 0
  couple := []
  ns := ""
  frozen := false
  service_migrating := false
  service_job_id := ""

/-- The body of the inner loop over the entries of the 'service' map (lines
217-242), for one entry: the locals with which the loop goes on, or the text
written to `ostr` before `ok = false; break`. -/
def Group.service_entry (key val : MsgObject) (l : Group.Locals) : Except String Group.Locals :=
  match key with
  | .RAW k =>
    if k = "status" then
      match val with
      | .RAW st =>
        if st = "MIGRATING" then .ok { l with service_migrating := true } else .ok l
      | _ => .ok l
    else if k = "job_id" then
      match val with
      | .RAW s => .ok { l with service_job_id := s }
      | _ => .error ("Invalid 'job_id' value type " ++ toString val.type)
    else .ok l
  | _ => .ok l

/-- The inner loop over the entries of the 'service' map (lines 216-243). -/
def Group.service_loop :
    List (MsgObject × MsgObject) → Group.Locals → Except String Group.Locals
  | [], l => .ok l
  | (key, val) :: rest, l =>
    match Group.service_entry key val l with
    | .ok l1 => Group.service_loop rest l1
    | .error text => .error text

/-- The body of the loop over the entries of the metadata map (lines 175-250),
for one entry: the locals with which the loop goes on, or the text written to
`ostr` before `break`. -/
def Group.map_entry (key val : MsgObject) (l : Group.Locals) : Except String Group.Locals :=
  match key with
  | .RAW k =>
    if k = "version" then
      match val with
      | .POSITIVE_INTEGER u64 => .ok { l with version := int_of_u64 u64 }
      | _ => .error ("Invalid 'version' value type " ++ toString val.type)
    else if k = "couple" then
      match parse_couple val l.couple with
      | (true, couple) => .ok { l with couple := couple }
      | (false, _) => .error "Couldn't parse 'couple'\n"
    else if k = "namespace" then
      match val with
      | .RAW s => .ok { l with ns := s }
      | _ => .error ("Invalid 'namespace' value type " ++ toString val.type)
    else if k = "frozen" then
      match val with
      | .BOOLEAN b => .ok { l with frozen := b }
      | _ => .error ("Invalid 'frozen' value type " ++ toString val.type)
    else if k = "service" then
      match val with
      | .MAP srv => Group.service_loop srv l
      | _ => .error ("Invalid 'service' value type " ++ toString val.type)
    else .ok l
  | _ => .ok l

/-- The loop over the entries of the metadata map (lines 174-251). -/
def Group.map_loop :
    List (MsgObject × MsgObject) → Group.Locals → Except String Group.Locals
  | [], l => .ok l
  | (key, val) :: rest, l =>
    match Group.map_entry key val l with
    | .ok l1 => Group.map_loop rest l1
    | .error text => .error text

/-- Lines 166-258 of `Group::process_metadata`: the locals decoded from the
unpacked object, or the text written to `ostr`. An object that is neither a
map nor an array leaves the locals at their initial values. -/
def Group.decode (obj : MsgObject) : Except String Group.Locals :=
  match obj with
  | .MAP map => Group.map_loop map Group.Locals.init
  | .ARRAY _ =>
    match parse_couple obj Group.Locals.init.couple with
    | (true, couple) =>
      .ok { Group.Locals.init with version := 1, ns := "default", couple := couple }
    | (false, _) => .error "Couldn't parse couple (format of version 1)"
  | _ => .ok Group.Locals.init

/-- The loop over the backends (lines 317-327): the flags `have_bad`,
`have_ro` and `have_other`, the loop leaving at the first BAD backend. -/
def Group.backends_loop : List Backend → Bool × Bool × Bool → Bool × Bool × Bool
  | [], flags => flags
  | backend :: rest, (have_bad, have_ro, have_other) =>
    if backend.status = Backend.Status.BAD then (true, have_ro, have_other)
    else if backend.status = Backend.Status.RO then
      Group.backends_loop rest (have_bad, true, have_other)
    else if backend.status ≠ Backend.Status.OK then
      Group.backends_loop rest (have_bad, have_ro, true)
    else Group.backends_loop rest (have_bad, have_ro, have_other)

/-- Lines 304-350 of `Group::process_metadata`: the status and status text
derived from the backends. -/
def Group.derive_status (st : Storage) (g : Group) : Group :=
  if g.m_backends.isEmpty then
    { g with m_status := .INIT, m_status_text := "No node backends" }
  else if g.m_backends.length > 1 ∧ st.config.forbidden_dht_groups ≠ 0 then
    { g with
      m_status := .BROKEN
      m_status_text := "DHT groups are forbidden but the group has "
        ++ toString g.m_backends.length ++ " backends" }
  else
    match Group.backends_loop g.m_backends (false, false, false) with
    | (have_bad, have_ro, have_other) =>
      if have_bad then
        { g with m_status := .BROKEN, m_status_text := "Some of backends are in state BROKEN" }
      else if have_ro then
        if g.m_service.migrating then
          { g with
            m_status := .MIGRATING
            m_status_text := "Group is migrating, job id is '" ++ g.m_service.job_id ++ "'" }
        else
          { g with
            m_status := .RO
            m_status_text := "Group is read-only because it has read-only backends" }
      else if have_other then
        { g with
          m_status := .BAD
          m_status_text := "Group is in state BAD because some of backends are not in state OK" }
      else
        { g with m_status := .COUPLED, m_status_text := "Group is OK" }

/-- The text `ostr << id << ' '` for each id of the list, in order. -/
def Group.ids_text (ids : List Int) : String :=
  ids.foldl (fun text id => text ++ toString id ++ " ") ""

/-- Lines 282-350 of `Group::process_metadata`: the couple check or the
creation of the couple, followed by the derivation of the status. -/
def Group.bind_couple (st : Storage) (g : Group) (couple : List Int) : Storage × Group :=
  match g.m_couple with
  | some m_couple =>
    if !m_couple.check couple then
      (st, { g with
        m_status_text := "Couple in group metadata [ " ++ Group.ids_text couple
          ++ "] doesn't match to existing one [ "
          ++ Group.ids_text m_couple.get_group_ids ++ "]"
        m_status := .BAD })
    else (st, Group.derive_status st g)
  | none =>
    match st.create_couple couple g with
    | (st1, g1) => (st1, Group.derive_status st1 g1)

/-- The method `Group::process_metadata`. -/
def Group.process_metadata (rt : Runtime) (st : Storage) (g : Group) : Storage × Group :=
  if g.m_clean then (st, g)
  else
    let g0 : Group :=
      { g with
        m_metadata_process_start := rt.clock
        m_metadata_process_time := rt.elapsed
        m_clean := true
        m_status_text := "" }
    match rt.unpack g.m_metadata with
    | .error (some what) =>
      (st, { g0 with
        m_status_text := "msgpack could not parse group metadata: " ++ what
        m_status := .BAD })
    | .error none =>
      (st, { g0 with
        m_status_text := "msgpack could not parse group metadta with unknown reason"
        m_status := .BAD })
    | .ok obj =>
      match Group.decode obj with
      | .error text => (st, { g0 with m_status_text := text, m_status := .BAD })
      | .ok l =>
        let g1 : Group :=
          { g0 with
            m_version := l.version
            m_frozen := l.frozen
            m_service := { migrating := l.service_migrating, job_id := l.service_job_id } }
        match g1.m_namespace with
        | none =>
          Group.bind_couple (st.get_namespace l.ns) { g1 with m_namespace := some l.ns } l.couple
        | some name =>
          if name ≠ l.ns then
            (st, { g1 with
              m_status := .BAD
              m_status_text := "Group moved to another namespace: '" ++ name ++ "' -> '"
                ++ l.ns ++ "'" })
          else Group.bind_couple st g1 l.couple

/-! ## Group::match -/

/-- The comparison `operator<` of `int`. -/
def int_less (a b : Int) : Bool := decide (a < b)

/-- The comparison `operator<` of `std::string`: lexicographic on the
character sequences. -/
def string_less (a b : String) : Bool := decide (a.toList < b.toList)

/-- The range is ascending for `less`: no element is less than an earlier
one (`std::is_sorted`). -/
def is_sorted {α : Type} (less : α → α → Bool) (xs : List α) : Prop :=
  xs.Pairwise (fun a b => less b a = false)

instance {α : Type} (less : α → α → Bool) (xs : List α) : Decidable (is_sorted less xs) := by
  unfold is_sorted; infer_instance

/-- The loop of `std::lower_bound` on the range `[first, first + count)` of
`xs`; the first argument bounds the number of iterations (each iteration at
least halves `count`, so `count` iterations are enough). -/
def lower_bound_loop {α : Type} (less : α → α → Bool) (xs : List α) (value : α) :
    Nat → Nat → Nat → Nat
  | 0, first, _ => first
  | fuel + 1, first, count =>
    if 0 < count then
      match xs[first + count / 2]? with
      | some x =>
        if less x value then
          lower_bound_loop less xs value fuel (first + count / 2 + 1) (count - (count / 2 + 1))
        else lower_bound_loop less xs value fuel first (count / 2)
      | none => first
    else first

/-- The algorithm `std::lower_bound(xs.begin(), xs.end(), value)`, as an index. -/
def lower_bound {α : Type} (less : α → α → Bool) (xs : List α) (value : α) : Nat :=
  lower_bound_loop less xs value xs.length 0 xs.length

/-- The algorithm `std::binary_search(xs.begin(), xs.end(), value)`:
`first != last && !(value < *first)` for `first` the lower bound. -/
def binary_search {α : Type} (less : α → α → Bool) (xs : List α) (value : α) : Bool :=
  match xs[lower_bound less xs value]? with
  | some x => !less value x
  | none => false

/-- Modelled from the spec: the record `Filter` (Filter.h is not among the
sources), an id array per entity kind. -/
structure Filter where
  groups : List Int
  couples : List String
  namespaces : List String
  nodes : List String
  backends : List String
  filesystems : List String
  deriving DecidableEq, Repr

/-- Modelled from the spec: the bit of the entity kind Group in `item_types`
(the enumeration of Filter.h is not among the sources; one bit per kind). -/
def Filter.Group : Nat := 1

/-- Modelled from the spec: the bit of the entity kind Couple. -/
def Filter.Couple : Nat := 2

/-- Modelled from the spec: the bit of the entity kind Namespace. -/
def Filter.Namespace : Nat := 4

/-- Modelled from the spec: the bit of the entity kind Node. -/
def Filter.Node : Nat := 8

/-- Modelled from the spec: the bit of the entity kind Backend. -/
def Filter.Backend : Nat := 16

/-- Modelled from the spec: the bit of the entity kind FS. -/
def Filter.FS : Nat := 32

/-- The loop over the backends in `Group::match` (lines 481-502), with the
flags `found_node`, `found_backend` and `found_fs` carried from one backend to
the next. -/
def Group.match_loop (filter : Filter) (check_nodes check_backends check_fs : Bool) :
    List Mastermind.Backend → Bool → Bool → Bool → Bool
  | [], _, _, _ => false
  | backend :: rest, found_node, found_backend, found_fs =>
    let found_node1 :=
      if check_nodes && !found_node then
        if !binary_search string_less filter.nodes backend.node_key then true else found_node
      else found_node
    let found_backend1 :=
      if check_backends && !found_backend then
        if binary_search string_less filter.backends backend.key then true else found_backend
      else found_backend
    let found_fs1 :=
      if check_fs && !found_fs then
        match backend.fs_key with
        | some fs_key =>
          if binary_search string_less filter.filesystems fs_key then true else found_fs
        | none => found_fs
      else found_fs
    if check_nodes == found_node1 && check_backends == found_backend1
        && check_fs == found_fs1 then true
    else Group.match_loop filter check_nodes check_backends check_fs rest
      found_node1 found_backend1 found_fs1

/-- The local `check_nodes` of `Group::match` (line 472). -/
def Filter.check_nodes (filter : Filter) (item_types : Nat) : Bool :=
  item_types &&& Filter.Node != 0 && !filter.nodes.isEmpty

/-- The local `check_backends` of `Group::match` (line 473). -/
def Filter.check_backends (filter : Filter) (item_types : Nat) : Bool :=
  item_types &&& Filter.Backend != 0 && !filter.backends.isEmpty

/-- The local `check_fs` of `Group::match` (line 474). -/
def Filter.check_fs (filter : Filter) (item_types : Nat) : Bool :=
  item_types &&& Filter.FS != 0 && !filter.filesystems.isEmpty

/-- The method `Group::match(filter, item_types)`. -/
def Group.match_ (g : Mastermind.Group) (filter : Filter) (item_types : Nat) : Bool :=
  if (item_types &&& Filter.Group != 0 && !filter.groups.isEmpty)
      && !binary_search int_less filter.groups g.m_id then false
  else if (item_types &&& Filter.Namespace != 0 && !filter.namespaces.isEmpty)
      && (match g.m_namespace with
        | none => true
        | some name => !binary_search string_less filter.namespaces name) then false
  else if (item_types &&& Filter.Couple != 0 && !filter.couples.isEmpty)
      && (match g.m_couple with
        | none => true
        | some couple => !binary_search string_less filter.couples couple.get_key) then false
  else if filter.check_nodes item_types || filter.check_backends item_types
      || filter.check_fs item_types then
    Group.match_loop filter (filter.check_nodes item_types) (filter.check_backends item_types)
      (filter.check_fs item_types) g.m_backends false false false
  else true

/-- The test the loop of `Group::match` makes on a backend for the Node
constraint (line 483). -/
def Backend.node_hit (filter : Filter) (backend : Backend) : Bool :=
  !binary_search string_less filter.nodes backend.node_key

/-- The test the loop of `Group::match` makes on a backend for the Backend
constraint (line 488). -/
def Backend.backend_hit (filter : Filter) (backend : Backend) : Bool :=
  binary_search string_less filter.backends backend.key

/-- The test the loop of `Group::match` makes on a backend for the FS
constraint (line 493). -/
def Backend.fs_hit (filter : Filter) (backend : Backend) : Bool :=
  match backend.fs_key with
  | some fs_key => binary_search string_less filter.filesystems fs_key
  | none => false

/-- The comparison is a strict total order. -/
structure StrictTotal {α : Type} (less : α → α → Bool) : Prop where
  irrefl : ∀ a, less a a = false
  trans : ∀ a b c, less a b = true → less b c = true → less a c = true
  total : ∀ a b, less a b = false → less b a = false → a = b

/-- The group, namespace and couple criteria of a filter, in the words of the
specification of `Group.match`: each kind restricts unless its bit is unset or
its list is empty. -/
def Group.passes_criteria (g : Group) (filter : Filter) (item_types : Nat) : Prop :=
  (item_types &&& Filter.Group = 0 ∨ filter.groups = [] ∨ g.m_id ∈ filter.groups) ∧
  (item_types &&& Filter.Namespace = 0 ∨ filter.namespaces = [] ∨
    ∃ name, g.m_namespace = some name ∧ name ∈ filter.namespaces) ∧
  (item_types &&& Filter.Couple = 0 ∨ filter.couples = [] ∨
    ∃ couple, g.m_couple = some couple ∧ couple.get_key ∈ filter.couples)

instance (statuses : Multiset Backend.Status) :
    Decidable (∃ status ∈ statuses, status ≠ Backend.Status.OK) :=
  Multiset.decidableExistsMultiset

/-- The rule table of the specification for the status of a group, on the
multiset of the statuses of its backends: the first rule that applies gives
the status. -/
def status_table (statuses : Multiset Backend.Status) (forbidden_dht_groups migrating : Bool) :
    Group.Status :=
  if Multiset.card statuses = 0 then .INIT
  else if 1 < Multiset.card statuses ∧ forbidden_dht_groups = true then .BROKEN
  else if Backend.Status.BAD ∈ statuses then .BROKEN
  else if Backend.Status.RO ∈ statuses ∧ migrating = true then .MIGRATING
  else if Backend.Status.RO ∈ statuses then .RO
  else if ∃ status ∈ statuses, status ≠ Backend.Status.OK then .BAD
  else .COUPLED

/-- The listing of ids in a status text, in the words of the specification:
each id followed by one space. -/
def ids_listing : List Int → String
  | [] => ""
  | id :: rest => toString id ++ " " ++ ids_listing rest

/-! ## The entries of a metadata map -/

/-- The key of a map entry is the string `name`. -/
def MsgObject.key_is (key : MsgObject) (name : String) : Bool :=
  match key with
  | .RAW k => decide (k = name)
  | _ => false

/-- The value of the last entry of a msgpack map whose key is the string
`name` (the entry that counts when a key occurs more than once). -/
def MsgObject.lookup : List (MsgObject × MsgObject) → String → Option MsgObject
  | [], _ => none
  | kv :: rest, name =>
    (MsgObject.lookup rest name).orElse
      (fun _ => if kv.1.key_is name then some kv.2 else none)

/-- The key of an entry is one of the strings the loop over the metadata map
tests for. -/
def Group.map_key_known (key : MsgObject) : Bool :=
  match key with
  | .RAW k =>
    decide (k = "version") || decide (k = "couple") || decide (k = "namespace")
      || decide (k = "frozen") || decide (k = "service")
  | _ => false

/-- The key of an entry is one of the strings the loop over the 'service' map
tests for. -/
def Group.service_key_known (key : MsgObject) : Bool :=
  match key with
  | .RAW k => decide (k = "status") || decide (k = "job_id")
  | _ => false

/-- The object is an array of positive integers. -/
def MsgObject.is_id_array (obj : MsgObject) : Prop :=
  ∃ ids : List Nat, obj = .ARRAY (ids.map MsgObject.POSITIVE_INTEGER)

/-- The malformed metadata objects, in the words of the specification: a map
with a 'version' that is not a positive integer, a 'namespace' that is not a
string, a 'frozen' that is not a boolean, a 'service' that is not a map, a
'job_id' of a 'service' map that is not a string or a 'couple' that is not an
array of positive integers, or a bare array that is not an array of positive
integers. -/
def Group.metadata_malformed (obj : MsgObject) : Prop :=
  (∃ map, obj = .MAP map ∧
    ((∃ v, (MsgObject.RAW "version", v) ∈ map ∧ ∀ u, v ≠ .POSITIVE_INTEGER u) ∨
     (∃ v, (MsgObject.RAW "namespace", v) ∈ map ∧ ∀ s, v ≠ .RAW s) ∨
     (∃ v, (MsgObject.RAW "frozen", v) ∈ map ∧ ∀ b, v ≠ .BOOLEAN b) ∨
     (∃ v, (MsgObject.RAW "service", v) ∈ map ∧ ∀ srv, v ≠ .MAP srv) ∨
     (∃ srv v, (MsgObject.RAW "service", MsgObject.MAP srv) ∈ map ∧
        (MsgObject.RAW "job_id", v) ∈ srv ∧ ∀ s, v ≠ .RAW s) ∨
     (∃ v, (MsgObject.RAW "couple", v) ∈ map ∧ ¬ v.is_id_array))) ∨
  (∃ array, obj = .ARRAY array ∧ ¬ obj.is_id_array)

/-! ## Group::set_status_text and Group::merge -/

/-- The method `Group::set_status_text`. -/
def Group.set_status_text (g : Group) (status_text : String) : Group :=
  { g with m_status_text := status_text }

/-- The call `m_namespace->add_couple(*m_couple)` on the namespace of the
given name in the storage index. -/
def Storage.add_couple (st : Storage) (name : String) (couple : Couple) : Storage :=
  { st with
    m_namespaces :=
      st.m_namespaces.map (fun n => if n.m_name = name then n.add_couple couple else n) }

/-- Lines 396-419 of `Group::merge`: the couple of `other`. The branches that
only write to the log leave the state as it is. -/
def Group.merge_couple (st : Storage) (g other : Group) : Storage × Group :=
  match other.m_couple with
  | some other_couple =>
    match g.m_couple with
    | none =>
      match st.get_couple other_couple.get_key with
      | some couple => (st, { g with m_couple := some couple })
      | none => st.create_couple other_couple.get_group_ids g
    | some _ => (st, g)
  | none => (st, g)

/-- Lines 421-432 of `Group::merge`: the namespace of `other`. -/
def Group.merge_namespace (st : Storage) (g other : Group) : Storage × Group :=
  match other.m_namespace with
  | some other_name =>
    match g.m_namespace with
    | none => (st.get_namespace other_name, { g with m_namespace := some other_name })
    | some _ => (st, g)
  | none => (st, g)

/-- The method `Group::merge(other)`. The messages written to the log are not
part of the state. -/
def Group.merge (st : Storage) (g other : Group) : Storage × Group :=
  if g.m_metadata_process_start ≥ other.m_metadata_process_start then (st, g)
  else
    let g1 : Group :=
      { g with
        m_clean := other.m_clean
        m_metadata := other.m_metadata
        m_status_text := other.m_status_text
        m_status := other.m_status
        m_metadata_process_start := other.m_metadata_process_start
        m_metadata_process_time := other.m_metadata_process_time
        m_frozen := other.m_frozen
        m_version := other.m_version
        m_service := { migrating := other.m_service.migrating, job_id := other.m_service.job_id } }
    match Group.merge_couple st g1 other with
    | (st2, g2) =>
      match Group.merge_namespace st2 g2 other with
      | (st3, g3) =>
        match g3.m_couple, g3.m_namespace with
        | some couple, some name => (st3.add_couple name couple, g3)
        | _, _ => (st3, g3)

/-! ## CocaineHandlers.cpp -/

/-- What a handler sends on its response stream. -/
inductive Response where
  | error (code : Int) (message : String)
  | close
  deriving DecidableEq, Repr

/-- A call of a handler to the collector; the handler passes itself, of which
the filter is kept. -/
inductive Collector.Call where
  | summary
  | force_update
  | get_snapshot (filter : Filter)
  | refresh (filter : Filter)
  deriving DecidableEq, Repr

/-- The effects of one `on_chunk`: the lines written to the log, what is sent
on the response stream, and the calls to the collector, each in order. -/
structure Handler.Effects where
  log : List String
  response : List Response
  collector : List Collector.Call
  deriving DecidableEq, Repr

/-- The C string of a request, `request.c_str()` read as a string: the
characters before the first NUL. -/
def c_str (request : String) : String :=
  String.mk (request.toList.takeWhile (fun c => c != Char.ofNat 0))

/-- Modelled from the spec: a run of `FilterParser` (FilterParser.h is not
among the sources) over a text, given the filter it fills: the filter
afterwards and the value of `good()`. -/
structure FilterParser where
  parse : String → Filter → Filter × Bool

/-- The handler `on_summary::on_chunk`. -/
def on_summary.on_chunk (_chunk : String) : Handler.Effects where
  log := []
  response := []
  collector := [.summary]

/-- The handler `on_force_update::on_chunk`. -/
def on_force_update.on_chunk (_chunk : String) : Handler.Effects where
  log := ["Request to force update"]
  response := []
  collector := [.force_update]

/-- The handler `on_get_snapshot::on_chunk`, on a handler whose filter is
`m_filter`: the filter afterwards and the effects. -/
def on_get_snapshot.on_chunk (parser : FilterParser) (m_filter : Filter) (chunk : String) :
    Filter × Handler.Effects :=
  let log := ["Snapshot requested: '" ++ chunk ++ "'"]
  if chunk ≠ "" then
    match parser.parse (c_str chunk) m_filter with
    | (filter, good) =>
      if !good then
        (filter, { log := log
                   response := [.error (-1) "Incorrect filter syntax", .close]
                   collector := [] })
      else (filter, { log := log, response := [], collector := [.get_snapshot filter] })
  else (m_filter, { log := log, response := [], collector := [.get_snapshot m_filter] })

/-- The handler `on_refresh::on_chunk`, on a handler whose filter is
`m_filter`: the filter afterwards and the effects. -/
def on_refresh.on_chunk (parser : FilterParser) (m_filter : Filter) (chunk : String) :
    Filter × Handler.Effects :=
  let log := ["Refresh requested: '" ++ chunk ++ "'"]
  if chunk ≠ "" then
    match parser.parse (c_str chunk) m_filter with
    | (filter, good) =>
      if !good then
        (filter, { log := log
                   response := [.error (-1) "Incorrect filter syntax", .close]
                   collector := [] })
      else (filter, { log := log, response := [], collector := [.refresh filter] })
  else (m_filter, { log := log, response := [], collector := [.refresh m_filter] })

/-! ## Round.cpp: the metadata stage -/

/-- A function handed to `dispatch_async_f` on the queue of the round, with
its argument. -/
inductive Round.Task where
  | step2_curl_download
  | step3_prepare_metadata_download
  | step4_perform_update
  | request_group_metadata (group : Int)
  | parse_stats (node : String)
  deriving DecidableEq, Repr

/-- A call of the round to the storage or to the collector. -/
inductive Round.Call where
  | update_group_structure
  | update
  | finalize_round
  deriving DecidableEq, Repr

/-- Modelled from the spec: the part of a `Round` (Round.h is not among the
sources) that the metadata stage uses: the counter `m_nr_groups` of the
outstanding metadata reads, an integer that is decremented as one step, the
tasks dispatched on `m_queue` so far and the calls made to the storage and the
collector so far, each in order. Clock points are not part of the state. -/
structure Round where
  m_nr_groups : Int
  m_queue : List Round.Task
  m_calls : List Round.Call
  deriving DecidableEq, Repr

/-- The function `Round::step3_prepare_metadata_download`; `groups` are the
ids of the groups of the storage after `update_group_structure()`. -/
def Round.step3_prepare_metadata_download (self : Round) (groups : List Int) : Round :=
  { self with
    m_calls := self.m_calls ++ [.update_group_structure]
    m_nr_groups := (groups.length : Int)
    m_queue := self.m_queue ++ groups.map Round.Task.request_group_metadata }

/-- The function `Round::step4_perform_update`. -/
def Round.step4_perform_update (self : Round) : Round :=
  { self with m_calls := self.m_calls ++ [.update, .finalize_round] }

/-- The method `Round::handle_group_download_completed`. -/
def Round.handle_group_download_completed (self : Round) : Round :=
  if self.m_nr_groups - 1 = 0 then
    { self with
      m_nr_groups := self.m_nr_groups - 1
      m_queue := self.m_queue ++ [.step4_perform_update] }
  else { self with m_nr_groups := self.m_nr_groups - 1 }

/-- The method `Round::GroupMetadataHandle::final`, on the round and the group
of the handle; `error` is the message of the error, `none` when the read ended
without error. -/
def Round.GroupMetadataHandle.final (error : Option String) (m_round : Round)
    (m_group : Group) : Round × Group :=
  match error with
  | some message =>
    (m_round.handle_group_download_completed,
      m_group.set_status_text ("Metadata download failed: " ++ message))
  | none => (m_round.handle_group_download_completed, m_group)

/-! ## Scenarios -/

/-- Scenario S5: groups 1, 2 and 3 in the namespaces A, A and B. -/
def scenario_S5_groups : List Group :=
  [ { Group.new 1 with m_namespace := some "A" },
    { Group.new 2 with m_namespace := some "A" },
    { Group.new 3 with m_namespace := some "B" } ]

/-- The filter with no id at all. -/
def Filter.none : Filter where
  groups := []
  couples := []
  namespaces := []
  nodes := []
  backends := []
  filesystems := []

/-- A group with two backends on the node `h1:1025:2`: the first has no
filesystem, the second is on the filesystem 42. -/
def two_backend_group : Group :=
  { Group.new 7 with
    m_backends :=
      [ { key := "h1:1025:2/1", node_key := "h1:1025:2", fs_key := none, status := .OK },
        { key := "h1:1025:2/2", node_key := "h1:1025:2", fs_key := some "h1:1025:2/42",
          status := .OK } ] }

/-- A filter that names the first backend of `two_backend_group` and the
filesystem of the second. -/
def backend_and_fs_filter : Filter :=
  { Filter.none with backends := ["h1:1025:2/1"], filesystems := ["h1:1025:2/42"] }

/-- A group with one backend, on the node `h1:1025:2`. -/
def single_backend_group : Group :=
  { Group.new 7 with
    m_backends :=
      [ { key := "h1:1025:2/1", node_key := "h1:1025:2", fs_key := none, status := .OK } ] }

/-- A runtime in which `msgpack::unpack` yields the given object. -/
def Runtime.yielding (obj : MsgObject) : Runtime where
  unpack := fun _ => .ok obj
  clock := 1
  elapsed := 0

/-- A storage with no couple and no namespace. -/
def Storage.init (config : Config) : Storage where
  m_couples := []
  m_namespaces := []
  config := config

/-- Scenario S1: the metadata `{version:2, couple:[7], namespace:"ns",
frozen:false}` of group 7. -/
def metadata_S1 : MsgObject :=
  .MAP [(.RAW "version", .POSITIVE_INTEGER 2), (.RAW "couple", .ARRAY [.POSITIVE_INTEGER 7]),
    (.RAW "namespace", .RAW "ns"), (.RAW "frozen", .BOOLEAN false)]

/-- Scenario S3: the metadata of S1 with
`service:{status:"MIGRATING", job_id:"job-42"}`. -/
def metadata_S3 : MsgObject :=
  .MAP [(.RAW "version", .POSITIVE_INTEGER 2), (.RAW "couple", .ARRAY [.POSITIVE_INTEGER 7]),
    (.RAW "namespace", .RAW "ns"), (.RAW "frozen", .BOOLEAN false),
    (.RAW "service", .MAP [(.RAW "status", .RAW "MIGRATING"), (.RAW "job_id", .RAW "job-42")])]

/-- Scenario S4: the metadata `{couple:[3,5], namespace:"ns"}` of group 3. -/
def metadata_S4 : MsgObject :=
  .MAP [(.RAW "couple", .ARRAY [.POSITIVE_INTEGER 3, .POSITIVE_INTEGER 5]),
    (.RAW "namespace", .RAW "ns")]

/-- Scenario S3: group 7 with pending metadata and one read-only backend. -/
def group_S3 : Group :=
  { Group.new 7 with
    m_clean := false
    m_backends :=
      [ { key := "h1:1025:2/1", node_key := "h1:1025:2", fs_key := some "h1:1025:2/42",
          status := .RO } ] }

/-- Scenario S4: group 3 with pending metadata, bound to the couple `3:4` and
to the namespace `ns`. -/
def group_S4 : Group :=
  { Group.new 3 with
    m_clean := false
    m_couple := some { m_key := "3:4", m_group_ids := [3, 4] }
    m_namespace := some "ns" }

/-- The storage of scenario S4: the couple `3:4` in the namespace `ns`. -/
def storage_S4 : Storage where
  m_couples := [{ m_key := "3:4", m_group_ids := [3, 4] }]
  m_namespaces := [{ m_name := "ns", m_couples := ["3:4"] }]
  config := Config.new

/-- Scenario S1: group 7 with pending metadata and one backend in status OK. -/
def group_S1 : Group :=
  { Group.new 7 with
    m_clean := false
    m_backends :=
      [ { key := "h1:1025:2/1", node_key := "h1:1025:2", fs_key := some "h1:1025:2/42",
          status := .OK } ] }

/-- The metadata of scenario S3 with an entry of unknown key and an entry
whose key is not a string. -/
def metadata_S3_extra : MsgObject :=
  .MAP [(.RAW "version", .POSITIVE_INTEGER 2), (.RAW "future_field", .NIL),
    (.RAW "couple", .ARRAY [.POSITIVE_INTEGER 7]), (.POSITIVE_INTEGER 1, .RAW "x"),
    (.RAW "namespace", .RAW "ns"), (.RAW "frozen", .BOOLEAN false),
    (.RAW "service", .MAP [(.RAW "status", .RAW "MIGRATING"), (.RAW "job_id", .RAW "job-42")])]

/-- A round at the start of its metadata stage: the tasks of the first stages
have been dispatched. -/
def Round.at_step3 : Round where
  m_nr_groups := 0
  m_queue := [.step2_curl_download, .step3_prepare_metadata_download]
  m_calls := []

/-! ## Round.cpp: the download stage -/

/-- A call of `Round::perform_download` that creates or releases a handle or a
descriptor, or that drops the download buffer of a node, recorded when it
succeeds. An easy handle is named by the key of the node it was created for,
the node stored as its `CURLOPT_PRIVATE`. -/
inductive Curl.Call where
  | curl_multi_init
  | curl_multi_cleanup
  | epoll_create (fd : Nat)
  | close (fd : Int)
  | curl_easy_init (node : String)
  | curl_multi_add_handle (easy : String)
  | curl_multi_remove_handle (easy : String)
  | curl_easy_cleanup (easy : String)
  | drop_download_data (node : String)
  deriving DecidableEq, Repr

/-- The outcome of one `epoll_wait(m_epollfd, &event, 1, 100)`: `rc < 0` with
`errno == EINTR`, `rc < 0` with another error, `rc == 0`, or `rc > 0` with the
descriptor of the event. -/
inductive Epoll.Wait where
  | eintr
  | failed
  | timeout
  | ready (fd : Int)
  deriving DecidableEq, Repr

/-- A message returned by `curl_multi_info_read`: whether `msg->msg` is
`CURLMSG_DONE`, the easy handle, whether `curl_easy_getinfo(easy,
CURLINFO_PRIVATE, &node)` returns `CURLE_OK`, and `msg->data.result`. -/
structure Curl.Msg where
  is_done : Bool
  easy_handle : String
  getinfo_ok : Bool
  result : Nat
  deriving DecidableEq, Repr

/-- The code `CURLE_OK`. -/
def CURLE_OK : Nat := 0

/-- One turn of the wait loop of `perform_download`, as libcurl and the system
answer it: the outcome of `epoll_wait`, the number that
`curl_multi_socket_action` stores in `running_handles`, and the messages that
`curl_multi_info_read` returns before it returns null. -/
structure Curl.Turn where
  wait : Epoll.Wait
  running_handles : Nat
  msgs : List Curl.Msg
  deriving DecidableEq, Repr

/-- What libcurl and the system answer during one `perform_download`: whether
`curl_multi_init` returns a handle, the descriptor `epoll_create` returns
(`none` for -1), for which nodes `curl_easy_init` returns a handle, the number
of running handles after the first `curl_multi_socket_action`, and the turns
of the wait loop. -/
structure Curl.Env where
  curl_multi_init : Bool
  epoll_create : Option Nat
  curl_easy_init : String → Bool
  kickstart : Nat
  turns : List Curl.Turn

/-- Modelled from the spec: the part of a `Round` (Round.h is not among the
sources) that the download stage uses besides its queue: whether
`m_curl_handle` is non-null, `m_epollfd`, and the calls made so far. -/
structure Round.Transfer where
  m_curl_handle : Bool
  m_epollfd : Int
  m_calls : List Curl.Call
  deriving DecidableEq, Repr

/-- The members of a `Round` as the constructors leave them: `m_epollfd(-1)`,
`m_curl_handle(nullptr)`. -/
def Round.Transfer.new : Round.Transfer where
  m_curl_handle := false
  m_epollfd := -1
  m_calls := []

/-- The destructor `CurlGuard::~CurlGuard`, on the members it refers to. -/
def CurlGuard.destroy (io : Round.Transfer) : Round.Transfer :=
  let io1 :=
    if io.m_curl_handle then
      { io with m_calls := io.m_calls ++ [.curl_multi_cleanup], m_curl_handle := false }
    else io
  if io1.m_epollfd ≥ 0 then
    { io1 with m_calls := io1.m_calls ++ [.close io1.m_epollfd], m_epollfd := -1 }
  else io1

/-- The loop of `perform_download` over the nodes of the storage, by key:
`create_easy_handle` and `curl_multi_add_handle`. The flag is false when
`create_easy_handle` returned null, where the function returns -1. -/
def Round.perform_download.add_nodes (env : Curl.Env) :
    List String → Round.Transfer → Bool × Round.Transfer
  | [], io => (true, io)
  | node :: rest, io =>
    if env.curl_easy_init node then
      Round.perform_download.add_nodes env rest
        { io with m_calls := io.m_calls ++ [.curl_easy_init node, .curl_multi_add_handle node] }
    else (false, io)

/-- The body of the `do` loop of `perform_download` for one message. The flag
is false where the function returns -1. -/
def Round.perform_download.on_msg (msg : Curl.Msg) (self : Round) (io : Round.Transfer) :
    Bool × Round × Round.Transfer :=
  if msg.is_done then
    if !msg.getinfo_ok then (false, self, io)
    else if msg.result = CURLE_OK then
      (true, { self with m_queue := self.m_queue ++ [.parse_stats msg.easy_handle] },
        { io with m_calls := io.m_calls ++
            [.curl_multi_remove_handle msg.easy_handle, .curl_easy_cleanup msg.easy_handle] })
    else
      (true, self,
        { io with m_calls := io.m_calls ++
            [.drop_download_data msg.easy_handle,
             .curl_multi_remove_handle msg.easy_handle, .curl_easy_cleanup msg.easy_handle] })
  else (true, self, io)

/-- The `do ... while (msg)` loop of `perform_download` over the messages
`curl_multi_info_read` returns. -/
def Round.perform_download.read_msgs :
    List Curl.Msg → Round → Round.Transfer → Bool × Round × Round.Transfer
  | [], self, io => (true, self, io)
  | msg :: rest, self, io =>
    match Round.perform_download.on_msg msg self io with
    | (true, self1, io1) => Round.perform_download.read_msgs rest self1 io1
    | (false, self1, io1) => (false, self1, io1)

/-- The loop `while (running_handles)` of `perform_download`, over the turns
the environment answers; `none` when the loop is still running after them. -/
def Round.perform_download.wait_loop :
    List Curl.Turn → Nat → Round → Round.Transfer → Option (Int × Round × Round.Transfer)
  | _, 0, self, io => some (0, self, io)
  | [], _ + 1, _, _ => none
  | turn :: rest, running + 1, self, io =>
    match turn.wait with
    | .eintr => Round.perform_download.wait_loop rest (running + 1) self io
    | .failed => some (-1, self, io)
    | _ =>
      match Round.perform_download.read_msgs turn.msgs self io with
      | (true, self1, io1) =>
        Round.perform_download.wait_loop rest turn.running_handles self1 io1
      | (false, self1, io1) => some (-1, self1, io1)

/-- The function `Round::perform_download` up to its `return` statements;
`nodes` are the keys of the nodes of the storage, in order. -/
def Round.perform_download.body (env : Curl.Env) (nodes : List String) (self : Round)
    (io : Round.Transfer) : Option (Int × Round × Round.Transfer) :=
  if !env.curl_multi_init then some (-1, self, { io with m_curl_handle := false })
  else
    let io1 : Round.Transfer :=
      { io with m_curl_handle := true, m_calls := io.m_calls ++ [.curl_multi_init] }
    match env.epoll_create with
    | none => some (-1, self, { io1 with m_epollfd := -1 })
    | some fd =>
      let io2 : Round.Transfer :=
        { io1 with m_epollfd := (fd : Int), m_calls := io1.m_calls ++ [.epoll_create fd] }
      match Round.perform_download.add_nodes env nodes io2 with
      | (false, io3) => some (-1, self, io3)
      | (true, io3) => Round.perform_download.wait_loop env.turns env.kickstart self io3

/-- The function `Round::perform_download`: the body, then the destructor of
the `CurlGuard` on the way out. -/
def Round.perform_download (env : Curl.Env) (nodes : List String) (self : Round)
    (io : Round.Transfer) : Option (Int × Round × Round.Transfer) :=
  (Round.perform_download.body env nodes self io).map
    (fun r => (r.1, r.2.1, CurlGuard.destroy r.2.2))

/-- The function `Round::step2_curl_download`: the result of
`perform_download()` is not used. -/
def Round.step2_curl_download (env : Curl.Env) (nodes : List String) (self : Round)
    (io : Round.Transfer) : Option (Round × Round.Transfer) :=
  (Round.perform_download env nodes self io).map
    (fun r =>
      ({ r.2.1 with m_queue := r.2.1.m_queue ++ [.step3_prepare_metadata_download] }, r.2.2))

/-! ## Group::print_json -/

/-- A call to the `rapidjson::Writer`. -/
inductive Writer.Call where
  | StartObject
  | EndObject
  | StartArray
  | EndArray
  | Key (name : String)
  | String (str : String)
  | Uint64 (u : Nat)
  | Bool (b : Bool)
  deriving DecidableEq, Repr

/-- The conversion of an `int` to `uint64_t`, as at `writer.Uint64(m_id)`. -/
def uint64_of_int (i : Int) : Nat := (i % 2 ^ 64).toNat

/-- The function `Group::status_str`. -/
def Group.status_str (status : Group.Status) : String :=
  match status with
  | .INIT => "INIT"
  | .COUPLED => "COUPLED"
  | .BAD => "BAD"
  | .BROKEN => "BROKEN"
  | .RO => "RO"
  | .MIGRATING => "MIGRATING"

/-- The loop of `Group::print_json` over `m_backends`. -/
def Group.print_json.backends : List Backend → List Writer.Call → List Writer.Call
  | [], writer => writer
  | backend :: rest, writer =>
    Group.print_json.backends rest (writer ++ [.String (c_str backend.key)])

/-- The method `Group::print_json`: the calls it adds to those the writer has
received. -/
def Group.print_json (self : Group) (writer : List Writer.Call) : List Writer.Call :=
  let w := writer ++ [.StartObject, .Key "id", .Uint64 (uint64_of_int self.m_id)]
  let w :=
    match self.m_couple with
    | some couple => w ++ [.Key "couple", .String (c_str couple.get_key)]
    | none => w
  let w := w ++ [.Key "backends", .StartArray]
  let w := Group.print_json.backends self.m_backends w
  let w := w ++ [.EndArray]
  let w := w ++ [.Key "status_text", .String (c_str self.m_status_text)]
  let w := w ++ [.Key "status", .String (Group.status_str self.m_status)]
  let w := w ++ [.Key "frozen", .Bool self.m_frozen]
  let w := w ++ [.Key "version", .Uint64 (uint64_of_int self.m_version)]
  let w := w ++ [.Key "namespace",
    .String (match self.m_namespace with | some name => c_str name | none => "")]
  let w :=
    if self.m_service.migrating || !self.m_service.job_id.isEmpty then
      w ++ [.Key "service", .StartObject,
            .Key "migrating", .Bool self.m_service.migrating,
            .Key "job_id", .String (c_str self.m_service.job_id), .EndObject]
    else w
  w ++ [.EndObject]

/-! ## StatsParser.cpp: the tables -/

namespace StatsParser

/-- The path bit `Backends`. -/
def Backends : Nat := 2

/-- The path bit `BackendFolder`. -/
def BackendFolder : Nat := 4

/-- The path bit `Backend`. -/
def Backend : Nat := 8

/-- The path bit `Dstat`. -/
def Dstat : Nat := 0x10

/-- The path bit `ReadIos`. -/
def ReadIos : Nat := 0x20

/-- The path bit `WriteIos`. -/
def WriteIos : Nat := 0x40

/-- The path bit `ReadTicks`. -/
def ReadTicks : Nat := 0x80

/-- The path bit `WriteTicks`. -/
def WriteTicks : Nat := 0x100

/-- The path bit `IoTicks`. -/
def IoTicks : Nat := 0x200

/-- The path bit `ReadSectors`. -/
def ReadSectors : Nat := 0x400

/-- The path bit `Error`. -/
def Error : Nat := 0x800

/-- The path bit `Vfs`. -/
def Vfs : Nat := 0x20

/-- The path bit `Blocks`. -/
def Blocks : Nat := 0x40

/-- The path bit `Bavail`. -/
def Bavail : Nat := 0x80

/-- The path bit `Bsize`. -/
def Bsize : Nat := 0x100

/-- The path bit `Fsid`. -/
def Fsid : Nat := 0x200

/-- The path bit `SummaryStats`. -/
def SummaryStats : Nat := 0x40

/-- The path bit `RecordsTotal`. -/
def RecordsTotal : Nat := 0x80

/-- The path bit `RecordsRemoved`. -/
def RecordsRemoved : Nat := 0x100

/-- The path bit `RecordsRemovedSize`. -/
def RecordsRemovedSize : Nat := 0x200

/-- The path bit `WantDefrag`. -/
def WantDefrag : Nat := 0x400

/-- The path bit `BaseSize`. -/
def BaseSize : Nat := 0x800

/-- The path bit `Config`. -/
def Config : Nat := 0x80

/-- The path bit `BlobSizeLimit`. -/
def BlobSizeLimit : Nat := 0x100

/-- The path bit `BlobSize`. -/
def BlobSize : Nat := 0x200

/-- The path bit `Group`. -/
def Group : Nat := 0x400

/-- The path bit `DataPath`. -/
def DataPath : Nat := 0x800

/-- The path bit `FilePath`. -/
def FilePath : Nat := 0x1000

/-- The path bit `BaseStats`. -/
def BaseStats : Nat := 0x100

/-- The path bit `BlobFilename`. -/
def BlobFilename : Nat := 0x200

/-- The path bit `BlobBaseSize`. -/
def BlobBaseSize : Nat := 0x400

/-- The path bit `BackendId`. -/
def BackendId : Nat := 0x10

/-- The path bit `Status`. -/
def Status : Nat := 0x20

/-- The path bit `DefragState`. -/
def DefragState : Nat := 0x40

/-- The path bit `State`. -/
def State : Nat := 0x80

/-- The path bit `ReadOnly`. -/
def ReadOnly : Nat := 0x100

/-- The path bit `LastStart`. -/
def LastStart : Nat := 0x200

/-- The path bit `LastStartTvSec`. -/
def LastStartTvSec : Nat := 0x400

/-- The path bit `LastStartTvUsec`. -/
def LastStartTvUsec : Nat := 0x800

/-- The path bit `Commands`. -/
def Commands : Nat := 0x40

/-- The path bit `Write`. -/
def Write : Nat := 0x80

/-- The path bit `NotWrite`. -/
def NotWrite : Nat := 0x100

/-- The path bit `Cache`. -/
def Cache : Nat := 0x200

/-- The path bit `Disk`. -/
def Disk : Nat := 0x400

/-- The path bit `CommandSource`. -/
def CommandSource : Nat := 0x800

/-- The path bit `Size`. -/
def Size : Nat := 0x1000

/-- The path bit `Time`. -/
def Time : Nat := 0x2000

/-- The path bit `Io`. -/
def Io : Nat := 0x80

/-- The path bit `Blocking`. -/
def Blocking : Nat := 0x100

/-- The path bit `Nonblocking`. -/
def Nonblocking : Nat := 0x200

/-- The path bit `CurrentSize`. -/
def CurrentSize : Nat := 0x400

/-- The path bit `Timestamp`. -/
def Timestamp : Nat := 4

/-- The path bit `TvSec`. -/
def TvSec : Nat := 8

/-- The path bit `TvUsec`. -/
def TvUsec : Nat := 0x10

/-- The path bit `Procfs`. -/
def Procfs : Nat := 8

/-- The path bit `Vm`. -/
def Vm : Nat := 0x10

/-- The path bit `La`. -/
def La : Nat := 0x20

/-- The path bit `Net`. -/
def Net : Nat := 0x20

/-- The path bit `NetInterfaces`. -/
def NetInterfaces : Nat := 0x40

/-- The path bit `NetInterfaceName`. -/
def NetInterfaceName : Nat := 0x80

/-- The path bit `Receive`. -/
def Receive : Nat := 0x100

/-- The path bit `Transmit`. -/
def Transmit : Nat := 0x200

/-- The path bit `Bytes`. -/
def Bytes : Nat := 0x400

/-- The path bit `Stats`. -/
def Stats : Nat := 0x10

/-- The path bit `StatName`. -/
def StatName : Nat := 0x20

/-- The path bit `Count`. -/
def Count : Nat := 0x40

end StatsParser

/-- Modelled from the spec: the first member of a row of a folder table
(Parser.h is not among the sources): a key to be equal to, a key to differ
from (`NOT_MATCH`), or any key (`MATCH_ANY`). -/
inductive Parser.Pattern where
  | key (str : String)
  | NOT_MATCH (str : String)
  | MATCH_ANY
  deriving DecidableEq, Repr

/-- Modelled from the spec: a row of a folder table: the match,
the parent mask and the bit. -/
structure Parser.Folder where
  str : Parser.Pattern
  keys : Nat
  token : Nat
  deriving DecidableEq, Repr

/-- Modelled from the spec: the operation of a row of the UInt info table. -/
inductive Parser.Action where
  | SET
  | SUM
  | MAX
  deriving DecidableEq, Repr

/-- Modelled from the spec: the record `BackendStat` (its declaration is not
among the sources): the fields that `backend_uint_info` and
`backend_string_info` name, unsigned 64-bit numbers and two strings. -/
structure BackendStat where
  backend_id : Nat
  read_ios : Nat
  write_ios : Nat
  read_ticks : Nat
  write_ticks : Nat
  io_ticks : Nat
  read_sectors : Nat
  dstat_error : Nat
  vfs_blocks : Nat
  vfs_bavail : Nat
  vfs_bsize : Nat
  fsid : Nat
  vfs_error : Nat
  records_total : Nat
  records_removed : Nat
  records_removed_size : Nat
  want_defrag : Nat
  base_size : Nat
  blob_size_limit : Nat
  blob_size : Nat
  group : Nat
  max_blob_base_size : Nat
  defrag_state : Nat
  state : Nat
  read_only : Nat
  last_start_ts_sec : Nat
  last_start_ts_usec : Nat
  ell_cache_write_size : Nat
  ell_cache_write_time : Nat
  ell_disk_write_size : Nat
  ell_disk_write_time : Nat
  ell_cache_read_size : Nat
  ell_cache_read_time : Nat
  ell_disk_read_size : Nat
  ell_disk_read_time : Nat
  io_blocking_size : Nat
  io_nonblocking_size : Nat
  data_path : String
  file_path : String
  deriving DecidableEq, Repr

/-- Modelled from the spec: the default constructor of `BackendStat`, every
number zero and every string empty. -/
def BackendStat.new : BackendStat where
  backend_id := 0
  read_ios := 0
  write_ios := 0
  read_ticks := 0
  write_ticks := 0
  io_ticks := 0
  read_sectors := 0
  dstat_error := 0
  vfs_blocks := 0
  vfs_bavail := 0
  vfs_bsize := 0
  fsid := 0
  vfs_error := 0
  records_total := 0
  records_removed := 0
  records_removed_size := 0
  want_defrag := 0
  base_size := 0
  blob_size_limit := 0
  blob_size := 0
  group := 0
  max_blob_base_size := 0
  defrag_state := 0
  state := 0
  read_only := 0
  last_start_ts_sec := 0
  last_start_ts_usec := 0
  ell_cache_write_size := 0
  ell_cache_write_time := 0
  ell_disk_write_size := 0
  ell_disk_write_time := 0
  ell_cache_read_size := 0
  ell_cache_read_time := 0
  ell_disk_read_size := 0
  ell_disk_read_time := 0
  io_blocking_size := 0
  io_nonblocking_size := 0
  data_path := ""
  file_path := ""

/-- The numeric fields of `BackendStat` that `BOFF` names in `backend_uint_info`. -/
inductive BackendStat.UInt where
  | backend_id
  | read_ios
  | write_ios
  | read_ticks
  | write_ticks
  | io_ticks
  | read_sectors
  | dstat_error
  | vfs_blocks
  | vfs_bavail
  | vfs_bsize
  | fsid
  | vfs_error
  | records_total
  | records_removed
  | records_removed_size
  | want_defrag
  | base_size
  | blob_size_limit
  | blob_size
  | group
  | max_blob_base_size
  | defrag_state
  | state
  | read_only
  | last_start_ts_sec
  | last_start_ts_usec
  | ell_cache_write_size
  | ell_cache_write_time
  | ell_disk_write_size
  | ell_disk_write_time
  | ell_cache_read_size
  | ell_cache_read_time
  | ell_disk_read_size
  | ell_disk_read_time
  | io_blocking_size
  | io_nonblocking_size
  deriving DecidableEq, Repr

/-- The string fields of `BackendStat` that `BOFF` names in `backend_string_info`. -/
inductive BackendStat.Str where
  | data_path
  | file_path
  deriving DecidableEq, Repr

/-- The value of a numeric field of a `BackendStat`. -/
def BackendStat.get (b : BackendStat) : BackendStat.UInt → Nat
  | .backend_id => b.backend_id
  | .read_ios => b.read_ios
  | .write_ios => b.write_ios
  | .read_ticks => b.read_ticks
  | .write_ticks => b.write_ticks
  | .io_ticks => b.io_ticks
  | .read_sectors => b.read_sectors
  | .dstat_error => b.dstat_error
  | .vfs_blocks => b.vfs_blocks
  | .vfs_bavail => b.vfs_bavail
  | .vfs_bsize => b.vfs_bsize
  | .fsid => b.fsid
  | .vfs_error => b.vfs_error
  | .records_total => b.records_total
  | .records_removed => b.records_removed
  | .records_removed_size => b.records_removed_size
  | .want_defrag => b.want_defrag
  | .base_size => b.base_size
  | .blob_size_limit => b.blob_size_limit
  | .blob_size => b.blob_size
  | .group => b.group
  | .max_blob_base_size => b.max_blob_base_size
  | .defrag_state => b.defrag_state
  | .state => b.state
  | .read_only => b.read_only
  | .last_start_ts_sec => b.last_start_ts_sec
  | .last_start_ts_usec => b.last_start_ts_usec
  | .ell_cache_write_size => b.ell_cache_write_size
  | .ell_cache_write_time => b.ell_cache_write_time
  | .ell_disk_write_size => b.ell_disk_write_size
  | .ell_disk_write_time => b.ell_disk_write_time
  | .ell_cache_read_size => b.ell_cache_read_size
  | .ell_cache_read_time => b.ell_cache_read_time
  | .ell_disk_read_size => b.ell_disk_read_size
  | .ell_disk_read_time => b.ell_disk_read_time
  | .io_blocking_size => b.io_blocking_size
  | .io_nonblocking_size => b.io_nonblocking_size

/-- A store to a numeric field of a `BackendStat`. -/
def BackendStat.set (b : BackendStat) (v : Nat) : BackendStat.UInt → BackendStat
  | .backend_id => { b with backend_id := v }
  | .read_ios => { b with read_ios := v }
  | .write_ios => { b with write_ios := v }
  | .read_ticks => { b with read_ticks := v }
  | .write_ticks => { b with write_ticks := v }
  | .io_ticks => { b with io_ticks := v }
  | .read_sectors => { b with read_sectors := v }
  | .dstat_error => { b with dstat_error := v }
  | .vfs_blocks => { b with vfs_blocks := v }
  | .vfs_bavail => { b with vfs_bavail := v }
  | .vfs_bsize => { b with vfs_bsize := v }
  | .fsid => { b with fsid := v }
  | .vfs_error => { b with vfs_error := v }
  | .records_total => { b with records_total := v }
  | .records_removed => { b with records_removed := v }
  | .records_removed_size => { b with records_removed_size := v }
  | .want_defrag => { b with want_defrag := v }
  | .base_size => { b with base_size := v }
  | .blob_size_limit => { b with blob_size_limit := v }
  | .blob_size => { b with blob_size := v }
  | .group => { b with group := v }
  | .max_blob_base_size => { b with max_blob_base_size := v }
  | .defrag_state => { b with defrag_state := v }
  | .state => { b with state := v }
  | .read_only => { b with read_only := v }
  | .last_start_ts_sec => { b with last_start_ts_sec := v }
  | .last_start_ts_usec => { b with last_start_ts_usec := v }
  | .ell_cache_write_size => { b with ell_cache_write_size := v }
  | .ell_cache_write_time => { b with ell_cache_write_time := v }
  | .ell_disk_write_size => { b with ell_disk_write_size := v }
  | .ell_disk_write_time => { b with ell_disk_write_time := v }
  | .ell_cache_read_size => { b with ell_cache_read_size := v }
  | .ell_cache_read_time => { b with ell_cache_read_time := v }
  | .ell_disk_read_size => { b with ell_disk_read_size := v }
  | .ell_disk_read_time => { b with ell_disk_read_time := v }
  | .io_blocking_size => { b with io_blocking_size := v }
  | .io_nonblocking_size => { b with io_nonblocking_size := v }

/-- A store to a string field of a `BackendStat`. -/
def BackendStat.set_str (b : BackendStat) (v : String) : BackendStat.Str → BackendStat
  | .data_path => { b with data_path := v }
  | .file_path => { b with file_path := v }

/-- Modelled from the spec: the member `node` of `StatsParser::Data`
(StatsParser.h is not among the sources): the fields that `NOFF` names in
`backend_uint_info`. -/
structure NodeStat where
  ts_sec : Nat
  ts_usec : Nat
  la1 : Nat
  rx_bytes : Nat
  tx_bytes : Nat
  deriving DecidableEq, Repr

/-- The fields of `NodeStat` that `NOFF` names. -/
inductive NodeStat.UInt where
  | ts_sec
  | ts_usec
  | la1
  | rx_bytes
  | tx_bytes
  deriving DecidableEq, Repr

/-- The value of a field of a `NodeStat`. -/
def NodeStat.get (n : NodeStat) : NodeStat.UInt → Nat
  | .ts_sec => n.ts_sec
  | .ts_usec => n.ts_usec
  | .la1 => n.la1
  | .rx_bytes => n.rx_bytes
  | .tx_bytes => n.tx_bytes

/-- A store to a field of a `NodeStat`. -/
def NodeStat.set (n : NodeStat) (v : Nat) : NodeStat.UInt → NodeStat
  | .ts_sec => { n with ts_sec := v }
  | .ts_usec => { n with ts_usec := v }
  | .la1 => { n with la1 := v }
  | .rx_bytes => { n with rx_bytes := v }
  | .tx_bytes => { n with tx_bytes := v }
/-- Modelled from the spec: the member `stat_commit` of `StatsParser::Data`,
with the fields `StatsParser::Key` and `StatsParser::EndObject` use. -/
structure StatCommit where
  backend : Nat
  err : Nat
  count : Nat
  deriving DecidableEq, Repr

/-- The fields of `stat_commit` that `SOFF` can name. -/
inductive StatCommit.UInt where
  | backend
  | err
  | count
  deriving DecidableEq, Repr

/-- The value of a field of a `StatCommit`. -/
def StatCommit.get (s : StatCommit) : StatCommit.UInt → Nat
  | .backend => s.backend
  | .err => s.err
  | .count => s.count

/-- A store to a field of a `StatCommit`. -/
def StatCommit.set (s : StatCommit) (v : Nat) : StatCommit.UInt → StatCommit
  | .backend => { s with backend := v }
  | .err => { s with err := v }
  | .count => { s with count := v }

/-- Modelled from the spec: the record `StatsParser::Data` that the parser
fills: the staging `BackendStat`, the node record and `stat_commit`. -/
structure StatsParser.Data where
  backend : BackendStat
  node : NodeStat
  stat_commit : StatCommit
  deriving DecidableEq, Repr

/-- Modelled from the spec: the record as the parser is constructed, every
number zero. -/
def StatsParser.Data.new : StatsParser.Data where
  backend := BackendStat.new
  node := { ts_sec := 0, ts_usec := 0, la1 := 0, rx_bytes := 0, tx_bytes := 0 }
  stat_commit := { backend := 0, err := 0, count := 0 }

/-- The target of a row of `backend_uint_info`: `BOFF(field)`, `NOFF(field)` or
`SOFF(field)`, an offset into `StatsParser::Data`. -/
inductive StatsParser.Offset where
  | BOFF (field : BackendStat.UInt)
  | NOFF (field : NodeStat.UInt)
  | SOFF (field : StatCommit.UInt)
  deriving DecidableEq, Repr

/-- The target of a row of `backend_string_info`. -/
inductive StatsParser.StringOffset where
  | BOFF (field : BackendStat.Str)
  deriving DecidableEq, Repr

/-- The number at an offset of the record. -/
def StatsParser.Data.get (d : StatsParser.Data) : StatsParser.Offset → Nat
  | .BOFF field => d.backend.get field
  | .NOFF field => d.node.get field
  | .SOFF field => d.stat_commit.get field

/-- A store of a number at an offset of the record. -/
def StatsParser.Data.set (d : StatsParser.Data) (v : Nat) : StatsParser.Offset → StatsParser.Data
  | .BOFF field => { d with backend := d.backend.set v field }
  | .NOFF field => { d with node := d.node.set v field }
  | .SOFF field => { d with stat_commit := d.stat_commit.set v field }

/-- A store of a string at an offset of the record. -/
def StatsParser.Data.set_str (d : StatsParser.Data) (v : String) :
    StatsParser.StringOffset → StatsParser.Data
  | .BOFF field => { d with backend := d.backend.set_str v field }

/-- Modelled from the spec: a row of the UInt info table: the required
mask, the operation and the offset of the field. -/
structure Parser.UIntInfo where
  keys : Nat
  action : Parser.Action
  off : StatsParser.Offset
  deriving DecidableEq, Repr

/-- Modelled from the spec: a row of the String info table. -/
structure Parser.StringInfo where
  keys : Nat
  off : StatsParser.StringOffset
  deriving DecidableEq, Repr

/-- The table `backend_folders`. -/
def StatsParser.backend_folders : List (List Parser.Folder) :=
  [
    [
      ⟨.key "backends", 0, Backends⟩,
      ⟨.key "timestamp", 0, Timestamp⟩,
      ⟨.key "procfs", 0, Procfs⟩,
      ⟨.key "stats", 0, Stats⟩
    ],
    [
      ⟨.MATCH_ANY, Backends, BackendFolder⟩,
      ⟨.key "tv_sec", Timestamp, TvSec⟩,
      ⟨.key "tv_usec", Timestamp, TvUsec⟩,
      ⟨.key "vm", Procfs, Vm⟩,
      ⟨.key "net", Procfs, Net⟩,
      ⟨.MATCH_ANY, Stats, StatName⟩
    ],
    [
      ⟨.key "backend", Backends ||| BackendFolder, Backend⟩,
      ⟨.key "backend_id", Backends ||| BackendFolder, BackendId⟩,
      ⟨.key "status", Backends ||| BackendFolder, Status⟩,
      ⟨.key "commands", Backends ||| BackendFolder, Commands⟩,
      ⟨.key "io", Backends ||| BackendFolder, Io⟩,
      ⟨.key "la", Procfs ||| Vm, La⟩,
      ⟨.key "net_interfaces", Procfs ||| Net, NetInterfaces⟩,
      ⟨.key "count", Stats ||| StatName, Count⟩
    ],
    [
      ⟨.key "dstat", Backends ||| BackendFolder ||| Backend, Dstat⟩,
      ⟨.key "vfs", Backends ||| BackendFolder ||| Backend, Vfs⟩,
      ⟨.key "summary_stats", Backends ||| BackendFolder ||| Backend, SummaryStats⟩,
      ⟨.key "config", Backends ||| BackendFolder ||| Backend, Config⟩,
      ⟨.key "base_stats", Backends ||| BackendFolder ||| Backend, BaseStats⟩,
      ⟨.key "defrag_state", Backends ||| BackendFolder ||| Status, DefragState⟩,
      ⟨.key "state", Backends ||| BackendFolder ||| Status, State⟩,
      ⟨.key "read_only", Backends ||| BackendFolder ||| Status, ReadOnly⟩,
      ⟨.key "last_start", Backends ||| BackendFolder ||| Status, LastStart⟩,
      ⟨.key "WRITE", Backends ||| BackendFolder ||| Commands, Write⟩,
      ⟨.NOT_MATCH "WRITE", Backends ||| BackendFolder ||| Commands, NotWrite⟩,
      ⟨.key "blocking", Backends ||| BackendFolder ||| Io, Blocking⟩,
      ⟨.key "nonblocking", Backends ||| BackendFolder ||| Io, Nonblocking⟩,
      ⟨.NOT_MATCH "lo", Procfs ||| Net ||| NetInterfaces, NetInterfaceName⟩
    ],
    [
      ⟨.key "read_ios", Backends ||| BackendFolder ||| Backend ||| Dstat, ReadIos⟩,
      ⟨.key "write_ios", Backends ||| BackendFolder ||| Backend ||| Dstat, WriteIos⟩,
      ⟨.key "error", Backends ||| BackendFolder ||| Backend ||| Dstat, Error⟩,
      ⟨.key "read_ticks", Backends ||| BackendFolder ||| Backend ||| Dstat, ReadTicks⟩,
      ⟨.key "write_ticks", Backends ||| BackendFolder ||| Backend ||| Dstat, WriteTicks⟩,
      ⟨.key "io_ticks", Backends ||| BackendFolder ||| Backend ||| Dstat, IoTicks⟩,
      ⟨.key "read_sectors", Backends ||| BackendFolder ||| Backend ||| Dstat, ReadSectors⟩,
      ⟨.key "blocks", Backends ||| BackendFolder ||| Backend ||| Vfs, Blocks⟩,
      ⟨.key "bavail", Backends ||| BackendFolder ||| Backend ||| Vfs, Bavail⟩,
      ⟨.key "bsize", Backends ||| BackendFolder ||| Backend ||| Vfs, Bsize⟩,
      ⟨.key "fsid", Backends ||| BackendFolder ||| Backend ||| Vfs, Fsid⟩,
      ⟨.key "error", Backends ||| BackendFolder ||| Backend ||| Vfs, Error⟩,
      ⟨.key "records_total", Backends ||| BackendFolder ||| Backend ||| SummaryStats, RecordsTotal⟩,
      ⟨.key "records_removed", Backends ||| BackendFolder ||| Backend ||| SummaryStats, RecordsRemoved⟩,
      ⟨.key "records_removed_size", Backends ||| BackendFolder ||| Backend ||| SummaryStats, RecordsRemovedSize⟩,
      ⟨.key "want_defrag", Backends ||| BackendFolder ||| Backend ||| SummaryStats, WantDefrag⟩,
      ⟨.key "base_size", Backends ||| BackendFolder ||| Backend ||| SummaryStats, BaseSize⟩,
      ⟨.key "blob_size_limit", Backends ||| BackendFolder ||| Backend ||| Config, BlobSizeLimit⟩,
      ⟨.key "blob_size", Backends ||| BackendFolder ||| Backend ||| Config, BlobSize⟩,
      ⟨.key "group", Backends ||| BackendFolder ||| Backend ||| Config, Group⟩,
      ⟨.key "data", Backends ||| BackendFolder ||| Backend ||| Config, DataPath⟩,
      ⟨.key "file", Backends ||| BackendFolder ||| Backend ||| Config, FilePath⟩,
      ⟨.MATCH_ANY, Backends ||| BackendFolder ||| Backend ||| BaseStats, BlobFilename⟩,
      ⟨.key "tv_sec", Backends ||| BackendFolder ||| Status ||| LastStart, LastStartTvSec⟩,
      ⟨.key "tv_usec", Backends ||| BackendFolder ||| Status ||| LastStart, LastStartTvUsec⟩,
      ⟨.key "cache", Backends ||| BackendFolder ||| Commands ||| Write, Cache⟩,
      ⟨.key "disk", Backends ||| BackendFolder ||| Commands ||| Write, Disk⟩,
      ⟨.key "cache", Backends ||| BackendFolder ||| Commands ||| NotWrite, Cache⟩,
      ⟨.key "disk", Backends ||| BackendFolder ||| Commands ||| NotWrite, Disk⟩,
      ⟨.key "current_size", Backends ||| BackendFolder ||| Io ||| Blocking, CurrentSize⟩,
      ⟨.key "current_size", Backends ||| BackendFolder ||| Io ||| Nonblocking, CurrentSize⟩,
      ⟨.key "receive", Procfs ||| Net ||| NetInterfaces ||| NetInterfaceName, Receive⟩,
      ⟨.key "transmit", Procfs ||| Net ||| NetInterfaces ||| NetInterfaceName, Transmit⟩
    ],
    [
      ⟨.key "base_size", Backends ||| BackendFolder ||| Backend ||| BaseStats ||| BlobFilename, BlobBaseSize⟩,
      ⟨.key "bytes", Procfs ||| Net ||| NetInterfaces ||| NetInterfaceName ||| Receive, Bytes⟩,
      ⟨.key "bytes", Procfs ||| Net ||| NetInterfaces ||| NetInterfaceName ||| Transmit, Bytes⟩,
      ⟨.MATCH_ANY, Backends ||| BackendFolder ||| Commands ||| Write ||| Cache, CommandSource⟩,
      ⟨.MATCH_ANY, Backends ||| BackendFolder ||| Commands ||| Write ||| Disk, CommandSource⟩,
      ⟨.MATCH_ANY, Backends ||| BackendFolder ||| Commands ||| NotWrite ||| Cache, CommandSource⟩,
      ⟨.MATCH_ANY, Backends ||| BackendFolder ||| Commands ||| NotWrite ||| Disk, CommandSource⟩
    ],
    [
      ⟨.key "size", Backends ||| BackendFolder ||| Commands ||| Write ||| Cache ||| CommandSource, Size⟩,
      ⟨.key "time", Backends ||| BackendFolder ||| Commands ||| Write ||| Cache ||| CommandSource, Time⟩,
      ⟨.key "size", Backends ||| BackendFolder ||| Commands ||| Write ||| Disk ||| CommandSource, Size⟩,
      ⟨.key "time", Backends ||| BackendFolder ||| Commands ||| Write ||| Disk ||| CommandSource, Time⟩,
      ⟨.key "size", Backends ||| BackendFolder ||| Commands ||| NotWrite ||| Cache ||| CommandSource, Size⟩,
      ⟨.key "time", Backends ||| BackendFolder ||| Commands ||| NotWrite ||| Cache ||| CommandSource, Time⟩,
      ⟨.key "size", Backends ||| BackendFolder ||| Commands ||| NotWrite ||| Disk ||| CommandSource, Size⟩,
      ⟨.key "time", Backends ||| BackendFolder ||| Commands ||| NotWrite ||| Disk ||| CommandSource, Time⟩
    ]
  ]

/-- The table `backend_uint_info`. -/
def StatsParser.backend_uint_info : List Parser.UIntInfo :=
  [
    ⟨Backends ||| BackendFolder ||| BackendId, .SET, .BOFF .backend_id⟩,
    ⟨Backends ||| BackendFolder ||| Backend ||| Dstat ||| ReadIos, .SET, .BOFF .read_ios⟩,
    ⟨Backends ||| BackendFolder ||| Backend ||| Dstat ||| WriteIos, .SET, .BOFF .write_ios⟩,
    ⟨Backends ||| BackendFolder ||| Backend ||| Dstat ||| ReadTicks, .SET, .BOFF .read_ticks⟩,
    ⟨Backends ||| BackendFolder ||| Backend ||| Dstat ||| WriteTicks, .SET, .BOFF .write_ticks⟩,
    ⟨Backends ||| BackendFolder ||| Backend ||| Dstat ||| IoTicks, .SET, .BOFF .io_ticks⟩,
    ⟨Backends ||| BackendFolder ||| Backend ||| Dstat ||| ReadSectors, .SET, .BOFF .read_sectors⟩,
    ⟨Backends ||| BackendFolder ||| Backend ||| Dstat ||| Error, .SET, .BOFF .dstat_error⟩,
    ⟨Backends ||| BackendFolder ||| Backend ||| Vfs ||| Blocks, .SET, .BOFF .vfs_blocks⟩,
    ⟨Backends ||| BackendFolder ||| Backend ||| Vfs ||| Bavail, .SET, .BOFF .vfs_bavail⟩,
    ⟨Backends ||| BackendFolder ||| Backend ||| Vfs ||| Bsize, .SET, .BOFF .vfs_bsize⟩,
    ⟨Backends ||| BackendFolder ||| Backend ||| Vfs ||| Fsid, .SET, .BOFF .fsid⟩,
    ⟨Backends ||| BackendFolder ||| Backend ||| Vfs ||| Error, .SET, .BOFF .vfs_error⟩,
    ⟨Backends ||| BackendFolder ||| Backend ||| SummaryStats ||| RecordsTotal, .SET, .BOFF .records_total⟩,
    ⟨Backends ||| BackendFolder ||| Backend ||| SummaryStats ||| RecordsRemoved, .SET, .BOFF .records_removed⟩,
    ⟨Backends ||| BackendFolder ||| Backend ||| SummaryStats ||| RecordsRemovedSize, .SET, .BOFF .records_removed_size⟩,
    ⟨Backends ||| BackendFolder ||| Backend ||| SummaryStats ||| WantDefrag, .SET, .BOFF .want_defrag⟩,
    ⟨Backends ||| BackendFolder ||| Backend ||| SummaryStats ||| BaseSize, .SET, .BOFF .base_size⟩,
    ⟨Backends ||| BackendFolder ||| Backend ||| Config ||| BlobSizeLimit, .SET, .BOFF .blob_size_limit⟩,
    ⟨Backends ||| BackendFolder ||| Backend ||| Config ||| BlobSize, .SET, .BOFF .blob_size⟩,
    ⟨Backends ||| BackendFolder ||| Backend ||| Config ||| Group, .SET, .BOFF .group⟩,
    ⟨Backends ||| BackendFolder ||| Backend ||| BaseStats ||| BlobFilename ||| BlobBaseSize, .MAX, .BOFF .max_blob_base_size⟩,
    ⟨Backends ||| BackendFolder ||| Status ||| DefragState, .SET, .BOFF .defrag_state⟩,
    ⟨Backends ||| BackendFolder ||| Status ||| State, .SET, .BOFF .state⟩,
    ⟨Backends ||| BackendFolder ||| Status ||| ReadOnly, .SET, .BOFF .read_only⟩,
    ⟨Backends ||| BackendFolder ||| Status ||| LastStart ||| LastStartTvSec, .SET, .BOFF .last_start_ts_sec⟩,
    ⟨Backends ||| BackendFolder ||| Status ||| LastStart ||| LastStartTvUsec, .SET, .BOFF .last_start_ts_usec⟩,
    ⟨Backends ||| BackendFolder ||| Commands ||| Write ||| Cache ||| CommandSource ||| Size, .SUM, .BOFF .ell_cache_write_size⟩,
    ⟨Backends ||| BackendFolder ||| Commands ||| Write ||| Cache ||| CommandSource ||| Time, .SUM, .BOFF .ell_cache_write_time⟩,
    ⟨Backends ||| BackendFolder ||| Commands ||| Write ||| Disk ||| CommandSource ||| Size, .SUM, .BOFF .ell_disk_write_size⟩,
    ⟨Backends ||| BackendFolder ||| Commands ||| Write ||| Disk ||| CommandSource ||| Time, .SUM, .BOFF .ell_disk_write_time⟩,
    ⟨Backends ||| BackendFolder ||| Commands ||| NotWrite ||| Cache ||| CommandSource ||| Size, .SUM, .BOFF .ell_cache_read_size⟩,
    ⟨Backends ||| BackendFolder ||| Commands ||| NotWrite ||| Cache ||| CommandSource ||| Time, .SUM, .BOFF .ell_cache_read_time⟩,
    ⟨Backends ||| BackendFolder ||| Commands ||| NotWrite ||| Disk ||| CommandSource ||| Size, .SUM, .BOFF .ell_disk_read_size⟩,
    ⟨Backends ||| BackendFolder ||| Commands ||| NotWrite ||| Disk ||| CommandSource ||| Time, .SUM, .BOFF .ell_disk_read_time⟩,
    ⟨Backends ||| BackendFolder ||| Io ||| Blocking ||| CurrentSize, .SET, .BOFF .io_blocking_size⟩,
    ⟨Backends ||| BackendFolder ||| Io ||| Nonblocking ||| CurrentSize, .SET, .BOFF .io_nonblocking_size⟩,
    ⟨Timestamp ||| TvSec, .SET, .NOFF .ts_sec⟩,
    ⟨Timestamp ||| TvUsec, .SET, .NOFF .ts_usec⟩,
    ⟨Procfs ||| Vm ||| La, .SET, .NOFF .la1⟩,
    ⟨Procfs ||| Net ||| NetInterfaces ||| NetInterfaceName ||| Receive ||| Bytes, .SUM, .NOFF .rx_bytes⟩,
    ⟨Procfs ||| Net ||| NetInterfaces ||| NetInterfaceName ||| Transmit ||| Bytes, .SUM, .NOFF .tx_bytes⟩,
    ⟨Stats ||| StatName ||| Count, .SET, .SOFF .count⟩
  ]

/-- The table `backend_string_info`. -/
def StatsParser.backend_string_info : List Parser.StringInfo :=
  [
    ⟨Backends ||| BackendFolder ||| Backend ||| Config ||| DataPath, .BOFF .data_path⟩,
    ⟨Backends ||| BackendFolder ||| Backend ||| Config ||| FilePath, .BOFF .file_path⟩
  ]

/-! ## The folder table read as a path tree -/

/-- Modelled from the spec: whether a key matches the first member of a row:
equal to it, different from the string after `NOT_MATCH`, or any key for
`MATCH_ANY`. -/
def Parser.Pattern.matches (p : Parser.Pattern) (k : String) : Bool :=
  match p with
  | .key str => k == str
  | .NOT_MATCH str => k != str
  | .MATCH_ANY => true

/-- Modelled from the spec: whether a row is selected by the mask `m` and the
key `k`: `(m & parent_mask) == parent_mask` and `k` matches. -/
def Parser.Folder.selected (row : Parser.Folder) (m : Nat) (k : String) : Bool :=
  (m &&& row.keys == row.keys) && row.str.matches k

/-- Whether some key could match both patterns. -/
def Parser.Pattern.compatible (p q : Parser.Pattern) : Bool :=
  match p, q with
  | .key a, .key b => a == b
  | .key a, .NOT_MATCH b => a != b
  | .NOT_MATCH a, .key b => a != b
  | .NOT_MATCH _, .NOT_MATCH _ => true
  | .MATCH_ANY, _ => true
  | _, .MATCH_ANY => true

/-- The rows of a depth of a folder table; none beyond the last depth. -/
def Parser.rows (folders : List (List Parser.Folder)) (d : Nat) : List Parser.Folder :=
  folders.getD d []

/-- The masks reached at depth `d` by following a folder table from the mask
`root`: at every depth one row whose parent mask the mask contains adds its
bit. -/
def Parser.reachable (folders : List (List Parser.Folder)) (root : Nat) : Nat → List Nat
  | 0 => [root]
  | d + 1 =>
    (Parser.reachable folders root d).flatMap (fun m =>
      (Parser.rows folders d).filterMap (fun row =>
        if m &&& row.keys = row.keys then some (m ||| row.token) else none))

/-- The key paths of length `d` of a folder table from the mask `root`: the
indexes of the rows selected at the depths `0 .. d-1`, with the mask they
accumulate. -/
def Parser.paths (folders : List (List Parser.Folder)) (root : Nat) :
    Nat → List (List Nat × Nat)
  | 0 => [([], root)]
  | d + 1 =>
    (Parser.paths folders root d).flatMap (fun pm =>
      (Parser.rows folders d).enum.filterMap (fun ir =>
        if pm.2 &&& ir.2.keys = ir.2.keys then some (pm.1 ++ [ir.1], pm.2 ||| ir.2.token)
        else none))

/-- Every key path of a folder table from the mask `root`, with its mask. -/
def Parser.all_paths (folders : List (List Parser.Folder)) (root : Nat) : List (List Nat × Nat) :=
  (List.range (folders.length + 1)).flatMap (Parser.paths folders root)

/-! ## StatsParser.cpp: the parser -/

/-- An event that `rapidjson::Reader` hands to its handler. -/
inductive Reader.Event where
  | Null
  | Bool (b : Bool)
  | Int (i : Int)
  | Uint (u : Nat)
  | Int64 (i : Int)
  | Uint64 (u : Nat)
  | Double (d : Rat)
  | String (str : String)
  | StartObject
  | Key (str : String)
  | EndObject (nr_members : Nat)
  | StartArray
  | EndArray (nr_elements : Nat)
  deriving DecidableEq, Repr

/-- Modelled from the spec: the members `m_keys` and `m_depth` of the base
class `Parser` (Parser.h is not among the sources). -/
structure Parser.State where
  m_keys : Nat
  m_depth : Int
  deriving DecidableEq, Repr

/-- Modelled from the spec: the handlers of the base class `Parser`
(Parser.cpp is not among the sources), as far as `StatsParser` calls them: the
state its constructor leaves, `StartObject`, `Key` and `EndObject`, which move
`m_keys` and `m_depth` only, and the handlers of the other events, which also
write to the record through the info tables. Each returns the flag that tells
the reader to go on. -/
structure Parser.Base where
  init : Parser.State
  StartObject : Parser.State → Bool × Parser.State
  Key : String → Parser.State → Bool × Parser.State
  EndObject : Nat → Parser.State → Bool × Parser.State
  other : Reader.Event → Parser.State → StatsParser.Data →
    Bool × Parser.State × StatsParser.Data

/-- Modelled from the spec: the number of path bits set in a mask, bit 0 not
counted. -/
def Parser.nr_tokens (m : Nat) : Nat :=
  ((List.range 64).filter (fun i => i != 0 && m.testBit i)).length

/-- Modelled from the spec: the mask without its highest bit; in the tables of
StatsParser.cpp the bit of a row is higher than every bit of its parent
mask. -/
def Parser.drop_token (m : Nat) : Nat :=
  match (List.range 64).reverse.find? (fun i => m.testBit i) with
  | some i => m - 2 ^ i
  | none => m

/-- Modelled from the spec: what the base class does when the value of a
member ends. The bit of the key of that member, when the key was recognised,
is the highest bit of `m_keys`, and `m_keys` then holds as many path bits as
`m_depth` tells; the bit is dropped. -/
def Parser.clear_key (s : Parser.State) : Parser.State :=
  if 0 < Parser.nr_tokens s.m_keys ∧ (Parser.nr_tokens s.m_keys : Int) = s.m_depth then
    { s with m_keys := Parser.drop_token s.m_keys }
  else s

/-- Modelled from the spec: the operation of a row of the UInt info table on
the old and the visited value, a 64-bit number. -/
def Parser.Action.apply (a : Parser.Action) (old val : Nat) : Nat :=
  match a with
  | .SET => val
  | .SUM => (old + val) % 2 ^ 64
  | .MAX => max old val

/-- Modelled from the spec: a numeric value is visited: the row of the UInt
info table whose required mask `m_keys` equals (bit 0, which `m_keys` always
carries, apart) applies its operation to its field. -/
def Parser.store_uint (uint_info : List Parser.UIntInfo) (s : Parser.State)
    (d : StatsParser.Data) (val : Nat) : StatsParser.Data :=
  match uint_info.find? (fun row => s.m_keys == (row.keys ||| 1)) with
  | some row => d.set (row.action.apply (d.get row.off) val) row.off
  | none => d

/-- Modelled from the spec: a string value is visited, "analogous". -/
def Parser.store_string (string_info : List Parser.StringInfo) (s : Parser.State)
    (d : StatsParser.Data) (val : String) : StatsParser.Data :=
  match string_info.find? (fun row => s.m_keys == (row.keys ||| 1)) with
  | some row => d.set_str val row.off
  | none => d

/-- Modelled from the spec: the base class `Parser` over its three tables
(§4.1). `m_keys` starts as 1 and `m_depth` as 0; `StartObject` enters a level;
`Key` at level `m_depth` looks at the rows of depth `m_depth - 1` and sets the
bit of the first row selected by `m_keys` and the key; a value applies the
info row of `m_keys` and ends its member; `EndObject` leaves the level and
ends the member whose value the object was. The depths are those that
`StatsParser::Key` and `StatsParser::EndObject` test. -/
def Parser.over (folders : List (List Parser.Folder)) (uint_info : List Parser.UIntInfo)
    (string_info : List Parser.StringInfo) : Parser.Base where
  init := { m_keys := 1, m_depth := 0 }
  StartObject := fun s => (true, { s with m_depth := s.m_depth + 1 })
  Key := fun str s =>
    if 1 ≤ s.m_depth then
      match (Parser.rows folders (s.m_depth - 1).toNat).find?
          (fun row => row.selected s.m_keys str) with
      | some row => (true, { s with m_keys := s.m_keys ||| row.token })
      | none => (true, s)
    else (true, s)
  EndObject := fun _ s => (true, Parser.clear_key { s with m_depth := s.m_depth - 1 })
  other := fun e s d =>
    match e with
    | .Uint u => (true, Parser.clear_key s, Parser.store_uint uint_info s d u)
    | .Uint64 u => (true, Parser.clear_key s, Parser.store_uint uint_info s d u)
    | .String str => (true, Parser.clear_key s, Parser.store_string string_info s d str)
    | .StartArray => (true, s, d)
    | _ => (true, Parser.clear_key s, d)

/-- The members of a `StatsParser`: those of the base class, the record
`m_data`, the output vector `m_backend_stats` and the map `m_rofs_errors`,
from the id of a backend to a count. -/
structure StatsParser extends Parser.State where
  m_data : StatsParser.Data
  m_backend_stats : List BackendStat
  m_rofs_errors : Nat → Option Nat

/-- The constructor `StatsParser::StatsParser`: the base class is constructed,
the record starts as `Data.new` and the output vector and the map start
empty. -/
def StatsParser.new (base : Parser.Base) : StatsParser where
  toState := base.init
  m_data := StatsParser.Data.new
  m_backend_stats := []
  m_rofs_errors := fun _ => none

/-- The error number `EROFS` of errno.h. -/
def EROFS : Nat := 30

/-- The method `StatsParser::Key`; `sscanf` is the library call on the key. -/
def StatsParser.Key (base : Parser.Base) (sscanf : String → Option (Nat × Nat))
    (str : String) (self : StatsParser) : Bool × StatsParser :=
  match base.Key str self.toState with
  | (false, st) => (false, { self with toState := st })
  | (true, st) =>
    if st.m_keys = (Stats ||| StatName ||| 1) ∧ st.m_depth = 2 then
      match sscanf str with
      | some (id, err) =>
        (true, { self with
          toState := st
          m_data := { self.m_data with
            stat_commit := { self.m_data.stat_commit with backend := id, err := err } } })
      | none => (true, { self with toState := st })
    else (true, { self with toState := st })

/-- The statements of `StatsParser::EndObject` before the call of
`super::EndObject`. -/
def StatsParser.EndObject.leave (self : StatsParser) : StatsParser :=
  if self.m_keys = (Backends ||| BackendFolder ||| 1) ∧ self.m_depth = 3 then
    { self with
      m_backend_stats := self.m_backend_stats ++ [self.m_data.backend]
      m_data := { self.m_data with backend := BackendStat.new } }
  else if self.m_keys = (Stats ||| StatName ||| 1) ∧ self.m_depth = 3 then
    let self1 : StatsParser :=
      if self.m_data.stat_commit.err = EROFS then
        { self with
          m_rofs_errors :=
            Function.update self.m_rofs_errors self.m_data.stat_commit.backend
              (some self.m_data.stat_commit.count) }
      else self
    { self1 with m_data := { self1.m_data with
        stat_commit := { backend := 0, err := 0, count := 0 } } }
  else self

/-- The method `StatsParser::EndObject`. -/
def StatsParser.EndObject (base : Parser.Base) (nr_members : Nat) (self : StatsParser) :
    Bool × StatsParser :=
  let self1 := StatsParser.EndObject.leave self
  let r := base.EndObject nr_members self1.toState
  (r.1, { self1 with toState := r.2 })

/-- The handler of a `StatsParser` for an event: `Key` and `EndObject` are its
own, the others those of the base class. -/
def StatsParser.handle (base : Parser.Base) (sscanf : String → Option (Nat × Nat))
    (event : Reader.Event) (self : StatsParser) : Bool × StatsParser :=
  match event with
  | .Key str => StatsParser.Key base sscanf str self
  | .EndObject nr_members => StatsParser.EndObject base nr_members self
  | .StartObject =>
    let r := base.StartObject self.toState
    (r.1, { self with toState := r.2 })
  | e =>
    let r := base.other e self.toState self.m_data
    (r.1, { self with toState := r.2.1, m_data := r.2.2 })

/-- The base class of `StatsParser`, over the three tables of
StatsParser.cpp. -/
def StatsParser.super : Parser.Base :=
  Parser.over StatsParser.backend_folders StatsParser.backend_uint_info
    StatsParser.backend_string_info

/-! ## Scenarios of the download stage and of the parser -/

/-- A round that has dispatched nothing yet. -/
def Round.at_step2 : Round where
  m_nr_groups := 0
  m_queue := []
  m_calls := []

/-- An environment in which `curl_multi_init` returns null. -/
def Curl.Env.no_driver : Curl.Env where
  curl_multi_init := false
  epoll_create := some 3
  curl_easy_init := fun _ => true
  kickstart := 0
  turns := []

/-- An environment in which `epoll_create` returns -1. -/
def Curl.Env.no_poller : Curl.Env where
  curl_multi_init := true
  epoll_create := none
  curl_easy_init := fun _ => true
  kickstart := 0
  turns := []

/-- An environment in which `curl_easy_init` returns null for the node "b"
and a handle for every other node. -/
def Curl.Env.no_easy_handle_for_b : Curl.Env where
  curl_multi_init := true
  epoll_create := some 3
  curl_easy_init := fun node => node != "b"
  kickstart := 2
  turns := []

/-- A parser at the end of an element of "backends" whose `backend_id` is 5. -/
def StatsParser.leaving_backend : StatsParser :=
  { StatsParser.new StatsParser.super with
    toState := { m_keys := StatsParser.Backends ||| StatsParser.BackendFolder ||| 1, m_depth := 3 }
    m_data := { StatsParser.Data.new with
      backend := { BackendStat.new with backend_id := 5 } } }

/-- The method `Group::save_metadata(metadata, size)`, on the `size` bytes at
`metadata`. -/
def Group.save_metadata (g : Group) (metadata : List Nat) : Group :=
  if g.m_clean && !g.m_metadata.isEmpty && g.m_metadata.length == metadata.length
      && decide (g.m_metadata = metadata) then g
  else { g with m_metadata := metadata, m_clean := false }

/-- The method `Group::clone_from(other)`. -/
def Group.clone_from (st : Storage) (g other : Group) : Storage × Group :=
  Group.merge st { g with m_id := other.m_id } other

/-- A group that is not clean and holds the one byte 1 as metadata. -/
def group_pending : Group :=
  { Group.new 1 with m_clean := false, m_metadata := [1] }

/-- A group whose metadata was processed at time 5: coupled with group 2 in
the namespace "A", frozen, version 2, with a job. -/
def group_processed : Group :=
  { Group.new 7 with
    m_couple := some { m_key := "1:2", m_group_ids := [1, 2] }
    m_metadata := [1, 2, 3]
    m_status := .COUPLED
    m_status_text := "Group is OK"
    m_metadata_process_start := 5
    m_metadata_process_time := 1
    m_frozen := true
    m_version := 2
    m_service := { migrating := false, job_id := "job" }
    m_namespace := some "A" }

/-- A group whose metadata read failed before any metadata was processed. -/
def group_failed_read : Group :=
  { Group.new 9 with m_status_text := "Metadata download failed: timeout" }

/-- Metadata of group 3 with version 9 and the frozen flag, whose couple
`[3,5]` is not the couple `3:4`. -/
def metadata_other_couple : MsgObject :=
  .MAP [(.RAW "version", .POSITIVE_INTEGER 9),
    (.RAW "couple", .ARRAY [.POSITIVE_INTEGER 3, .POSITIVE_INTEGER 5]),
    (.RAW "namespace", .RAW "ns"), (.RAW "frozen", .BOOLEAN true)]

/-- Metadata with the frozen flag and a 'version' that is a string. -/
def metadata_bad_version : MsgObject :=
  .MAP [(.RAW "frozen", .BOOLEAN true), (.RAW "version", .RAW "2")]

/-! ## Scenarios of a whole download -/

theorem is_sorted_get {α : Type} {less : α → α → Bool} {xs : List α}
    (hs : is_sorted less xs) {i j : Nat} {a b : α} (hij : i < j)
    (ha : xs[i]? = some a) (hb : xs[j]? = some b) : less b a = false := by
  unfold is_sorted at hs
  rw [List.pairwise_iff_getElem] at hs
  obtain ⟨hi, rfl⟩ := List.getElem?_eq_some.mp ha
  obtain ⟨hj, rfl⟩ := List.getElem?_eq_some.mp hb
  exact hs i j hi hj hij

theorem lower_bound_loop_spec {α : Type} {less : α → α → Bool} (ho : StrictTotal less)
    {xs : List α} (hs : is_sorted less xs) (value : α) :
    ∀ (fuel first count : Nat), count ≤ fuel → first + count ≤ xs.length →
      (∀ i x, i < first → xs[i]? = some x → less x value = true) →
      (∀ i x, first + count ≤ i → xs[i]? = some x → less x value = false) →
      (∀ i x, i < lower_bound_loop less xs value fuel first count →
          xs[i]? = some x → less x value = true) ∧
      (∀ i x, lower_bound_loop less xs value fuel first count ≤ i →
          xs[i]? = some x → less x value = false) := by
  intro fuel
  induction fuel with
  | zero =>
    intro first count hc _ hlo hhi
    have : count = 0 := by omega
    subst this
    exact ⟨hlo, by simpa [lower_bound_loop] using hhi⟩
  | succ fuel ih =>
    intro first count hc hlen hlo hhi
    unfold lower_bound_loop
    by_cases hpos : 0 < count
    · rw [if_pos hpos]
      have hit : first + count / 2 < xs.length := by omega
      rw [List.getElem?_eq_getElem hit]
      simp only
      have hx : xs[first + count / 2]? = some (xs[first + count / 2]) :=
        List.getElem?_eq_getElem hit
      by_cases hl : less (xs[first + count / 2]) value = true
      · rw [if_pos hl]
        apply ih
        · omega
        · omega
        · intro i x hi hxi
          by_cases hlt : i < first + count / 2
          · have h1 := is_sorted_get hs hlt hxi hx
            by_cases h2 : less x (xs[first + count / 2]) = true
            · exact ho.trans _ _ _ h2 hl
            · have : x = xs[first + count / 2] := ho.total _ _ (by simpa using h2) h1
              rw [this]; exact hl
          · have : i = first + count / 2 := by omega
            subst this
            rw [hx] at hxi
            cases hxi
            exact hl
        · intro i x hi hxi
          exact hhi i x (by omega) hxi
      · rw [if_neg hl]
        have hl' : less (xs[first + count / 2]) value = false := by simpa using hl
        apply ih
        · omega
        · omega
        · exact hlo
        · intro i x hi hxi
          by_cases hlt : first + count / 2 < i
          · have h1 := is_sorted_get hs hlt hx hxi
            by_cases h2 : less x value = true
            · exfalso
              by_cases h3 : less (xs[first + count / 2]) x = true
              · rw [ho.trans _ _ _ h3 h2] at hl'
                exact Bool.noConfusion hl'
              · have : xs[first + count / 2] = x := ho.total _ _ (by simpa using h3) h1
                rw [this, h2] at hl'
                exact Bool.noConfusion hl'
            · simpa using h2
          · have : i = first + count / 2 := by omega
            subst this
            rw [hx] at hxi
            cases hxi
            exact hl'
    · rw [if_neg hpos]
      have : count = 0 := by omega
      subst this
      exact ⟨hlo, by simpa using hhi⟩

theorem binary_search_iff {α : Type} {less : α → α → Bool} (ho : StrictTotal less)
    {xs : List α} (hs : is_sorted less xs) (value : α) :
    binary_search less xs value = true ↔ value ∈ xs := by
  obtain ⟨hlo, hhi⟩ := lower_bound_loop_spec ho hs value xs.length 0 xs.length
    (le_refl _) (by omega) (by intro i x hi; omega)
    (by
      intro i x hi hx
      have := (List.getElem?_eq_some.mp hx).1
      omega)
  unfold binary_search lower_bound
  constructor
  · intro h
    split at h
    · rename_i x hx
      have h1 : less value x = false := by simpa using h
      have h2 := hhi _ x (le_refl _) hx
      have : x = value := ho.total _ _ h2 h1
      subst this
      exact List.mem_iff_getElem?.mpr ⟨_, hx⟩
    · exact absurd h (by simp)
  · intro h
    obtain ⟨i, hi⟩ := List.mem_iff_getElem?.mp h
    have hri : lower_bound_loop less xs value xs.length 0 xs.length ≤ i := by
      by_contra hlt
      have := hlo i value (by omega) hi
      rw [ho.irrefl] at this
      exact Bool.noConfusion this
    have hlen := (List.getElem?_eq_some.mp hi).1
    have hr : lower_bound_loop less xs value xs.length 0 xs.length < xs.length := by omega
    rw [List.getElem?_eq_getElem hr]
    simp only
    rcases Nat.lt_or_eq_of_le hri with hlt | heq
    · have := is_sorted_get hs hlt (List.getElem?_eq_getElem hr) hi
      simp [this]
    · have h3 : xs[i]? = some (xs[lower_bound_loop less xs value xs.length 0 xs.length]) := by
        rw [← heq]; exact List.getElem?_eq_getElem hr
      rw [hi] at h3
      rw [← Option.some.inj h3]
      simp [ho.irrefl]

theorem int_less_strictTotal : StrictTotal int_less where
  irrefl a := by simp [int_less]
  trans a b c h1 h2 := by
    simp only [int_less, decide_eq_true_eq] at *
    omega
  total a b h1 h2 := by
    simp only [int_less, decide_eq_false_iff_not] at *
    omega

theorem string_less_strictTotal : StrictTotal string_less where
  irrefl a := by simp [string_less]
  trans a b c h1 h2 := by
    simp only [string_less, decide_eq_true_eq] at *
    exact lt_trans h1 h2
  total a b h1 h2 := by
    simp only [string_less, decide_eq_false_iff_not, not_lt] at *
    exact String.ext (le_antisymm h2 h1)

/-! ## Lemmas: Group::match -/

theorem match_loop_cons (filter : Filter) (cn cb cf : Bool) (b : Backend) (rest : List Backend)
    (fn fb ff : Bool) :
    Group.match_loop filter cn cb cf (b :: rest) fn fb ff =
      if (cn == (fn || (cn && Backend.node_hit filter b)))
          && (cb == (fb || (cb && Backend.backend_hit filter b)))
          && (cf == (ff || (cf && Backend.fs_hit filter b))) then true
      else Group.match_loop filter cn cb cf rest
        (fn || (cn && Backend.node_hit filter b))
        (fb || (cb && Backend.backend_hit filter b))
        (ff || (cf && Backend.fs_hit filter b)) := by
  have e1 : (if (cn && !fn) = true then
        if (!binary_search string_less filter.nodes b.node_key) = true then true else fn
      else fn) = (fn || (cn && Backend.node_hit filter b)) := by
    unfold Backend.node_hit
    cases cn <;> cases fn <;> cases binary_search string_less filter.nodes b.node_key <;> rfl
  have e2 : (if (cb && !fb) = true then
        if binary_search string_less filter.backends b.key = true then true else fb
      else fb) = (fb || (cb && Backend.backend_hit filter b)) := by
    unfold Backend.backend_hit
    cases cb <;> cases fb <;> cases binary_search string_less filter.backends b.key <;> rfl
  have e3 : (if (cf && !ff) = true then
        match b.fs_key with
        | some fs_key =>
          if binary_search string_less filter.filesystems fs_key = true then true else ff
        | none => ff
      else ff) = (ff || (cf && Backend.fs_hit filter b)) := by
    unfold Backend.fs_hit
    cases b.fs_key with
    | none => cases cf <;> cases ff <;> rfl
    | some k => cases cf <;> cases ff <;> simp
  rw [Group.match_loop]
  simp only [e1, e2, e3]

theorem match_loop_eq (filter : Filter) (cn cb cf : Bool) :
    ∀ (bs : List Backend) (fn fb ff : Bool),
      (fn = true → cn = true) → (fb = true → cb = true) → (ff = true → cf = true) →
      Group.match_loop filter cn cb cf bs fn fb ff =
        (!bs.isEmpty
          && (!cn || fn || bs.any (Backend.node_hit filter))
          && (!cb || fb || bs.any (Backend.backend_hit filter))
          && (!cf || ff || bs.any (Backend.fs_hit filter))) := by
  intro bs
  induction bs with
  | nil => intro fn fb ff _ _ _; simp [Group.match_loop]
  | cons b rest ih =>
    intro fn fb ff hn hb hf
    rw [match_loop_cons, ih _ _ _ (by cases fn <;> cases cn <;> simp_all)
      (by cases fb <;> cases cb <;> simp_all) (by cases ff <;> cases cf <;> simp_all)]
    clear ih
    simp only [List.any_cons, List.isEmpty_cons]
    generalize Backend.node_hit filter b = N
    generalize Backend.backend_hit filter b = B
    generalize Backend.fs_hit filter b = F
    cases rest with
    | nil =>
      simp only [List.any_nil, List.isEmpty_nil]
      revert hn hb hf
      revert cn cb cf fn fb ff N B F
      decide
    | cons c rest2 =>
      simp only [List.isEmpty_cons]
      generalize (c :: rest2).any (Backend.node_hit filter) = aN
      generalize (c :: rest2).any (Backend.backend_hit filter) = aB
      generalize (c :: rest2).any (Backend.fs_hit filter) = aF
      revert hn hb hf
      revert cn cb cf fn fb ff N B F aN aB aF
      decide

theorem match_iff (g : Group) (filter : Filter) (item_types : Nat)
    (hg : is_sorted int_less filter.groups)
    (hn : is_sorted string_less filter.namespaces)
    (hc : is_sorted string_less filter.couples) :
    g.match_ filter item_types = true ↔
      g.passes_criteria filter item_types ∧
      ((filter.check_nodes item_types || filter.check_backends item_types
          || filter.check_fs item_types) = true →
        Group.match_loop filter (filter.check_nodes item_types)
          (filter.check_backends item_types) (filter.check_fs item_types)
          g.m_backends false false false = true) := by
  have bg := binary_search_iff int_less_strictTotal hg g.m_id
  unfold Group.match_ Group.passes_criteria
  have e1 : ((item_types &&& Filter.Group != 0 && !filter.groups.isEmpty)
      && !binary_search int_less filter.groups g.m_id) = true ↔
      ¬ (item_types &&& Filter.Group = 0 ∨ filter.groups = [] ∨ g.m_id ∈ filter.groups) := by
    rw [← bg]
    cases binary_search int_less filter.groups g.m_id <;> simp [List.isEmpty_iff]
  have e2 : ((item_types &&& Filter.Namespace != 0 && !filter.namespaces.isEmpty)
      && (match g.m_namespace with
        | none => true
        | some name => !binary_search string_less filter.namespaces name)) = true ↔
      ¬ (item_types &&& Filter.Namespace = 0 ∨ filter.namespaces = [] ∨
        ∃ name, g.m_namespace = some name ∧ name ∈ filter.namespaces) := by
    cases hns : g.m_namespace with
    | none => simp [List.isEmpty_iff]
    | some name =>
      have bn := binary_search_iff string_less_strictTotal hn name
      simp only [Option.some.injEq, exists_eq_left']
      rw [← bn]
      cases binary_search string_less filter.namespaces name <;> simp [List.isEmpty_iff]
  have e3 : ((item_types &&& Filter.Couple != 0 && !filter.couples.isEmpty)
      && (match g.m_couple with
        | none => true
        | some couple => !binary_search string_less filter.couples couple.get_key)) = true ↔
      ¬ (item_types &&& Filter.Couple = 0 ∨ filter.couples = [] ∨
        ∃ couple, g.m_couple = some couple ∧ couple.get_key ∈ filter.couples) := by
    cases hcs : g.m_couple with
    | none => simp [List.isEmpty_iff]
    | some couple =>
      have bc := binary_search_iff string_less_strictTotal hc couple.get_key
      simp only [Option.some.injEq, exists_eq_left']
      rw [← bc]
      cases binary_search string_less filter.couples couple.get_key <;> simp [List.isEmpty_iff]
  by_cases h1 : (item_types &&& Filter.Group = 0 ∨ filter.groups = [] ∨ g.m_id ∈ filter.groups)
  · rw [if_neg (by rw [e1]; exact not_not.mpr h1)]
    by_cases h2 : (item_types &&& Filter.Namespace = 0 ∨ filter.namespaces = [] ∨
        ∃ name, g.m_namespace = some name ∧ name ∈ filter.namespaces)
    · rw [if_neg (by rw [e2]; exact not_not.mpr h2)]
      by_cases h3 : (item_types &&& Filter.Couple = 0 ∨ filter.couples = [] ∨
          ∃ couple, g.m_couple = some couple ∧ couple.get_key ∈ filter.couples)
      · rw [if_neg (by rw [e3]; exact not_not.mpr h3)]
        by_cases h4 : (filter.check_nodes item_types || filter.check_backends item_types
            || filter.check_fs item_types) = true
        · rw [if_pos h4]
          exact ⟨fun h => ⟨⟨h1, h2, h3⟩, fun _ => h⟩, fun h => h.2 h4⟩
        · rw [if_neg h4]
          exact ⟨fun _ => ⟨⟨h1, h2, h3⟩, fun h => absurd h h4⟩, fun _ => rfl⟩
      · rw [if_pos (e3.mpr h3)]
        exact ⟨fun h => Bool.noConfusion h, fun h => absurd h.1.2.2 h3⟩
    · rw [if_pos (e2.mpr h2)]
      exact ⟨fun h => Bool.noConfusion h, fun h => absurd h.1.2.1 h2⟩
  · rw [if_pos (e1.mpr h1)]
    exact ⟨fun h => Bool.noConfusion h, fun h => absurd h.1.1 h1⟩

theorem check_inactive {bit : Nat} {α : Type} {xs : List α} {item_types : Nat}
    (h : item_types &&& bit = 0 ∨ xs = []) :
    (item_types &&& bit != 0 && !xs.isEmpty) = false := by
  rcases h with h | h
  · simp [h]
  · simp [h]

theorem check_active {bit : Nat} {α : Type} {xs : List α} {item_types : Nat}
    (h : item_types &&& bit ≠ 0) (hx : xs ≠ []) :
    (item_types &&& bit != 0 && !xs.isEmpty) = true := by
  simp [h, List.isEmpty_iff, hx]

/-! ## Lemmas: status derivation -/

theorem backends_loop_bad (bs : List Backend) :
    ∀ (hb hr ho : Bool), (Group.backends_loop bs (hb, hr, ho)).1 =
      (hb || bs.any (fun b => decide (b.status = Backend.Status.BAD))) := by
  induction bs with
  | nil => intro hb hr ho; simp [Group.backends_loop]
  | cons b rest ih =>
    intro hb hr ho
    unfold Group.backends_loop
    by_cases h1 : b.status = Backend.Status.BAD
    · simp [h1]
    · rw [if_neg h1]
      by_cases h2 : b.status = Backend.Status.RO
      · rw [if_pos h2, ih]; simp [h1]
      · rw [if_neg h2]
        by_cases h3 : b.status ≠ Backend.Status.OK
        · rw [if_pos h3, ih]; simp [h1]
        · rw [if_neg h3, ih]; simp [h1]

theorem backends_loop_no_bad (bs : List Backend)
    (hno : ∀ b ∈ bs, b.status ≠ Backend.Status.BAD) :
    ∀ (hb hr ho : Bool), Group.backends_loop bs (hb, hr, ho) =
      (hb, hr || bs.any (fun b => decide (b.status = Backend.Status.RO)),
        ho || bs.any (fun b => !decide (b.status = Backend.Status.RO)
          && !decide (b.status = Backend.Status.OK))) := by
  induction bs with
  | nil => intro hb hr ho; simp [Group.backends_loop]
  | cons b rest ih =>
    intro hb hr ho
    have h1 : b.status ≠ Backend.Status.BAD := hno b (List.mem_cons_self _ _)
    have ih' := ih (fun c hc => hno c (List.mem_cons_of_mem _ hc))
    unfold Group.backends_loop
    rw [if_neg h1]
    by_cases h2 : b.status = Backend.Status.RO
    · rw [if_pos h2, ih']; simp [h2]
    · rw [if_neg h2]
      by_cases h3 : b.status ≠ Backend.Status.OK
      · rw [if_pos h3, ih']; simp [h2, h3]
      · rw [if_neg h3, ih']; simp [h2, not_not.mp h3]

theorem derive_status_status (st : Storage) (g : Group) :
    (Group.derive_status st g).m_status =
      status_table (↑(g.m_backends.map (fun b => b.status)) : Multiset Backend.Status)
        (decide (st.config.forbidden_dht_groups ≠ 0)) g.m_service.migrating := by
  unfold Group.derive_status status_table
  simp only [Multiset.coe_card, List.length_map, Multiset.mem_coe, List.mem_map,
    decide_eq_true_eq]
  by_cases h0 : g.m_backends = []
  · simp [h0]
  · have hlen : g.m_backends.length ≠ 0 := fun h => h0 (List.length_eq_zero.mp h)
    rw [if_neg (by simpa [List.isEmpty_iff] using h0), if_neg hlen]
    by_cases h1 : g.m_backends.length > 1 ∧ st.config.forbidden_dht_groups ≠ 0
    · rw [if_pos h1, if_pos h1]
    · rw [if_neg h1, if_neg h1]
      by_cases hbad : ∃ a ∈ g.m_backends, a.status = Backend.Status.BAD
      · have hb := backends_loop_bad g.m_backends false false false
        have : (Group.backends_loop g.m_backends (false, false, false)).1 = true := by
          rw [hb]
          simpa using hbad
        rw [if_pos hbad]
        rcases hl : Group.backends_loop g.m_backends (false, false, false) with ⟨a, b, c⟩
        rw [hl] at this
        simp only at this
        subst this
        simp
      · have hno : ∀ b ∈ g.m_backends, b.status ≠ Backend.Status.BAD :=
          fun b hb h => hbad ⟨b, hb, h⟩
        rw [if_neg hbad, backends_loop_no_bad g.m_backends hno]
        simp only [Bool.false_or, Bool.false_eq_true, if_false]
        by_cases hro : ∃ a ∈ g.m_backends, a.status = Backend.Status.RO
        · have : (g.m_backends.any fun b => decide (b.status = Backend.Status.RO)) = true := by
            simpa using hro
          rw [this]
          by_cases hm : g.m_service.migrating = true
          · simp [hro, hm]
          · simp [hro, hm]
        · have : (g.m_backends.any fun b => decide (b.status = Backend.Status.RO)) = false := by
            simpa using hro
          rw [this]
          simp only [Bool.false_eq_true, if_false, hro, false_and]
          by_cases hot : ∃ status ∈ (↑(List.map (fun b => b.status) g.m_backends) :
              Multiset Backend.Status), status ≠ Backend.Status.OK
          · rw [if_pos hot]
            obtain ⟨s, hmem, hs⟩ := hot
            obtain ⟨a, ha, rfl⟩ := List.mem_map.mp (Multiset.mem_coe.mp hmem)
            have hra : a.status ≠ Backend.Status.RO := fun h => hro ⟨a, ha, h⟩
            have : (g.m_backends.any fun b => !decide (b.status = Backend.Status.RO)
                && !decide (b.status = Backend.Status.OK)) = true := by
              simp only [List.any_eq_true]
              exact ⟨a, ha, by simp [hra, hs]⟩
            rw [this]
            simp
          · rw [if_neg hot]
            have : (g.m_backends.any fun b => !decide (b.status = Backend.Status.RO)
                && !decide (b.status = Backend.Status.OK)) = false := by
              rw [Bool.eq_false_iff]
              intro h
              simp only [List.any_eq_true, Bool.and_eq_true, Bool.not_eq_true',
                decide_eq_false_iff_not] at h
              obtain ⟨a, ha, _, hs⟩ := h
              exact hot ⟨a.status, Multiset.mem_coe.mpr (List.mem_map.mpr ⟨a, ha, rfl⟩), hs⟩
            rw [this]
            simp


theorem derive_status_fields (st : Storage) (g : Group) :
    (Group.derive_status st g).m_id = g.m_id ∧
    (Group.derive_status st g).m_couple = g.m_couple ∧
    (Group.derive_status st g).m_backends = g.m_backends ∧
    (Group.derive_status st g).m_clean = g.m_clean ∧
    (Group.derive_status st g).m_metadata = g.m_metadata ∧
    (Group.derive_status st g).m_metadata_process_start = g.m_metadata_process_start ∧
    (Group.derive_status st g).m_metadata_process_time = g.m_metadata_process_time ∧
    (Group.derive_status st g).m_frozen = g.m_frozen ∧
    (Group.derive_status st g).m_version = g.m_version ∧
    (Group.derive_status st g).m_service = g.m_service ∧
    (Group.derive_status st g).m_namespace = g.m_namespace := by
  unfold Group.derive_status
  split
  · simp
  · split
    · simp
    · rcases Group.backends_loop g.m_backends (false, false, false) with ⟨a, b, c⟩
      cases a <;> cases b <;> cases c <;> cases g.m_service.migrating <;> simp

theorem derive_status_dht (st : Storage) (g : Group) (hlen : 2 ≤ g.m_backends.length)
    (hdht : st.config.forbidden_dht_groups ≠ 0) :
    (Group.derive_status st g).m_status = Group.Status.BROKEN ∧
    (Group.derive_status st g).m_status_text =
      "DHT groups are forbidden but the group has " ++ toString g.m_backends.length
        ++ " backends" := by
  unfold Group.derive_status
  have h0 : g.m_backends.isEmpty = false := by
    cases hb : g.m_backends with
    | nil => rw [hb] at hlen; simp at hlen
    | cons b rest => rfl
  rw [h0]
  rw [if_neg (by simp), if_pos ⟨by omega, hdht⟩]
  exact ⟨rfl, rfl⟩

theorem derive_status_migrating (st : Storage) (g : Group)
    (hdht : ¬ (g.m_backends.length > 1 ∧ st.config.forbidden_dht_groups ≠ 0))
    (hbad : ∀ b ∈ g.m_backends, b.status ≠ Backend.Status.BAD)
    (hro : ∃ b ∈ g.m_backends, b.status = Backend.Status.RO)
    (hm : g.m_service.migrating = true) :
    (Group.derive_status st g).m_status = Group.Status.MIGRATING ∧
    (Group.derive_status st g).m_status_text =
      "Group is migrating, job id is '" ++ g.m_service.job_id ++ "'" := by
  unfold Group.derive_status
  have h0 : g.m_backends.isEmpty = false := by
    obtain ⟨b, hb, _⟩ := hro
    cases hbs : g.m_backends with
    | nil => rw [hbs] at hb; simp at hb
    | cons b rest => rfl
  have hany : (g.m_backends.any fun b => decide (b.status = Backend.Status.RO)) = true := by
    simpa using hro
  rw [h0, if_neg (by simp), if_neg hdht, backends_loop_no_bad g.m_backends hbad, hany]
  simp [hm]

theorem get_namespace_config (st : Storage) (name : String) :
    (st.get_namespace name).config = st.config ∧
    (st.get_namespace name).m_couples = st.m_couples := by
  unfold Storage.get_namespace
  split <;> simp

theorem create_couple_fields (st : Storage) (ids : List Int) (g : Group) :
    (st.create_couple ids g).1.config = st.config ∧
    (st.create_couple ids g).1.m_namespaces = st.m_namespaces ∧
    (st.create_couple ids g).2.m_backends = g.m_backends ∧
    (st.create_couple ids g).2.m_service = g.m_service ∧
    (st.create_couple ids g).2.m_namespace = g.m_namespace ∧
    (st.create_couple ids g).2.m_version = g.m_version ∧
    (st.create_couple ids g).2.m_frozen = g.m_frozen := by
  unfold Storage.create_couple
  split <;> simp

theorem bind_couple_accepted (st : Storage) (g : Group) (couple : List Int)
    (h : ∀ c, g.m_couple = some c → c.check couple = true) :
    ∃ st1 g1, Group.bind_couple st g couple = (st1, Group.derive_status st1 g1) ∧
      st1.config = st.config ∧ st1.m_namespaces = st.m_namespaces ∧
      g1.m_backends = g.m_backends ∧ g1.m_service = g.m_service ∧
      g1.m_namespace = g.m_namespace ∧ g1.m_version = g.m_version ∧
      g1.m_frozen = g.m_frozen := by
  unfold Group.bind_couple
  cases hc : g.m_couple with
  | some c =>
    simp only [h c hc, Bool.not_true, Bool.false_eq_true, if_false]
    exact ⟨st, g, rfl, rfl, rfl, rfl, rfl, rfl, rfl, rfl⟩
  | none =>
    obtain ⟨h1, h2, h3, h4, h5, h6, h7⟩ := create_couple_fields st couple g
    exact ⟨(st.create_couple couple g).1, (st.create_couple couple g).2, rfl,
      h1, h2, h3, h4, h5, h6, h7⟩

/-- What `Group::process_metadata` does once the metadata is decoded and the
namespace and couple checks pass: the status derivation runs on a group that
has the backends of `g` and the decoded service record. -/
theorem process_metadata_accepted (rt : Runtime) (st : Storage) (g : Group) (obj : MsgObject)
    (l : Group.Locals) (hclean : g.m_clean = false)
    (hunpack : rt.unpack g.m_metadata = .ok obj) (hdecode : Group.decode obj = .ok l)
    (hns : ∀ name, g.m_namespace = some name → name = l.ns)
    (hcouple : ∀ c, g.m_couple = some c → c.check l.couple = true) :
    ∃ st1 g1, g.process_metadata rt st = (st1, Group.derive_status st1 g1) ∧
      st1.config = st.config ∧ g1.m_backends = g.m_backends ∧
      g1.m_service = { migrating := l.service_migrating, job_id := l.service_job_id } ∧
      g1.m_namespace = some l.ns ∧ g1.m_version = l.version ∧ g1.m_frozen = l.frozen := by
  unfold Group.process_metadata
  simp only [hclean, hunpack, hdecode, Bool.false_eq_true, if_false]
  cases hn : g.m_namespace with
  | none =>
    simp only
    obtain ⟨st1, g1, e, h1, _, h3, h4, h5, h6, h7⟩ :=
      bind_couple_accepted (st.get_namespace l.ns)
        { g with
          m_metadata_process_start := rt.clock
          m_metadata_process_time := rt.elapsed
          m_clean := true
          m_status_text := ""
          m_version := l.version
          m_frozen := l.frozen
          m_service := { migrating := l.service_migrating, job_id := l.service_job_id }
          m_namespace := some l.ns } l.couple hcouple
    exact ⟨st1, g1, e, h1.trans (get_namespace_config st l.ns).1, h3, h4, h5, h6, h7⟩
  | some name =>
    have := hns name hn
    subst this
    simp only [ne_eq, not_true_eq_false, if_false]
    obtain ⟨st1, g1, e, h1, _, h3, h4, h5, h6, h7⟩ :=
      bind_couple_accepted st
        { g with
          m_metadata_process_start := rt.clock
          m_metadata_process_time := rt.elapsed
          m_clean := true
          m_status_text := ""
          m_version := l.version
          m_frozen := l.frozen
          m_service := { migrating := l.service_migrating, job_id := l.service_job_id }
          m_namespace := some l.ns }
        l.couple hcouple
    exact ⟨st1, g1, e, h1, h3, h4, h5, h6, h7⟩

/-! ## Lemmas: decoding of the metadata -/

theorem service_entry_fields (key val : MsgObject) (l l1 : Group.Locals)
    (h : Group.service_entry key val l = .ok l1) :
    l1.version = l.version ∧ l1.couple = l.couple ∧ l1.ns = l.ns ∧ l1.frozen = l.frozen := by
  unfold Group.service_entry at h
  repeat' split at h
  all_goals first
    | (simp only [Except.ok.injEq] at h; subst h; exact ⟨rfl, rfl, rfl, rfl⟩)
    | exact absurd h (by simp)

theorem service_loop_fields :
    ∀ (srv : List (MsgObject × MsgObject)) (l l1 : Group.Locals),
      Group.service_loop srv l = .ok l1 →
      l1.version = l.version ∧ l1.couple = l.couple ∧ l1.ns = l.ns ∧ l1.frozen = l.frozen := by
  intro srv
  induction srv with
  | nil =>
    intro l l1 h
    simp only [Group.service_loop, Except.ok.injEq] at h
    subst h
    exact ⟨rfl, rfl, rfl, rfl⟩
  | cons kv rest ih =>
    intro l l1 h
    obtain ⟨key, val⟩ := kv
    unfold Group.service_loop at h
    split at h
    · rename_i l2 h2
      obtain ⟨a1, a2, a3, a4⟩ := service_entry_fields key val l l2 h2
      obtain ⟨b1, b2, b3, b4⟩ := ih l2 l1 h
      exact ⟨b1.trans a1, b2.trans a2, b3.trans a3, b4.trans a4⟩
    · exact absurd h (by simp)

theorem service_entry_service (j : String) (key val : MsgObject) (l l1 : Group.Locals)
    (h : Group.service_entry key val l = .ok l1)
    (hj : key = MsgObject.RAW "job_id" → val = MsgObject.RAW j) :
    ((l.service_migrating = true ∨
        (key, val) = (MsgObject.RAW "status", MsgObject.RAW "MIGRATING")) →
      l1.service_migrating = true) ∧
    ((l.service_job_id = j ∨ (key, val) = (MsgObject.RAW "job_id", MsgObject.RAW j)) →
      l1.service_job_id = j) := by
  unfold Group.service_entry at h
  split at h
  · rename_i k
    split at h
    · rename_i hk
      subst hk
      split at h
      · rename_i st
        split at h
        · simp only [Except.ok.injEq] at h
          subst h
          refine ⟨fun _ => rfl, fun hc => ?_⟩
          rcases hc with hc | hc
          · exact hc
          · simp only [Prod.mk.injEq, MsgObject.RAW.injEq] at hc
            exact absurd hc.1 (by decide)
        · rename_i hst
          simp only [Except.ok.injEq] at h
          subst h
          refine ⟨fun hc => ?_, fun hc => ?_⟩
          · rcases hc with hc | hc
            · exact hc
            · simp only [Prod.mk.injEq, MsgObject.RAW.injEq] at hc
              exact absurd hc.2 hst
          · rcases hc with hc | hc
            · exact hc
            · simp only [Prod.mk.injEq, MsgObject.RAW.injEq] at hc
              exact absurd hc.1 (by decide)
      · rename_i hval
        simp only [Except.ok.injEq] at h
        subst h
        refine ⟨fun hc => ?_, fun hc => ?_⟩
        · rcases hc with hc | hc
          · exact hc
          · simp only [Prod.mk.injEq, MsgObject.RAW.injEq] at hc
            exact absurd hc.2 (hval _)
        · rcases hc with hc | hc
          · exact hc
          · simp only [Prod.mk.injEq, MsgObject.RAW.injEq] at hc
            exact absurd hc.1 (by decide)
    · rename_i hk
      split at h
      · rename_i hk2
        subst hk2
        split at h
        · rename_i s
          have hs := hj rfl
          simp only [MsgObject.RAW.injEq] at hs
          subst hs
          simp only [Except.ok.injEq] at h
          subst h
          refine ⟨fun hc => ?_, fun _ => rfl⟩
          rcases hc with hc | hc
          · exact hc
          · simp only [Prod.mk.injEq, MsgObject.RAW.injEq] at hc
            exact absurd hc.1 (by decide)
        · exact absurd h (by simp)
      · rename_i hk2
        simp only [Except.ok.injEq] at h
        subst h
        refine ⟨fun hc => ?_, fun hc => ?_⟩
        · rcases hc with hc | hc
          · exact hc
          · simp only [Prod.mk.injEq, MsgObject.RAW.injEq] at hc
            exact absurd hc.1 hk
        · rcases hc with hc | hc
          · exact hc
          · simp only [Prod.mk.injEq, MsgObject.RAW.injEq] at hc
            exact absurd hc.1 hk2
  · rename_i hkey
    simp only [Except.ok.injEq] at h
    subst h
    refine ⟨fun hc => ?_, fun hc => ?_⟩
    · rcases hc with hc | hc
      · exact hc
      · simp only [Prod.mk.injEq] at hc
        exact absurd hc.1 (hkey _)
    · rcases hc with hc | hc
      · exact hc
      · simp only [Prod.mk.injEq] at hc
        exact absurd hc.1 (hkey _)

theorem service_loop_service (j : String) :
    ∀ (srv : List (MsgObject × MsgObject)) (l l1 : Group.Locals),
      Group.service_loop srv l = .ok l1 →
      (∀ v, (MsgObject.RAW "job_id", v) ∈ srv → v = MsgObject.RAW j) →
      ((l.service_migrating = true ∨
          (MsgObject.RAW "status", MsgObject.RAW "MIGRATING") ∈ srv) →
        l1.service_migrating = true) ∧
      ((l.service_job_id = j ∨ (MsgObject.RAW "job_id", MsgObject.RAW j) ∈ srv) →
        l1.service_job_id = j) := by
  intro srv
  induction srv with
  | nil =>
    intro l l1 h _
    simp only [Group.service_loop, Except.ok.injEq] at h
    subst h
    simp
  | cons kv rest ih =>
    intro l l1 h hj
    obtain ⟨key, val⟩ := kv
    unfold Group.service_loop at h
    split at h
    · rename_i l2 h2
      obtain ⟨a1, a2⟩ := service_entry_service j key val l l2 h2
        (fun hk => hj val (by rw [hk]; exact List.mem_cons_self _ _))
      obtain ⟨b1, b2⟩ := ih l2 l1 h (fun v hv => hj v (List.mem_cons_of_mem _ hv))
      refine ⟨fun hc => b1 ?_, fun hc => b2 ?_⟩
      · rcases hc with hc | hc
        · exact Or.inl (a1 (Or.inl hc))
        · rcases List.mem_cons.mp hc with e | hc
          · exact Or.inl (a1 (Or.inr e.symm))
          · exact Or.inr hc
      · rcases hc with hc | hc
        · exact Or.inl (a2 (Or.inl hc))
        · rcases List.mem_cons.mp hc with e | hc
          · exact Or.inl (a2 (Or.inr e.symm))
          · exact Or.inr hc
    · exact absurd h (by simp)

theorem map_entry_service (j : String) (key val : MsgObject) (l l1 : Group.Locals)
    (h : Group.map_entry key val l = .ok l1)
    (hj : ∀ srv v, (key, val) = (MsgObject.RAW "service", MsgObject.MAP srv) →
      (MsgObject.RAW "job_id", v) ∈ srv → v = MsgObject.RAW j) :
    ((l.service_migrating = true ∨
        ∃ srv, (key, val) = (MsgObject.RAW "service", MsgObject.MAP srv) ∧
          (MsgObject.RAW "status", MsgObject.RAW "MIGRATING") ∈ srv) →
      l1.service_migrating = true) ∧
    ((l.service_job_id = j ∨
        ∃ srv, (key, val) = (MsgObject.RAW "service", MsgObject.MAP srv) ∧
          (MsgObject.RAW "job_id", MsgObject.RAW j) ∈ srv) →
      l1.service_job_id = j) := by
  -- an entry that is not a 'service' map leaves the service locals as they are
  have skip : l1.service_migrating = l.service_migrating →
      l1.service_job_id = l.service_job_id →
      (∀ srv, (key, val) ≠ (MsgObject.RAW "service", MsgObject.MAP srv)) →
      ((l.service_migrating = true ∨
          ∃ srv, (key, val) = (MsgObject.RAW "service", MsgObject.MAP srv) ∧
            (MsgObject.RAW "status", MsgObject.RAW "MIGRATING") ∈ srv) →
        l1.service_migrating = true) ∧
      ((l.service_job_id = j ∨
          ∃ srv, (key, val) = (MsgObject.RAW "service", MsgObject.MAP srv) ∧
            (MsgObject.RAW "job_id", MsgObject.RAW j) ∈ srv) →
        l1.service_job_id = j) := by
    intro hm hjob hne
    refine ⟨fun hc => ?_, fun hc => ?_⟩
    · rcases hc with hc | ⟨srv, e, _⟩
      · exact hm.trans hc
      · exact absurd e (hne srv)
    · rcases hc with hc | ⟨srv, e, _⟩
      · exact hjob.trans hc
      · exact absurd e (hne srv)
  unfold Group.map_entry at h
  split at h
  · rename_i k
    split at h
    · rename_i hk
      split at h
      · simp only [Except.ok.injEq] at h
        subst h
        exact skip rfl rfl (fun srv e => by
          simp only [Prod.mk.injEq, MsgObject.RAW.injEq] at e
          exact absurd (hk.symm.trans e.1) (by decide))
      · exact absurd h (by simp)
    · split at h
      · rename_i hk
        split at h
        · simp only [Except.ok.injEq] at h
          subst h
          exact skip rfl rfl (fun srv e => by
            simp only [Prod.mk.injEq, MsgObject.RAW.injEq] at e
            exact absurd (hk.symm.trans e.1) (by decide))
        · exact absurd h (by simp)
      · split at h
        · rename_i hk
          split at h
          · simp only [Except.ok.injEq] at h
            subst h
            exact skip rfl rfl (fun srv e => by
              simp only [Prod.mk.injEq, MsgObject.RAW.injEq] at e
              exact absurd (hk.symm.trans e.1) (by decide))
          · exact absurd h (by simp)
        · split at h
          · rename_i hk
            split at h
            · simp only [Except.ok.injEq] at h
              subst h
              exact skip rfl rfl (fun srv e => by
                simp only [Prod.mk.injEq, MsgObject.RAW.injEq] at e
                exact absurd (hk.symm.trans e.1) (by decide))
            · exact absurd h (by simp)
          · split at h
            · rename_i hk
              subst hk
              split at h
              · rename_i srv0
                obtain ⟨sa, sb⟩ := service_loop_service j srv0 l l1 h
                  (fun v hv => hj srv0 v rfl hv)
                refine ⟨fun hc => sa ?_, fun hc => sb ?_⟩
                · rcases hc with hc | ⟨srv, e, hc⟩
                  · exact Or.inl hc
                  · simp only [Prod.mk.injEq, MsgObject.MAP.injEq, true_and] at e
                    subst e
                    exact Or.inr hc
                · rcases hc with hc | ⟨srv, e, hc⟩
                  · exact Or.inl hc
                  · simp only [Prod.mk.injEq, MsgObject.MAP.injEq, true_and] at e
                    subst e
                    exact Or.inr hc
              · exact absurd h (by simp)
            · rename_i hk
              simp only [Except.ok.injEq] at h
              subst h
              exact skip rfl rfl (fun srv e => by
                simp only [Prod.mk.injEq, MsgObject.RAW.injEq] at e
                exact absurd e.1 hk)
  · rename_i hkey
    simp only [Except.ok.injEq] at h
    subst h
    exact skip rfl rfl (fun srv e => by
      simp only [Prod.mk.injEq] at e
      exact absurd e.1 (hkey _))

theorem map_loop_service (j : String) :
    ∀ (kvs : List (MsgObject × MsgObject)) (l l1 : Group.Locals),
      Group.map_loop kvs l = .ok l1 →
      (∀ srv v, (MsgObject.RAW "service", MsgObject.MAP srv) ∈ kvs →
        (MsgObject.RAW "job_id", v) ∈ srv → v = MsgObject.RAW j) →
      ((l.service_migrating = true ∨
          ∃ srv, (MsgObject.RAW "service", MsgObject.MAP srv) ∈ kvs ∧
            (MsgObject.RAW "status", MsgObject.RAW "MIGRATING") ∈ srv) →
        l1.service_migrating = true) ∧
      ((l.service_job_id = j ∨
          ∃ srv, (MsgObject.RAW "service", MsgObject.MAP srv) ∈ kvs ∧
            (MsgObject.RAW "job_id", MsgObject.RAW j) ∈ srv) →
        l1.service_job_id = j) := by
  intro kvs
  induction kvs with
  | nil =>
    intro l l1 h _
    simp only [Group.map_loop, Except.ok.injEq] at h
    subst h
    simp
  | cons kv rest ih =>
    intro l l1 h hj
    obtain ⟨key, val⟩ := kv
    unfold Group.map_loop at h
    split at h
    · rename_i l2 h2
      obtain ⟨a1, a2⟩ := map_entry_service j key val l l2 h2
        (fun srv v e hv => hj srv v (by rw [← e]; exact List.mem_cons_self _ _) hv)
      obtain ⟨b1, b2⟩ := ih l2 l1 h
        (fun srv v hs hv => hj srv v (List.mem_cons_of_mem _ hs) hv)
      refine ⟨fun hc => b1 ?_, fun hc => b2 ?_⟩
      · rcases hc with hc | ⟨srv, hs, hc⟩
        · exact Or.inl (a1 (Or.inl hc))
        · rcases List.mem_cons.mp hs with e | hs
          · exact Or.inl (a1 (Or.inr ⟨srv, e.symm, hc⟩))
          · exact Or.inr ⟨srv, hs, hc⟩
      · rcases hc with hc | ⟨srv, hs, hc⟩
        · exact Or.inl (a2 (Or.inl hc))
        · rcases List.mem_cons.mp hs with e | hs
          · exact Or.inl (a2 (Or.inr ⟨srv, e.symm, hc⟩))
          · exact Or.inr ⟨srv, hs, hc⟩
    · exact absurd h (by simp)

theorem parse_couple_sorted (obj : MsgObject) (couple sorted : List Int)
    (h : parse_couple obj couple = (true, sorted)) : sorted.Sorted (· ≤ ·) := by
  unfold parse_couple at h
  split at h
  · split at h
    · simp only [Prod.mk.injEq, true_and] at h
      subst h
      exact List.sorted_insertionSort _ _
    · simp at h
  · simp at h

theorem map_entry_sorted (key val : MsgObject) (l l1 : Group.Locals)
    (h : Group.map_entry key val l = .ok l1) (hs : l.couple.Sorted (· ≤ ·)) :
    l1.couple.Sorted (· ≤ ·) := by
  unfold Group.map_entry at h
  split at h
  · split at h
    · split at h
      · simp only [Except.ok.injEq] at h; subst h; exact hs
      · exact absurd h (by simp)
    · split at h
      · split at h
        · rename_i couple hp
          simp only [Except.ok.injEq] at h; subst h
          exact parse_couple_sorted _ _ _ hp
        · exact absurd h (by simp)
      · split at h
        · split at h
          · simp only [Except.ok.injEq] at h; subst h; exact hs
          · exact absurd h (by simp)
        · split at h
          · split at h
            · simp only [Except.ok.injEq] at h; subst h; exact hs
            · exact absurd h (by simp)
          · split at h
            · split at h
              · rw [(service_loop_fields _ _ _ h).2.1]; exact hs
              · exact absurd h (by simp)
            · simp only [Except.ok.injEq] at h; subst h; exact hs
  · simp only [Except.ok.injEq] at h; subst h; exact hs

theorem map_loop_sorted :
    ∀ (kvs : List (MsgObject × MsgObject)) (l l1 : Group.Locals),
      Group.map_loop kvs l = .ok l1 → l.couple.Sorted (· ≤ ·) → l1.couple.Sorted (· ≤ ·) := by
  intro kvs
  induction kvs with
  | nil =>
    intro l l1 h hs
    simp only [Group.map_loop, Except.ok.injEq] at h
    subst h
    exact hs
  | cons kv rest ih =>
    intro l l1 h hs
    obtain ⟨key, val⟩ := kv
    unfold Group.map_loop at h
    split at h
    · rename_i l2 h2
      exact ih l2 l1 h (map_entry_sorted key val l l2 h2 hs)
    · exact absurd h (by simp)

theorem decode_sorted (obj : MsgObject) (l : Group.Locals) (h : Group.decode obj = .ok l) :
    l.couple.Sorted (· ≤ ·) := by
  unfold Group.decode at h
  split at h
  · exact map_loop_sorted _ _ _ h (by simp [Group.Locals.init])
  · split at h
    · rename_i couple hp
      simp only [Except.ok.injEq] at h
      subst h
      exact parse_couple_sorted _ _ _ hp
    · exact absurd h (by simp)
  · simp only [Except.ok.injEq] at h
    subst h
    simp [Group.Locals.init]

theorem ids_text_foldl (ids : List Int) :
    ∀ acc : String, ids.foldl (fun text id => text ++ toString id ++ " ") acc
      = acc ++ ids_listing ids := by
  induction ids with
  | nil => intro acc; simp [ids_listing]
  | cons id rest ih =>
    intro acc
    rw [List.foldl_cons, ih, ids_listing]
    simp only [String.append_assoc]

theorem ids_text_eq (ids : List Int) : Group.ids_text ids = ids_listing ids := by
  unfold Group.ids_text
  rw [ids_text_foldl]
  simp

theorem parse_couple_loop_positive (ids : List Nat) :
    ∀ couple : List Int,
      parse_couple_loop (ids.map MsgObject.POSITIVE_INTEGER) couple
        = (true, couple ++ ids.map int_of_u64) := by
  induction ids with
  | nil => intro couple; simp [parse_couple_loop]
  | cons id rest ih =>
    intro couple
    simp only [List.map_cons, parse_couple_loop, ih]
    simp

theorem int_of_u64_small (u : Nat) (h : u < 2 ^ 31) : int_of_u64 u = (u : Int) := by
  unfold int_of_u64
  have h1 : u % 2 ^ 32 = u := Nat.mod_eq_of_lt (by omega)
  rw [h1, if_pos h]

theorem process_metadata_unbound (rt : Runtime) (st : Storage) (g : Group) (obj : MsgObject)
    (l : Group.Locals) (hclean : g.m_clean = false)
    (hunpack : rt.unpack g.m_metadata = .ok obj) (hdecode : Group.decode obj = .ok l)
    (hns : g.m_namespace = none) (hcouple : g.m_couple = none) :
    g.process_metadata rt st =
      (((st.get_namespace l.ns).create_couple l.couple
          { g with
            m_metadata_process_start := rt.clock
            m_metadata_process_time := rt.elapsed
            m_clean := true
            m_status_text := ""
            m_version := l.version
            m_frozen := l.frozen
            m_service := { migrating := l.service_migrating, job_id := l.service_job_id }
            m_namespace := some l.ns }).1,
        Group.derive_status
          ((st.get_namespace l.ns).create_couple l.couple
            { g with
              m_metadata_process_start := rt.clock
              m_metadata_process_time := rt.elapsed
              m_clean := true
              m_status_text := ""
              m_version := l.version
              m_frozen := l.frozen
              m_service := { migrating := l.service_migrating, job_id := l.service_job_id }
              m_namespace := some l.ns }).1
          ((st.get_namespace l.ns).create_couple l.couple
            { g with
              m_metadata_process_start := rt.clock
              m_metadata_process_time := rt.elapsed
              m_clean := true
              m_status_text := ""
              m_version := l.version
              m_frozen := l.frozen
              m_service := { migrating := l.service_migrating, job_id := l.service_job_id }
              m_namespace := some l.ns }).2) := by
  unfold Group.process_metadata
  simp only [hclean, hunpack, hdecode, Bool.false_eq_true, if_false, hns, Group.bind_couple,
    hcouple]

/-! ## Group::process_metadata: status, couple and namespace (C1-C5) -/

/-- C1: when the pending metadata decodes without error and passes the
namespace and couple checks, the status set by `Group::process_metadata` is
the one the rule table gives for the multiset of the backend statuses, the
`forbidden_dht_groups` flag and the decoded `service.migrating`. -/
theorem process_metadata_status_by_table (rt : Runtime) (st : Storage) (g : Group)
    (obj : MsgObject) (l : Group.Locals) (hclean : g.m_clean = false)
    (hunpack : rt.unpack g.m_metadata = .ok obj) (hdecode : Group.decode obj = .ok l)
    (hns : ∀ name, g.m_namespace = some name → name = l.ns)
    (hcouple : ∀ c, g.m_couple = some c → c.check l.couple = true) :
    (g.process_metadata rt st).2.m_status =
      status_table (↑(g.m_backends.map (fun b => b.status)) : Multiset Backend.Status)
        (decide (st.config.forbidden_dht_groups ≠ 0)) l.service_migrating := by
  obtain ⟨st1, g1, e, h1, h2, h3, _⟩ :=
    process_metadata_accepted rt st g obj l hclean hunpack hdecode hns hcouple
  rw [e]
  simp only
  rw [derive_status_status, h1, h2, h3]

/-- C1, at group 7 of scenario S3 with its read-only backend and the metadata
of scenario S3. -/
theorem process_metadata_status_by_table_witness :
    (group_S3.process_metadata (Runtime.yielding metadata_S3) (Storage.init Config.new)).2.m_status
      = status_table (↑[Backend.Status.RO] : Multiset Backend.Status) false true :=
  process_metadata_status_by_table (Runtime.yielding metadata_S3) (Storage.init Config.new)
    group_S3 metadata_S3
    { version := 2, couple := [7], ns := "ns", frozen := false, service_migrating := true,
      service_job_id := "job-42" }
    rfl rfl rfl (fun name h => by cases h) (fun c h => by cases h)

/-- C2: a group with two or more backends whose metadata is processed
successfully while `forbidden_dht_groups` is non-zero gets status BROKEN and a
status text that begins with "DHT groups are forbidden" and states the number
of backends. -/
theorem process_metadata_dht_forbidden (rt : Runtime) (st : Storage) (g : Group)
    (obj : MsgObject) (l : Group.Locals) (hclean : g.m_clean = false)
    (hunpack : rt.unpack g.m_metadata = .ok obj) (hdecode : Group.decode obj = .ok l)
    (hns : ∀ name, g.m_namespace = some name → name = l.ns)
    (hcouple : ∀ c, g.m_couple = some c → c.check l.couple = true)
    (hlen : 2 ≤ g.m_backends.length) (hdht : st.config.forbidden_dht_groups ≠ 0) :
    (g.process_metadata rt st).2.m_status = Group.Status.BROKEN ∧
    (g.process_metadata rt st).2.m_status_text =
      "DHT groups are forbidden" ++ (" but the group has " ++ toString g.m_backends.length
        ++ " backends") ∧
    "DHT groups are forbidden".toList <+: (g.process_metadata rt st).2.m_status_text.toList := by
  obtain ⟨st1, g1, e, h1, h2, _⟩ :=
    process_metadata_accepted rt st g obj l hclean hunpack hdecode hns hcouple
  obtain ⟨a, b⟩ := derive_status_dht st1 g1 (h2 ▸ hlen) (h1 ▸ hdht)
  have htext : (g.process_metadata rt st).2.m_status_text =
      "DHT groups are forbidden" ++ (" but the group has " ++ toString g.m_backends.length
        ++ " backends") := by
    rw [e]
    simp only
    rw [b, h2]
    have : "DHT groups are forbidden but the group has "
        = "DHT groups are forbidden" ++ " but the group has " := by decide
    rw [this]
    simp only [String.append_assoc]
  refine ⟨by rw [e]; exact a, htext, ?_⟩
  rw [htext]
  exact ⟨_, (String.data_append _ _).symm⟩

/-- C2, at scenario S2: group 7 with two backends, `forbidden_dht_groups = 1`
and the metadata of scenario S1. -/
theorem process_metadata_dht_forbidden_witness :
    (({ two_backend_group with m_clean := false } : Group).process_metadata
        (Runtime.yielding metadata_S1)
        (Storage.init { Config.new with forbidden_dht_groups := 1 })).2.m_status
      = Group.Status.BROKEN ∧
    (({ two_backend_group with m_clean := false } : Group).process_metadata
        (Runtime.yielding metadata_S1)
        (Storage.init { Config.new with forbidden_dht_groups := 1 })).2.m_status_text
      = "DHT groups are forbidden but the group has 2 backends" ∧
    "DHT groups are forbidden".toList <+:
      (({ two_backend_group with m_clean := false } : Group).process_metadata
        (Runtime.yielding metadata_S1)
        (Storage.init { Config.new with forbidden_dht_groups := 1 })).2.m_status_text.toList :=
  process_metadata_dht_forbidden (Runtime.yielding metadata_S1)
    (Storage.init { Config.new with forbidden_dht_groups := 1 })
    { two_backend_group with m_clean := false } metadata_S1
    { version := 2, couple := [7], ns := "ns", frozen := false, service_migrating := false,
      service_job_id := "" }
    rfl rfl rfl (fun name h => by cases h) (fun c h => by cases h) (by decide) (by decide)

/-- C3: when the DHT rule does not apply, no backend is BAD, some backend is
RO, and the metadata map (decoded without error, namespace and couple checks
passed) carries a 'service' map with status "MIGRATING" and job_id `j`, the
group gets status MIGRATING and the status text
"Group is migrating, job id is 'j'", which contains `j`. -/
theorem process_metadata_migrating (rt : Runtime) (st : Storage) (g : Group)
    (map srv : List (MsgObject × MsgObject)) (j : String) (l : Group.Locals)
    (hclean : g.m_clean = false)
    (hunpack : rt.unpack g.m_metadata = .ok (.MAP map))
    (hdecode : Group.decode (.MAP map) = .ok l)
    (hns : ∀ name, g.m_namespace = some name → name = l.ns)
    (hcouple : ∀ c, g.m_couple = some c → c.check l.couple = true)
    (hservice : (MsgObject.RAW "service", MsgObject.MAP srv) ∈ map)
    (hstatus : (MsgObject.RAW "status", MsgObject.RAW "MIGRATING") ∈ srv)
    (hjob : (MsgObject.RAW "job_id", MsgObject.RAW j) ∈ srv)
    (hjob_only : ∀ srv1 v, (MsgObject.RAW "service", MsgObject.MAP srv1) ∈ map →
      (MsgObject.RAW "job_id", v) ∈ srv1 → v = MsgObject.RAW j)
    (hdht : ¬ (g.m_backends.length > 1 ∧ st.config.forbidden_dht_groups ≠ 0))
    (hbad : ∀ b ∈ g.m_backends, b.status ≠ Backend.Status.BAD)
    (hro : ∃ b ∈ g.m_backends, b.status = Backend.Status.RO) :
    (g.process_metadata rt st).2.m_status = Group.Status.MIGRATING ∧
    (g.process_metadata rt st).2.m_status_text = "Group is migrating, job id is '" ++ j ++ "'" ∧
    j.toList <:+: (g.process_metadata rt st).2.m_status_text.toList := by
  have hmap : Group.map_loop map Group.Locals.init = .ok l := by
    simpa [Group.decode] using hdecode
  obtain ⟨hm, hj⟩ := map_loop_service j map Group.Locals.init l hmap hjob_only
  have hm' : l.service_migrating = true := hm (Or.inr ⟨srv, hservice, hstatus⟩)
  have hj' : l.service_job_id = j := hj (Or.inr ⟨srv, hservice, hjob⟩)
  obtain ⟨st1, g1, e, h1, h2, h3, _⟩ :=
    process_metadata_accepted rt st g (.MAP map) l hclean hunpack hdecode hns hcouple
  obtain ⟨a, b⟩ := derive_status_migrating st1 g1 (by rw [h1, h2]; exact hdht)
    (by rw [h2]; exact hbad) (by rw [h2]; exact hro) (by rw [h3]; exact hm')
  have htext : (g.process_metadata rt st).2.m_status_text =
      "Group is migrating, job id is '" ++ j ++ "'" := by
    rw [e]
    simp only
    rw [b, h3, hj']
  refine ⟨by rw [e]; exact a, htext, ?_⟩
  rw [htext]
  exact ⟨"Group is migrating, job id is '".toList, "'".toList, by
    simp [String.data_append]⟩

/-- C3, at scenario S3: a read-only backend and
`service:{status:"MIGRATING", job_id:"job-42"}`. -/
theorem process_metadata_migrating_witness :
    (group_S3.process_metadata (Runtime.yielding metadata_S3) (Storage.init Config.new)).2.m_status
      = Group.Status.MIGRATING ∧
    (group_S3.process_metadata (Runtime.yielding metadata_S3)
        (Storage.init Config.new)).2.m_status_text
      = "Group is migrating, job id is 'job-42'" ∧
    "job-42".toList <:+:
      (group_S3.process_metadata (Runtime.yielding metadata_S3)
        (Storage.init Config.new)).2.m_status_text.toList :=
  process_metadata_migrating (Runtime.yielding metadata_S3) (Storage.init Config.new) group_S3
    [(.RAW "version", .POSITIVE_INTEGER 2), (.RAW "couple", .ARRAY [.POSITIVE_INTEGER 7]),
      (.RAW "namespace", .RAW "ns"), (.RAW "frozen", .BOOLEAN false),
      (.RAW "service", .MAP [(.RAW "status", .RAW "MIGRATING"), (.RAW "job_id", .RAW "job-42")])]
    [(.RAW "status", .RAW "MIGRATING"), (.RAW "job_id", .RAW "job-42")] "job-42"
    { version := 2, couple := [7], ns := "ns", frozen := false, service_migrating := true,
      service_job_id := "job-42" }
    rfl rfl rfl (fun name h => by cases h) (fun c h => by cases h)
    (by simp) (by simp) (by simp)
    (by
      intro srv1 v h1 h2
      simp only [List.mem_cons, Prod.mk.injEq, MsgObject.RAW.injEq, List.mem_singleton,
        List.not_mem_nil, or_false, false_and, false_or, true_and, reduceCtorEq,
        String.reduceEq] at h1
      cases h1
      simp only [List.mem_cons, Prod.mk.injEq, MsgObject.RAW.injEq, List.mem_singleton,
        List.not_mem_nil, or_false, false_and, false_or, true_and, reduceCtorEq,
        String.reduceEq] at h2
      exact h2)
    (by decide) (by decide) (by decide)

/-- C4: for a group bound to a couple whose check rejects the (ascending) id
list decoded from the pending metadata, `Group::process_metadata` sets status
BAD and the status text "Couple in group metadata [ a1 a2 ... ] doesn't match
to existing one [ b1 b2 ... ]", each id followed by one space, and leaves the
couple binding of the group and the couples of the storage as they were. -/
theorem process_metadata_couple_mismatch (rt : Runtime) (st : Storage) (g : Group)
    (obj : MsgObject) (l : Group.Locals) (couple : Couple) (hclean : g.m_clean = false)
    (hunpack : rt.unpack g.m_metadata = .ok obj) (hdecode : Group.decode obj = .ok l)
    (hns : ∀ name, g.m_namespace = some name → name = l.ns)
    (hbound : g.m_couple = some couple) (hcheck : couple.check l.couple = false) :
    l.couple.Sorted (· ≤ ·) ∧
    (g.process_metadata rt st).2.m_status = Group.Status.BAD ∧
    (g.process_metadata rt st).2.m_status_text =
      "Couple in group metadata [ " ++ ids_listing l.couple
        ++ "] doesn't match to existing one [ " ++ ids_listing couple.get_group_ids ++ "]" ∧
    (g.process_metadata rt st).2.m_couple = some couple ∧
    (g.process_metadata rt st).1.m_couples = st.m_couples := by
  refine ⟨decode_sorted obj l hdecode, ?_⟩
  unfold Group.process_metadata
  simp only [hclean, hunpack, hdecode, Bool.false_eq_true, if_false]
  cases hn : g.m_namespace with
  | none =>
    simp only [Group.bind_couple, hbound, hcheck, Bool.not_false, if_true, ids_text_eq]
    exact ⟨trivial, trivial, trivial, (get_namespace_config st l.ns).2⟩
  | some name =>
    have := hns name hn
    subst this
    simp only [ne_eq, not_true_eq_false, if_false, Group.bind_couple, hbound, hcheck,
      Bool.not_false, if_true, ids_text_eq]
    exact ⟨trivial, trivial, trivial, trivial⟩

/-- C4, at scenario S4: group 3 bound to the couple 3:4 receives metadata with
couple [3, 5]. -/
theorem process_metadata_couple_mismatch_witness :
    ([3, 5] : List Int).Sorted (· ≤ ·) ∧
    (group_S4.process_metadata (Runtime.yielding metadata_S4) storage_S4).2.m_status
      = Group.Status.BAD ∧
    (group_S4.process_metadata (Runtime.yielding metadata_S4) storage_S4).2.m_status_text
      = "Couple in group metadata [ 3 5 ] doesn't match to existing one [ 3 4 ]" ∧
    (group_S4.process_metadata (Runtime.yielding metadata_S4) storage_S4).2.m_couple
      = some { m_key := "3:4", m_group_ids := [3, 4] } ∧
    (group_S4.process_metadata (Runtime.yielding metadata_S4) storage_S4).1.m_couples
      = [{ m_key := "3:4", m_group_ids := [3, 4] }] :=
  process_metadata_couple_mismatch (Runtime.yielding metadata_S4) storage_S4 group_S4 metadata_S4
    { version := 0, couple := [3, 5], ns := "ns", frozen := false, service_migrating := false,
      service_job_id := "" }
    { m_key := "3:4", m_group_ids := [3, 4] } rfl rfl rfl
    (fun name h => by cases h; rfl) rfl (by decide)

/-- C5: a `Group::process_metadata` that decodes the pending metadata binds a
group without namespace to the namespace named in the metadata (which the
storage then holds); on a group bound to a namespace of another name it sets
status BAD and the status text "Group moved to another namespace: 'old' ->
'new'", keeps the namespace binding, and leaves the couple binding and the
storage as they were, the decoded version, frozen flag and service record
being stored. -/
theorem process_metadata_namespace (rt : Runtime) (st : Storage) (g : Group)
    (obj : MsgObject) (l : Group.Locals) (hclean : g.m_clean = false)
    (hunpack : rt.unpack g.m_metadata = .ok obj) (hdecode : Group.decode obj = .ok l) :
    (g.m_namespace = none →
      (g.process_metadata rt st).2.m_namespace = some l.ns ∧
      ∃ n ∈ (g.process_metadata rt st).1.m_namespaces, n.m_name = l.ns) ∧
    (∀ old, g.m_namespace = some old → old ≠ l.ns →
      g.process_metadata rt st =
        (st, { g with
          m_metadata_process_start := rt.clock
          m_metadata_process_time := rt.elapsed
          m_clean := true
          m_version := l.version
          m_frozen := l.frozen
          m_service := { migrating := l.service_migrating, job_id := l.service_job_id }
          m_status := Group.Status.BAD
          m_status_text := "Group moved to another namespace: '" ++ old ++ "' -> '"
            ++ l.ns ++ "'" }) ∧
      (g.process_metadata rt st).2.m_namespace = some old ∧
      (g.process_metadata rt st).2.m_couple = g.m_couple ∧
      (g.process_metadata rt st).2.m_status = Group.Status.BAD) := by
  constructor
  · intro hn
    unfold Group.process_metadata
    simp only [hclean, hunpack, hdecode, Bool.false_eq_true, if_false, hn]
    have hmem : ∃ n ∈ (st.get_namespace l.ns).m_namespaces, n.m_name = l.ns := by
      unfold Storage.get_namespace
      split
      · rename_i h
        simpa using h
      · exact ⟨{ m_name := l.ns, m_couples := [] }, by simp, rfl⟩
    unfold Group.bind_couple
    cases hc : g.m_couple with
    | some c =>
      simp only
      split
      · exact ⟨rfl, hmem⟩
      · exact ⟨(derive_status_fields _ _).2.2.2.2.2.2.2.2.2.2, hmem⟩
    | none =>
      simp only
      obtain ⟨_, h2, _, _, h5, _⟩ := create_couple_fields (st.get_namespace l.ns) l.couple
        { g with
          m_metadata_process_start := rt.clock
          m_metadata_process_time := rt.elapsed
          m_clean := true
          m_status_text := ""
          m_version := l.version
          m_frozen := l.frozen
          m_service := { migrating := l.service_migrating, job_id := l.service_job_id }
          m_namespace := some l.ns
          m_couple := none }
      refine ⟨((derive_status_fields _ _).2.2.2.2.2.2.2.2.2.2).trans h5, ?_⟩
      rw [h2]
      exact hmem
  · intro old hn hne
    have e : g.process_metadata rt st =
        (st, { g with
          m_metadata_process_start := rt.clock
          m_metadata_process_time := rt.elapsed
          m_clean := true
          m_version := l.version
          m_frozen := l.frozen
          m_service := { migrating := l.service_migrating, job_id := l.service_job_id }
          m_status := Group.Status.BAD
          m_status_text := "Group moved to another namespace: '" ++ old ++ "' -> '"
            ++ l.ns ++ "'" }) := by
      unfold Group.process_metadata
      simp only [hclean, hunpack, hdecode, Bool.false_eq_true, if_false, hn, ne_eq, hne,
        not_false_eq_true, if_true]
    rw [e]
    exact ⟨rfl, hn, rfl, rfl⟩

/-- C5, at a new group 3 that receives the metadata of scenario S4, and at
group 3 of scenario S4 (bound to the namespace `ns`) that receives a bare
array, which names the namespace `default`. -/
theorem process_metadata_namespace_witness :
    ((({ Group.new 3 with m_clean := false } : Group).process_metadata
        (Runtime.yielding metadata_S4) (Storage.init Config.new)).2.m_namespace = some "ns" ∧
      ∃ n ∈ (({ Group.new 3 with m_clean := false } : Group).process_metadata
        (Runtime.yielding metadata_S4) (Storage.init Config.new)).1.m_namespaces,
        n.m_name = "ns") ∧
    (group_S4.process_metadata (Runtime.yielding (.ARRAY [])) storage_S4 =
        (storage_S4, { group_S4 with
          m_metadata_process_start := 1
          m_metadata_process_time := 0
          m_clean := true
          m_version := 1
          m_frozen := false
          m_service := { migrating := false, job_id := "" }
          m_status := Group.Status.BAD
          m_status_text := "Group moved to another namespace: 'ns' -> 'default'" }) ∧
      (group_S4.process_metadata (Runtime.yielding (.ARRAY [])) storage_S4).2.m_namespace
        = some "ns" ∧
      (group_S4.process_metadata (Runtime.yielding (.ARRAY [])) storage_S4).2.m_couple
        = group_S4.m_couple ∧
      (group_S4.process_metadata (Runtime.yielding (.ARRAY [])) storage_S4).2.m_status
        = Group.Status.BAD) :=
  ⟨(process_metadata_namespace (Runtime.yielding metadata_S4) (Storage.init Config.new)
      { Group.new 3 with m_clean := false } metadata_S4
      { version := 0, couple := [3, 5], ns := "ns", frozen := false, service_migrating := false,
        service_job_id := "" }
      rfl rfl rfl).1 rfl,
    (process_metadata_namespace (Runtime.yielding (.ARRAY [])) storage_S4 group_S4 (.ARRAY [])
      { version := 1, couple := [], ns := "default", frozen := false,
        service_migrating := false, service_job_id := "" }
      rfl rfl rfl).2 "ns" rfl (by decide)⟩

/-! ## Group::match (C6-C9) -/

/-- C6: with ascending id arrays and no active Node, Backend or FS constraint,
`Group::match` returns true exactly when the group, namespace and couple
criteria all hold; in scenario S5 the namespace filter selects 2 groups, the
group filter 1 and their combination 0. -/
theorem match_without_backend_constraints :
    (∀ (g : Group) (filter : Filter) (item_types : Nat),
      is_sorted int_less filter.groups →
      is_sorted string_less filter.namespaces →
      is_sorted string_less filter.couples →
      (item_types &&& Filter.Node = 0 ∨ filter.nodes = []) →
      (item_types &&& Filter.Backend = 0 ∨ filter.backends = []) →
      (item_types &&& Filter.FS = 0 ∨ filter.filesystems = []) →
      (g.match_ filter item_types = true ↔
        (item_types &&& Filter.Group = 0 ∨ filter.groups = [] ∨ g.m_id ∈ filter.groups) ∧
        (item_types &&& Filter.Namespace = 0 ∨ filter.namespaces = [] ∨
          ∃ name, g.m_namespace = some name ∧ name ∈ filter.namespaces) ∧
        (item_types &&& Filter.Couple = 0 ∨ filter.couples = [] ∨
          ∃ couple, g.m_couple = some couple ∧ couple.get_key ∈ filter.couples))) ∧
    (scenario_S5_groups.filter
      (fun g => g.match_ { Filter.none with namespaces := ["A"] } Filter.Namespace)).length = 2 ∧
    (scenario_S5_groups.filter
      (fun g => g.match_ { Filter.none with groups := [2] } Filter.Group)).length = 1 ∧
    (scenario_S5_groups.filter
      (fun g => g.match_ { Filter.none with namespaces := ["A"], groups := [3] }
        (Filter.Namespace ||| Filter.Group))).length = 0 := by
  refine ⟨?_, by decide, by decide, by decide⟩
  intro g filter item_types hg hn hc hN hB hF
  rw [match_iff g filter item_types hg hn hc]
  have h1 : filter.check_nodes item_types = false := check_inactive hN
  have h2 : filter.check_backends item_types = false := check_inactive hB
  have h3 : filter.check_fs item_types = false := check_inactive hF
  rw [h1, h2, h3]
  unfold Group.passes_criteria
  simp

/-- C6, at group 3 of scenario S5 and the filter of namespace A and group 3. -/
theorem match_without_backend_constraints_witness :
    ((scenario_S5_groups.getD 2 (Group.new 0)).match_
        { Filter.none with namespaces := ["A"], groups := [3] }
        (Filter.Namespace ||| Filter.Group) = true ↔
      ((Filter.Namespace ||| Filter.Group) &&& Filter.Group = 0 ∨ [(3 : Int)] = [] ∨
        (scenario_S5_groups.getD 2 (Group.new 0)).m_id ∈ [(3 : Int)]) ∧
      ((Filter.Namespace ||| Filter.Group) &&& Filter.Namespace = 0 ∨ ["A"] = [] ∨
        ∃ name, (scenario_S5_groups.getD 2 (Group.new 0)).m_namespace = some name
          ∧ name ∈ ["A"]) ∧
      ((Filter.Namespace ||| Filter.Group) &&& Filter.Couple = 0 ∨ ([] : List String) = [] ∨
        ∃ couple, (scenario_S5_groups.getD 2 (Group.new 0)).m_couple = some couple
          ∧ couple.get_key ∈ ([] : List String))) :=
  match_without_backend_constraints.1 (scenario_S5_groups.getD 2 (Group.new 0))
    { Filter.none with namespaces := ["A"], groups := [3] }
    (Filter.Namespace ||| Filter.Group)
    (by decide) (by decide) (by decide) (Or.inl (by decide)) (Or.inl (by decide))
    (Or.inl (by decide))

/-- C7 fails as stated: with the Backend and FS constraints active, the group
matches although none of its backends satisfies both. -/
theorem match_backend_fs_counterexample :
    ((Filter.Backend ||| Filter.FS) &&& Filter.Backend ≠ 0
      ∧ backend_and_fs_filter.backends ≠ []
      ∧ is_sorted string_less backend_and_fs_filter.backends) ∧
    ((Filter.Backend ||| Filter.FS) &&& Filter.FS ≠ 0
      ∧ backend_and_fs_filter.filesystems ≠ []
      ∧ is_sorted string_less backend_and_fs_filter.filesystems) ∧
    (Filter.Backend ||| Filter.FS) &&& Filter.Node = 0 ∧
    two_backend_group.passes_criteria backend_and_fs_filter (Filter.Backend ||| Filter.FS) ∧
    two_backend_group.match_ backend_and_fs_filter (Filter.Backend ||| Filter.FS) = true ∧
    ¬ ∃ backend ∈ two_backend_group.m_backends,
        backend.key ∈ backend_and_fs_filter.backends ∧
        ∃ fs_key, backend.fs_key = some fs_key ∧
          fs_key ∈ backend_and_fs_filter.filesystems := by
  refine ⟨by decide, by decide, by decide, ?_, by decide, by decide⟩
  exact ⟨Or.inl (by decide), Or.inl (by decide), Or.inl (by decide)⟩

/-- C7 amended: for a group that passes the group, namespace and couple
criteria, with the Backend and FS constraints active and the Node constraint
inactive, `Group::match` returns true exactly when some backend of the group
has its key in `filter.backends` and some backend, possibly another one, has a
filesystem whose key is in `filter.filesystems`. -/
theorem match_backend_and_fs (g : Group) (filter : Filter) (item_types : Nat)
    (hg : is_sorted int_less filter.groups)
    (hn : is_sorted string_less filter.namespaces)
    (hc : is_sorted string_less filter.couples)
    (hb : is_sorted string_less filter.backends)
    (hf : is_sorted string_less filter.filesystems)
    (hpass : g.passes_criteria filter item_types)
    (hN : item_types &&& Filter.Node = 0 ∨ filter.nodes = [])
    (hB : item_types &&& Filter.Backend ≠ 0 ∧ filter.backends ≠ [])
    (hF : item_types &&& Filter.FS ≠ 0 ∧ filter.filesystems ≠ []) :
    g.match_ filter item_types = true ↔
      (∃ backend ∈ g.m_backends, backend.key ∈ filter.backends) ∧
      (∃ backend ∈ g.m_backends, ∃ fs_key, backend.fs_key = some fs_key ∧
        fs_key ∈ filter.filesystems) := by
  rw [match_iff g filter item_types hg hn hc]
  have h1 : filter.check_nodes item_types = false := check_inactive hN
  have h2 : filter.check_backends item_types = true := check_active hB.1 hB.2
  have h3 : filter.check_fs item_types = true := check_active hF.1 hF.2
  rw [h1, h2, h3, match_loop_eq filter false true true g.m_backends false false false
    (by simp) (by simp) (by simp)]
  have eb : ∀ backend : Backend,
      Backend.backend_hit filter backend = true ↔ backend.key ∈ filter.backends :=
    fun backend => binary_search_iff string_less_strictTotal hb backend.key
  have ef : ∀ backend : Backend, Backend.fs_hit filter backend = true ↔
      ∃ fs_key, backend.fs_key = some fs_key ∧ fs_key ∈ filter.filesystems := by
    intro backend
    unfold Backend.fs_hit
    cases backend.fs_key with
    | none => simp
    | some k => simpa using binary_search_iff string_less_strictTotal hf k
  simp only [hpass, true_and, Bool.or_self, Bool.true_or, forall_const, Bool.not_false,
    Bool.not_true, Bool.false_or, Bool.and_true, Bool.and_eq_true, Bool.not_eq_true',
    List.isEmpty_eq_false, List.any_eq_true, eb, ef, Bool.true_and, Bool.or_true]
  constructor
  · rintro ⟨⟨_, h⟩, h'⟩
    exact ⟨h, h'⟩
  · rintro ⟨⟨b, hb1, hb2⟩, h'⟩
    exact ⟨⟨List.ne_nil_of_mem hb1, b, hb1, hb2⟩, h'⟩

/-- C7 amended, at the group with two backends and the filter that names the
first backend and the filesystem of the second. -/
theorem match_backend_and_fs_witness :
    two_backend_group.match_ backend_and_fs_filter (Filter.Backend ||| Filter.FS) = true ↔
      (∃ backend ∈ two_backend_group.m_backends,
        backend.key ∈ backend_and_fs_filter.backends) ∧
      (∃ backend ∈ two_backend_group.m_backends, ∃ fs_key,
        backend.fs_key = some fs_key ∧ fs_key ∈ backend_and_fs_filter.filesystems) :=
  match_backend_and_fs two_backend_group backend_and_fs_filter (Filter.Backend ||| Filter.FS)
    (by decide) (by decide) (by decide) (by decide) (by decide)
    ⟨Or.inl (by decide), Or.inl (by decide), Or.inl (by decide)⟩
    (Or.inl (by decide)) ⟨by decide, by decide⟩ ⟨by decide, by decide⟩

/-- C8 on the code: with only the Node constraint active, a group whose only
backend is on a node named by `filter.nodes` is not matched, and it is matched
when the filter names another node only. -/
theorem match_node_only_inverted :
    single_backend_group.match_ { Filter.none with nodes := ["h1:1025:2"] } Filter.Node = false ∧
    (∃ backend ∈ single_backend_group.m_backends, backend.node_key ∈ ["h1:1025:2"]) ∧
    single_backend_group.match_ { Filter.none with nodes := ["h2:1025:2"] } Filter.Node = true ∧
    (¬ ∃ backend ∈ single_backend_group.m_backends, backend.node_key ∈ ["h2:1025:2"]) := by
  decide

/-- C9 fails as stated: with the Group bit set and `filter.groups` empty, the
group is matched. -/
theorem match_empty_list_counterexample :
    Filter.Group &&& Filter.Group ≠ 0 ∧ Filter.none.groups = [] ∧
    (Group.new 1).match_ Filter.none Filter.Group = true := by
  decide

/-- C9 amended: a kind whose list is empty places no restriction, whether its
bit is set or not: `Group::match` gives the same result for two values of
`item_types` that agree on the bit of every kind whose list is not empty. -/
theorem match_ignores_bits_of_empty_lists (g : Group) (filter : Filter) (it1 it2 : Nat)
    (hg : filter.groups ≠ [] → (it1 &&& Filter.Group = 0 ↔ it2 &&& Filter.Group = 0))
    (hn : filter.namespaces ≠ [] →
      (it1 &&& Filter.Namespace = 0 ↔ it2 &&& Filter.Namespace = 0))
    (hc : filter.couples ≠ [] → (it1 &&& Filter.Couple = 0 ↔ it2 &&& Filter.Couple = 0))
    (hN : filter.nodes ≠ [] → (it1 &&& Filter.Node = 0 ↔ it2 &&& Filter.Node = 0))
    (hB : filter.backends ≠ [] → (it1 &&& Filter.Backend = 0 ↔ it2 &&& Filter.Backend = 0))
    (hF : filter.filesystems ≠ [] → (it1 &&& Filter.FS = 0 ↔ it2 &&& Filter.FS = 0)) :
    g.match_ filter it1 = g.match_ filter it2 := by
  have key : ∀ {α : Type} (xs : List α) (bit : Nat),
      (xs ≠ [] → (it1 &&& bit = 0 ↔ it2 &&& bit = 0)) →
      (it1 &&& bit != 0 && !xs.isEmpty) = (it2 &&& bit != 0 && !xs.isEmpty) := by
    intro α xs bit h
    cases xs with
    | nil => simp
    | cons x xs =>
      have := h (by simp)
      by_cases h1 : it1 &&& bit = 0
      · simp [h1, this.mp h1]
      · have h2 : it2 &&& bit ≠ 0 := fun h2 => h1 (this.mpr h2)
        have a1 : (it1 &&& bit != 0) = true := by simpa using h1
        have a2 : (it2 &&& bit != 0) = true := by simpa using h2
        rw [a1, a2]
  unfold Group.match_ Filter.check_nodes Filter.check_backends Filter.check_fs
  rw [key _ _ hg, key _ _ hn, key _ _ hc, key _ _ hN, key _ _ hB, key _ _ hF]

/-- C9 amended, at the empty filter and the values `Filter.Group` and 0. -/
theorem match_ignores_bits_of_empty_lists_witness :
    (Group.new 1).match_ Filter.none Filter.Group = (Group.new 1).match_ Filter.none 0 :=
  match_ignores_bits_of_empty_lists (Group.new 1) Filter.none Filter.Group 0
    (fun h => absurd rfl h) (fun h => absurd rfl h) (fun h => absurd rfl h)
    (fun h => absurd rfl h) (fun h => absurd rfl h) (fun h => absurd rfl h)

/-! ## Bare-array metadata (C10) -/

/-- C10 fails as stated: the id 2^32 + 5 of a bare array is taken as the
group id 5. -/
theorem process_metadata_bare_array_counterexample :
    Group.decode (.ARRAY [.POSITIVE_INTEGER 4294967301]) =
      .ok { version := 1, couple := [5], ns := "default", frozen := false,
            service_migrating := false, service_job_id := "" } ∧
    (({ Group.new 1 with m_clean := false } : Group).process_metadata
      (Runtime.yielding (.ARRAY [.POSITIVE_INTEGER 4294967301]))
      (Storage.init Config.new)).2.m_couple = some { m_key := "5", m_group_ids := [5] } ∧
    ([5] : List Int) ≠ [4294967301] := by
  refine ⟨rfl, rfl, by decide⟩

/-- C10 amended: a bare array of non-negative integers below 2^31, on a group
with pending metadata, no namespace and no couple, is decoded as version 1,
namespace "default", frozen false, service.migrating false, an empty job_id
and couple the ascending arrangement of the ids of the array; this couple is
the one passed to `Storage::create_couple`, and the group ends with version 1
in the namespace "default". -/
theorem process_metadata_bare_array (rt : Runtime) (st : Storage) (g : Group) (ids : List Nat)
    (hint : ∀ id ∈ ids, id < 2 ^ 31) (hclean : g.m_clean = false)
    (hns : g.m_namespace = none) (hcouple : g.m_couple = none)
    (hunpack : rt.unpack g.m_metadata = .ok (.ARRAY (ids.map MsgObject.POSITIVE_INTEGER))) :
    ∃ (couple : List Int) (st1 : Storage) (g1 : Group),
      couple.Sorted (· ≤ ·) ∧ couple.Perm (ids.map (fun id : Nat => (id : Int))) ∧
      Group.decode (.ARRAY (ids.map MsgObject.POSITIVE_INTEGER)) =
        .ok { version := 1, couple := couple, ns := "default", frozen := false,
              service_migrating := false, service_job_id := "" } ∧
      (st.get_namespace "default").create_couple couple
          { g with
            m_metadata_process_start := rt.clock
            m_metadata_process_time := rt.elapsed
            m_clean := true
            m_status_text := ""
            m_version := 1
            m_frozen := false
            m_service := { migrating := false, job_id := "" }
            m_namespace := some "default" } = (st1, g1) ∧
      g.process_metadata rt st = (st1, Group.derive_status st1 g1) ∧
      (g.process_metadata rt st).2.m_version = 1 ∧
      (g.process_metadata rt st).2.m_namespace = some "default" ∧
      (g.process_metadata rt st).2.m_frozen = false ∧
      (g.process_metadata rt st).2.m_service = { migrating := false, job_id := "" } := by
  have hmap : ids.map int_of_u64 = ids.map (fun id : Nat => (id : Int)) :=
    List.map_congr_left (fun id hid => int_of_u64_small id (hint id hid))
  have hdecode : Group.decode (.ARRAY (ids.map MsgObject.POSITIVE_INTEGER)) =
      .ok { version := 1, couple := (ids.map int_of_u64).insertionSort (· ≤ ·), ns := "default",
            frozen := false, service_migrating := false, service_job_id := "" } := by
    simp [Group.decode, parse_couple, parse_couple_loop_positive, Group.Locals.init]
  obtain ⟨_, _, _, h4, h5, h6, h7⟩ := create_couple_fields (st.get_namespace "default")
    ((ids.map int_of_u64).insertionSort (· ≤ ·))
    { g with
      m_metadata_process_start := rt.clock
      m_metadata_process_time := rt.elapsed
      m_clean := true
      m_status_text := ""
      m_version := 1
      m_frozen := false
      m_service := { migrating := false, job_id := "" }
      m_namespace := some "default" }
  have e := process_metadata_unbound rt st g _ _ hclean hunpack hdecode hns hcouple
  obtain ⟨_, _, _, _, _, _, _, d8, d9, d10, d11⟩ := derive_status_fields
    ((st.get_namespace "default").create_couple ((ids.map int_of_u64).insertionSort (· ≤ ·))
      { g with
        m_metadata_process_start := rt.clock
        m_metadata_process_time := rt.elapsed
        m_clean := true
        m_status_text := ""
        m_version := 1
        m_frozen := false
        m_service := { migrating := false, job_id := "" }
        m_namespace := some "default" }).1
    ((st.get_namespace "default").create_couple ((ids.map int_of_u64).insertionSort (· ≤ ·))
      { g with
        m_metadata_process_start := rt.clock
        m_metadata_process_time := rt.elapsed
        m_clean := true
        m_status_text := ""
        m_version := 1
        m_frozen := false
        m_service := { migrating := false, job_id := "" }
        m_namespace := some "default" }).2
  refine ⟨(ids.map int_of_u64).insertionSort (· ≤ ·), _, _, List.sorted_insertionSort _ _,
    hmap ▸ List.perm_insertionSort _ _, hdecode, rfl, e, ?_⟩
  rw [e]
  exact ⟨d9.trans h6, d11.trans h5, d8.trans h7, d10.trans h4⟩

/-- C10 amended, at the bare array [7, 3]. -/
theorem process_metadata_bare_array_witness :
    ∃ (couple : List Int) (st1 : Storage) (g1 : Group),
      couple.Sorted (· ≤ ·) ∧ couple.Perm [7, 3] ∧
      Group.decode (.ARRAY [.POSITIVE_INTEGER 7, .POSITIVE_INTEGER 3]) =
        .ok { version := 1, couple := couple, ns := "default", frozen := false,
              service_migrating := false, service_job_id := "" } ∧
      ((Storage.init Config.new).get_namespace "default").create_couple couple
          { Group.new 3 with
            m_metadata_process_start := 1
            m_metadata_process_time := 0
            m_clean := true
            m_status_text := ""
            m_version := 1
            m_frozen := false
            m_service := { migrating := false, job_id := "" }
            m_namespace := some "default" } = (st1, g1) ∧
      ({ Group.new 3 with m_clean := false } : Group).process_metadata
          (Runtime.yielding (.ARRAY [.POSITIVE_INTEGER 7, .POSITIVE_INTEGER 3]))
          (Storage.init Config.new) = (st1, Group.derive_status st1 g1) ∧
      (({ Group.new 3 with m_clean := false } : Group).process_metadata
          (Runtime.yielding (.ARRAY [.POSITIVE_INTEGER 7, .POSITIVE_INTEGER 3]))
          (Storage.init Config.new)).2.m_version = 1 ∧
      (({ Group.new 3 with m_clean := false } : Group).process_metadata
          (Runtime.yielding (.ARRAY [.POSITIVE_INTEGER 7, .POSITIVE_INTEGER 3]))
          (Storage.init Config.new)).2.m_namespace = some "default" ∧
      (({ Group.new 3 with m_clean := false } : Group).process_metadata
          (Runtime.yielding (.ARRAY [.POSITIVE_INTEGER 7, .POSITIVE_INTEGER 3]))
          (Storage.init Config.new)).2.m_frozen = false ∧
      (({ Group.new 3 with m_clean := false } : Group).process_metadata
          (Runtime.yielding (.ARRAY [.POSITIVE_INTEGER 7, .POSITIVE_INTEGER 3]))
          (Storage.init Config.new)).2.m_service = { migrating := false, job_id := "" } :=
  process_metadata_bare_array
    (Runtime.yielding (.ARRAY [.POSITIVE_INTEGER 7, .POSITIVE_INTEGER 3]))
    (Storage.init Config.new) { Group.new 3 with m_clean := false } [7, 3]
    (by decide) rfl rfl rfl rfl

/-! ## Lemmas: the entries of the metadata map -/

theorem key_is_iff (key : MsgObject) (name : String) :
    key.key_is name = true ↔ key = .RAW name := by
  unfold MsgObject.key_is
  split
  · simp [eq_comm]
  · rename_i h
    simp only [Bool.false_eq_true, false_iff]
    exact fun e => h name e

theorem lookup_cons_some (key val v : MsgObject) (rest : List (MsgObject × MsgObject))
    (name : String) (h : MsgObject.lookup rest name = some v) :
    MsgObject.lookup ((key, val) :: rest) name = some v := by
  simp [MsgObject.lookup, h, Option.orElse]

theorem lookup_cons_none (key val : MsgObject) (rest : List (MsgObject × MsgObject))
    (name : String) (h : MsgObject.lookup rest name = none) :
    MsgObject.lookup ((key, val) :: rest) name =
      if key.key_is name then some val else none := by
  simp [MsgObject.lookup, h, Option.orElse]

theorem lookup_eq_none_iff (name : String) :
    ∀ kvs : List (MsgObject × MsgObject),
      MsgObject.lookup kvs name = none ↔ ∀ v, (MsgObject.RAW name, v) ∉ kvs := by
  intro kvs
  induction kvs with
  | nil => simp [MsgObject.lookup]
  | cons kv rest ih =>
    obtain ⟨key, val⟩ := kv
    cases hr : MsgObject.lookup rest name with
    | some v =>
      rw [lookup_cons_some key val v rest name hr]
      simp only [false_iff, reduceCtorEq]
      intro h
      have : MsgObject.lookup rest name = none :=
        ih.mpr (fun w hw => h w (List.mem_cons_of_mem _ hw))
      rw [hr] at this
      cases this
    | none =>
      have hrest := ih.mp hr
      rw [lookup_cons_none key val rest name hr]
      by_cases hk : key.key_is name = true
      · rw [if_pos hk]
        simp only [false_iff, reduceCtorEq]
        intro h
        have e := (key_is_iff key name).mp hk
        exact h val (by rw [e]; exact List.mem_cons_self _ _)
      · rw [if_neg hk]
        simp only [true_iff]
        intro v hv
        rcases List.mem_cons.mp hv with e | hv
        · simp only [Prod.mk.injEq] at e
          exact hk ((key_is_iff key name).mpr e.1.symm)
        · exact hrest v hv

theorem service_entry_cases (key val : MsgObject) (l l1 : Group.Locals)
    (h : Group.service_entry key val l = .ok l1) :
    (key = .RAW "status" ∧ val = .RAW "MIGRATING" ∧ l1 = { l with service_migrating := true }) ∨
    (key = .RAW "status" ∧ val ≠ .RAW "MIGRATING" ∧ l1 = l) ∨
    (key = .RAW "job_id" ∧ ∃ s, val = .RAW s ∧ l1 = { l with service_job_id := s }) ∨
    (key ≠ .RAW "status" ∧ key ≠ .RAW "job_id" ∧ l1 = l) := by
  unfold Group.service_entry at h
  split at h
  · rename_i k
    split at h
    · rename_i hk
      subst hk
      split at h
      · rename_i st
        split at h
        · rename_i hst
          subst hst
          simp only [Except.ok.injEq] at h
          exact Or.inl ⟨rfl, rfl, h.symm⟩
        · rename_i hst
          simp only [Except.ok.injEq] at h
          exact Or.inr (Or.inl ⟨rfl, by simpa using hst, h.symm⟩)
      · rename_i hval
        simp only [Except.ok.injEq] at h
        exact Or.inr (Or.inl ⟨rfl, fun e => hval _ e, h.symm⟩)
    · rename_i hk
      split at h
      · rename_i hk2
        subst hk2
        split at h
        · rename_i s
          simp only [Except.ok.injEq] at h
          exact Or.inr (Or.inr (Or.inl ⟨rfl, s, rfl, h.symm⟩))
        · exact absurd h (by simp)
      · rename_i hk2
        simp only [Except.ok.injEq] at h
        exact Or.inr (Or.inr (Or.inr ⟨by simpa using hk, by simpa using hk2, h.symm⟩))
  · rename_i hkey
    simp only [Except.ok.injEq] at h
    exact Or.inr (Or.inr (Or.inr ⟨fun e => hkey _ e, fun e => hkey _ e, h.symm⟩))

theorem map_entry_cases (key val : MsgObject) (l l1 : Group.Locals)
    (h : Group.map_entry key val l = .ok l1) :
    (key = .RAW "version" ∧ ∃ u, val = .POSITIVE_INTEGER u ∧
      l1 = { l with version := int_of_u64 u }) ∨
    (key = .RAW "couple" ∧ ∃ c, parse_couple val l.couple = (true, c) ∧
      l1 = { l with couple := c }) ∨
    (key = .RAW "namespace" ∧ ∃ s, val = .RAW s ∧ l1 = { l with ns := s }) ∨
    (key = .RAW "frozen" ∧ ∃ b, val = .BOOLEAN b ∧ l1 = { l with frozen := b }) ∨
    (key = .RAW "service" ∧ ∃ srv, val = .MAP srv ∧ Group.service_loop srv l = .ok l1) ∨
    (Group.map_key_known key = false ∧ l1 = l) := by
  unfold Group.map_entry at h
  split at h
  · rename_i k
    split at h
    · rename_i hk
      subst hk
      split at h
      · simp only [Except.ok.injEq] at h
        exact Or.inl ⟨rfl, _, rfl, h.symm⟩
      · exact absurd h (by simp)
    · rename_i hk1
      split at h
      · rename_i hk
        subst hk
        split at h
        · rename_i c hp
          simp only [Except.ok.injEq] at h
          exact Or.inr (Or.inl ⟨rfl, c, hp, h.symm⟩)
        · exact absurd h (by simp)
      · rename_i hk2
        split at h
        · rename_i hk
          subst hk
          split at h
          · simp only [Except.ok.injEq] at h
            exact Or.inr (Or.inr (Or.inl ⟨rfl, _, rfl, h.symm⟩))
          · exact absurd h (by simp)
        · rename_i hk3
          split at h
          · rename_i hk
            subst hk
            split at h
            · simp only [Except.ok.injEq] at h
              exact Or.inr (Or.inr (Or.inr (Or.inl ⟨rfl, _, rfl, h.symm⟩)))
            · exact absurd h (by simp)
          · rename_i hk4
            split at h
            · rename_i hk
              subst hk
              split at h
              · exact Or.inr (Or.inr (Or.inr (Or.inr (Or.inl ⟨rfl, _, rfl, h⟩))))
              · exact absurd h (by simp)
            · rename_i hk5
              simp only [Except.ok.injEq] at h
              refine Or.inr (Or.inr (Or.inr (Or.inr (Or.inr ⟨?_, h.symm⟩))))
              simp [Group.map_key_known, hk1, hk2, hk3, hk4, hk5]
  · rename_i hkey
    simp only [Except.ok.injEq] at h
    refine Or.inr (Or.inr (Or.inr (Or.inr (Or.inr ⟨?_, h.symm⟩))))
    unfold Group.map_key_known
    split
    · rename_i k
      exact absurd rfl (hkey k)
    · rfl

theorem service_loop_result :
    ∀ (srv : List (MsgObject × MsgObject)) (l l1 : Group.Locals),
      Group.service_loop srv l = .ok l1 →
      (l1.service_migrating = true ↔
        l.service_migrating = true ∨
          (MsgObject.RAW "status", MsgObject.RAW "MIGRATING") ∈ srv) ∧
      (MsgObject.lookup srv "job_id" = none → l1.service_job_id = l.service_job_id) ∧
      (∀ s, MsgObject.lookup srv "job_id" = some (.RAW s) → l1.service_job_id = s) := by
  intro srv
  induction srv with
  | nil =>
    intro l l1 h
    simp only [Group.service_loop, Except.ok.injEq] at h
    subst h
    simp [MsgObject.lookup]
  | cons kv rest ih =>
    intro l l1 h
    obtain ⟨key, val⟩ := kv
    unfold Group.service_loop at h
    split at h
    · rename_i l2 h2
      obtain ⟨im, inone, isome⟩ := ih l2 l1 h
      have hm : (l2.service_migrating = true ∨
            (MsgObject.RAW "status", MsgObject.RAW "MIGRATING") ∈ rest) ↔
          (l.service_migrating = true ∨
            (MsgObject.RAW "status", MsgObject.RAW "MIGRATING") ∈ (key, val) :: rest) := by
        simp only [List.mem_cons, Prod.mk.injEq]
        rcases service_entry_cases key val l l2 h2 with
          ⟨hk, hv, hl⟩ | ⟨hk, hv, hl⟩ | ⟨hk, s, hv, hl⟩ | ⟨hk, _, hl⟩
        · subst hk hv hl; simp
        · subst hk hl
          constructor
          · rintro (h | h)
            · exact Or.inl h
            · exact Or.inr (Or.inr h)
          · rintro (h | ⟨_, h⟩ | h)
            · exact Or.inl h
            · exact absurd h.symm hv
            · exact Or.inr h
        · subst hk hv hl; simp
        · subst hl
          constructor
          · rintro (h | h)
            · exact Or.inl h
            · exact Or.inr (Or.inr h)
          · rintro (h | ⟨h, _⟩ | h)
            · exact Or.inl h
            · exact absurd h.symm hk
            · exact Or.inr h
      have hj : (MsgObject.lookup ((key, val) :: rest) "job_id" = none →
            l1.service_job_id = l.service_job_id) ∧
          (∀ s, MsgObject.lookup ((key, val) :: rest) "job_id" = some (.RAW s) →
            l1.service_job_id = s) := by
        cases hr : MsgObject.lookup rest "job_id" with
        | some v =>
          rw [lookup_cons_some key val v rest "job_id" hr]
          refine ⟨fun e => (by cases e), fun s e => ?_⟩
          exact isome s (by rw [hr, e])
        | none =>
          rw [lookup_cons_none key val rest "job_id" hr]
          have hrest := inone hr
          rcases service_entry_cases key val l l2 h2 with
            ⟨hk, hv, hl⟩ | ⟨hk, hv, hl⟩ | ⟨hk, s, hv, hl⟩ | ⟨_, hk, hl⟩
          · subst hk hv hl
            simp only [MsgObject.key_is, String.reduceEq, decide_False, Bool.false_eq_true,
              if_false, reduceCtorEq, false_implies, implies_true, and_true, true_implies]
            exact hrest
          · subst hk hl
            simp only [MsgObject.key_is, String.reduceEq, decide_False, Bool.false_eq_true,
              if_false, reduceCtorEq, false_implies, implies_true, and_true, true_implies]
            exact hrest
          · subst hk hv hl
            simp only [MsgObject.key_is, decide_True, if_true, reduceCtorEq, false_implies,
              Option.some.injEq, MsgObject.RAW.injEq, true_and]
            intro s2 e
            rw [hrest, ← e]
          · subst hl
            have hki : key.key_is "job_id" = false := by
              rw [Bool.eq_false_iff]
              exact fun e => hk ((key_is_iff key "job_id").mp e)
            simp only [hki, Bool.false_eq_true, if_false, reduceCtorEq, false_implies,
              implies_true, and_true, true_implies]
            exact hrest
      exact ⟨im.trans hm, hj⟩
    · exact absurd h (by simp)

/-- A field of the locals that the loop over the metadata map sets from the
entries of one key holds, after the loop, the value of the last such entry. -/
theorem map_loop_last {α : Type} (name : String) (f : Group.Locals → α)
    (dec : MsgObject → Option α)
    (hentry : ∀ key val l l2, Group.map_entry key val l = .ok l2 →
      (key = .RAW name ∧ dec val = some (f l2)) ∨ (key ≠ .RAW name ∧ f l2 = f l)) :
    ∀ (kvs : List (MsgObject × MsgObject)) (l l1 : Group.Locals),
      Group.map_loop kvs l = .ok l1 →
      (MsgObject.lookup kvs name = none → f l1 = f l) ∧
      (∀ v, MsgObject.lookup kvs name = some v → dec v = some (f l1)) := by
  intro kvs
  induction kvs with
  | nil =>
    intro l l1 h
    simp only [Group.map_loop, Except.ok.injEq] at h
    subst h
    simp [MsgObject.lookup]
  | cons kv rest ih =>
    intro l l1 h
    obtain ⟨key, val⟩ := kv
    unfold Group.map_loop at h
    split at h
    · rename_i l2 h2
      obtain ⟨inone, isome⟩ := ih l2 l1 h
      cases hr : MsgObject.lookup rest name with
      | some v =>
        rw [lookup_cons_some key val v rest name hr]
        refine ⟨fun e => (by cases e), fun w e => ?_⟩
        simp only [Option.some.injEq] at e
        subst e
        exact isome v hr
      | none =>
        rw [lookup_cons_none key val rest name hr]
        have hrest := inone hr
        rcases hentry key val l l2 h2 with ⟨hk, hd⟩ | ⟨hk, hf⟩
        · rw [if_pos ((key_is_iff key name).mpr hk)]
          refine ⟨fun e => (by cases e), fun w e => ?_⟩
          simp only [Option.some.injEq] at e
          subst e
          rw [hrest]
          exact hd
        · rw [if_neg (fun e => hk ((key_is_iff key name).mp e))]
          exact ⟨fun _ => hrest.trans hf, fun w e => by cases e⟩
    · exact absurd h (by simp)

theorem map_key_known_raw (k : String) (h : Group.map_key_known (.RAW k) = false) :
    k ≠ "version" ∧ k ≠ "couple" ∧ k ≠ "namespace" ∧ k ≠ "frozen" ∧ k ≠ "service" := by
  simpa [Group.map_key_known, and_assoc] using h

theorem map_entry_service_result (key val : MsgObject) (l l2 : Group.Locals)
    (h : Group.map_entry key val l = .ok l2) :
    (∃ srv, key = .RAW "service" ∧ val = .MAP srv ∧ Group.service_loop srv l = .ok l2) ∨
    (key ≠ .RAW "service" ∧ l2.service_migrating = l.service_migrating ∧
      l2.service_job_id = l.service_job_id) := by
  rcases map_entry_cases key val l l2 h with
    ⟨hk, u, _, hl⟩ | ⟨hk, c, _, hl⟩ | ⟨hk, s, _, hl⟩ | ⟨hk, b, _, hl⟩ | ⟨hk, srv, hv, hl⟩ |
    ⟨hk, hl⟩
  · subst hk hl; exact Or.inr ⟨by simp, rfl, rfl⟩
  · subst hk hl; exact Or.inr ⟨by simp, rfl, rfl⟩
  · subst hk hl; exact Or.inr ⟨by simp, rfl, rfl⟩
  · subst hk hl; exact Or.inr ⟨by simp, rfl, rfl⟩
  · exact Or.inl ⟨srv, hk, hv, hl⟩
  · subst hl
    refine Or.inr ⟨fun e => ?_, rfl, rfl⟩
    subst e
    exact (map_key_known_raw _ hk).2.2.2.2 rfl

theorem map_loop_service_result :
    ∀ (kvs : List (MsgObject × MsgObject)) (l l1 : Group.Locals),
      Group.map_loop kvs l = .ok l1 →
      (l1.service_migrating = true ↔
        l.service_migrating = true ∨
          ∃ srv, (MsgObject.RAW "service", MsgObject.MAP srv) ∈ kvs ∧
            (MsgObject.RAW "status", MsgObject.RAW "MIGRATING") ∈ srv) ∧
      ((∀ srv v, (MsgObject.RAW "service", MsgObject.MAP srv) ∈ kvs →
          (MsgObject.RAW "job_id", v) ∉ srv) →
        l1.service_job_id = l.service_job_id) ∧
      (∀ srv s, MsgObject.lookup kvs "service" = some (.MAP srv) →
        MsgObject.lookup srv "job_id" = some (.RAW s) → l1.service_job_id = s) := by
  intro kvs
  induction kvs with
  | nil =>
    intro l l1 h
    simp only [Group.map_loop, Except.ok.injEq] at h
    subst h
    simp [MsgObject.lookup]
  | cons kv rest ih =>
    intro l l1 h
    obtain ⟨key, val⟩ := kv
    unfold Group.map_loop at h
    split at h
    · rename_i l2 h2
      obtain ⟨im, iabs, ilast⟩ := ih l2 l1 h
      rcases map_entry_service_result key val l l2 h2 with
        ⟨srv0, hk, hv, hs⟩ | ⟨hk, hm, hj⟩
      · subst hk hv
        obtain ⟨sm, snone, ssome⟩ := service_loop_result srv0 l l2 hs
        refine ⟨?_, ?_, ?_⟩
        · rw [im, sm]
          constructor
          · rintro ((h | h) | ⟨srv, h1, h2⟩)
            · exact Or.inl h
            · exact Or.inr ⟨srv0, List.mem_cons_self _ _, h⟩
            · exact Or.inr ⟨srv, List.mem_cons_of_mem _ h1, h2⟩
          · rintro (h | ⟨srv, hs1, hs2⟩)
            · exact Or.inl (Or.inl h)
            · rcases List.mem_cons.mp hs1 with e | hs1
              · simp only [Prod.mk.injEq, MsgObject.MAP.injEq, true_and] at e
                rw [e] at hs2
                exact Or.inl (Or.inr hs2)
              · exact Or.inr ⟨srv, hs1, hs2⟩
        · intro habs
          have h0 : MsgObject.lookup srv0 "job_id" = none :=
            (lookup_eq_none_iff "job_id" srv0).mpr
              (fun v => habs srv0 v (List.mem_cons_self _ _))
          rw [iabs (fun srv v hs => habs srv v (List.mem_cons_of_mem _ hs)), snone h0]
        · intro srv s hl hsj
          cases hr : MsgObject.lookup rest "service" with
          | some v =>
            rw [lookup_cons_some _ _ v rest "service" hr] at hl
            exact ilast srv s (hr.trans hl) hsj
          | none =>
            rw [lookup_cons_none _ _ rest "service" hr] at hl
            simp only [MsgObject.key_is, decide_True, if_true, Option.some.injEq,
              MsgObject.MAP.injEq] at hl
            subst hl
            have hnone := (lookup_eq_none_iff "service" rest).mp hr
            rw [iabs (fun srv v hs => absurd hs (hnone _)), ssome s hsj]
      · have hne : ∀ srv, (MsgObject.RAW "service", MsgObject.MAP srv) ≠ (key, val) :=
          fun srv e => hk (by simp only [Prod.mk.injEq] at e; exact e.1.symm)
        refine ⟨?_, ?_, ?_⟩
        · rw [im, hm]
          constructor
          · rintro (h | ⟨srv, h1, h2⟩)
            · exact Or.inl h
            · exact Or.inr ⟨srv, List.mem_cons_of_mem _ h1, h2⟩
          · rintro (h | ⟨srv, h1, h2⟩)
            · exact Or.inl h
            · exact Or.inr ⟨srv, List.mem_of_ne_of_mem (hne srv) h1, h2⟩
        · intro habs
          rw [iabs (fun srv v hs => habs srv v (List.mem_cons_of_mem _ hs)), hj]
        · intro srv s hl hsj
          cases hr : MsgObject.lookup rest "service" with
          | some v =>
            rw [lookup_cons_some _ _ v rest "service" hr] at hl
            exact ilast srv s (hr.trans hl) hsj
          | none =>
            rw [lookup_cons_none _ _ rest "service" hr,
              if_neg (fun e => hk ((key_is_iff key "service").mp e))] at hl
            cases hl
    · exact absurd h (by simp)

theorem map_loop_version (kvs : List (MsgObject × MsgObject)) (l l1 : Group.Locals)
    (h : Group.map_loop kvs l = .ok l1) :
    (MsgObject.lookup kvs "version" = none → l1.version = l.version) ∧
    (∀ u, MsgObject.lookup kvs "version" = some (.POSITIVE_INTEGER u) →
      l1.version = int_of_u64 u) := by
  obtain ⟨a, b⟩ := map_loop_last "version" (fun l => l.version)
    (fun v => match v with
      | .POSITIVE_INTEGER u => some (int_of_u64 u)
      | _ => none)
    (by
      intro key val l l2 h2
      rcases map_entry_cases key val l l2 h2 with
        ⟨hk, u, hv, hl⟩ | ⟨hk, c, _, hl⟩ | ⟨hk, s, _, hl⟩ | ⟨hk, b, _, hl⟩ |
        ⟨hk, srv, _, hl⟩ | ⟨hk, hl⟩
      · subst hk hv hl; exact Or.inl ⟨rfl, rfl⟩
      · subst hk hl; exact Or.inr ⟨by simp, rfl⟩
      · subst hk hl; exact Or.inr ⟨by simp, rfl⟩
      · subst hk hl; exact Or.inr ⟨by simp, rfl⟩
      · subst hk; exact Or.inr ⟨by simp, (service_loop_fields _ _ _ hl).1⟩
      · subst hl
        refine Or.inr ⟨fun e => ?_, rfl⟩
        subst e
        exact (map_key_known_raw _ hk).1 rfl)
    kvs l l1 h
  refine ⟨a, fun u hu => ?_⟩
  have := b _ hu
  simp only [Option.some.injEq] at this
  exact this.symm

theorem map_loop_frozen (kvs : List (MsgObject × MsgObject)) (l l1 : Group.Locals)
    (h : Group.map_loop kvs l = .ok l1) :
    (MsgObject.lookup kvs "frozen" = none → l1.frozen = l.frozen) ∧
    (∀ b, MsgObject.lookup kvs "frozen" = some (.BOOLEAN b) → l1.frozen = b) := by
  obtain ⟨a, b⟩ := map_loop_last "frozen" (fun l => l.frozen)
    (fun v => match v with
      | .BOOLEAN b => some b
      | _ => none)
    (by
      intro key val l l2 h2
      rcases map_entry_cases key val l l2 h2 with
        ⟨hk, u, hv, hl⟩ | ⟨hk, c, _, hl⟩ | ⟨hk, s, _, hl⟩ | ⟨hk, b, hv, hl⟩ |
        ⟨hk, srv, _, hl⟩ | ⟨hk, hl⟩
      · subst hk hl; exact Or.inr ⟨by simp, rfl⟩
      · subst hk hl; exact Or.inr ⟨by simp, rfl⟩
      · subst hk hl; exact Or.inr ⟨by simp, rfl⟩
      · subst hk hv hl; exact Or.inl ⟨rfl, rfl⟩
      · subst hk; exact Or.inr ⟨by simp, (service_loop_fields _ _ _ hl).2.2.2⟩
      · subst hl
        refine Or.inr ⟨fun e => ?_, rfl⟩
        subst e
        exact (map_key_known_raw _ hk).2.2.2.1 rfl)
    kvs l l1 h
  refine ⟨a, fun u hu => ?_⟩
  have := b _ hu
  simp only [Option.some.injEq] at this
  exact this.symm

theorem map_entry_unknown (key val : MsgObject) (l : Group.Locals)
    (h : Group.map_key_known key = false) : Group.map_entry key val l = .ok l := by
  unfold Group.map_entry
  split
  · rename_i k
    obtain ⟨h1, h2, h3, h4, h5⟩ := map_key_known_raw k h
    simp [h1, h2, h3, h4, h5]
  · rfl

theorem service_entry_unknown (key val : MsgObject) (l : Group.Locals)
    (h : Group.service_key_known key = false) : Group.service_entry key val l = .ok l := by
  unfold Group.service_entry
  split
  · rename_i k
    have : k ≠ "status" ∧ k ≠ "job_id" := by simpa [Group.service_key_known] using h
    simp [this.1, this.2]
  · rfl

theorem map_loop_filter_known :
    ∀ (kvs : List (MsgObject × MsgObject)) (l : Group.Locals),
      Group.map_loop (kvs.filter (fun kv => Group.map_key_known kv.1)) l
        = Group.map_loop kvs l := by
  intro kvs
  induction kvs with
  | nil => intro l; rfl
  | cons kv rest ih =>
    intro l
    obtain ⟨key, val⟩ := kv
    by_cases hk : Group.map_key_known key = true
    · rw [List.filter_cons_of_pos (by simpa using hk)]
      simp only [Group.map_loop]
      cases Group.map_entry key val l with
      | ok l2 => exact ih l2
      | error t => rfl
    · have hk' : Group.map_key_known key = false := by simpa using hk
      rw [List.filter_cons_of_neg (by simpa using hk)]
      simp only [Group.map_loop, map_entry_unknown key val l hk']
      exact ih l

theorem service_loop_filter_known :
    ∀ (srv : List (MsgObject × MsgObject)) (l : Group.Locals),
      Group.service_loop (srv.filter (fun kv => Group.service_key_known kv.1)) l
        = Group.service_loop srv l := by
  intro srv
  induction srv with
  | nil => intro l; rfl
  | cons kv rest ih =>
    intro l
    obtain ⟨key, val⟩ := kv
    by_cases hk : Group.service_key_known key = true
    · rw [List.filter_cons_of_pos (by simpa using hk)]
      simp only [Group.service_loop]
      cases Group.service_entry key val l with
      | ok l2 => exact ih l2
      | error t => rfl
    · have hk' : Group.service_key_known key = false := by simpa using hk
      rw [List.filter_cons_of_neg (by simpa using hk)]
      simp only [Group.service_loop, service_entry_unknown key val l hk']
      exact ih l

/-- The fields that `Group::process_metadata` stores from the decoded locals
hold them on every path after the decoding. -/
theorem process_metadata_decoded_fields (rt : Runtime) (st : Storage) (g : Group)
    (obj : MsgObject) (l : Group.Locals) (hclean : g.m_clean = false)
    (hunpack : rt.unpack g.m_metadata = .ok obj) (hdecode : Group.decode obj = .ok l) :
    (g.process_metadata rt st).2.m_version = l.version ∧
    (g.process_metadata rt st).2.m_frozen = l.frozen ∧
    (g.process_metadata rt st).2.m_service =
      { migrating := l.service_migrating, job_id := l.service_job_id } := by
  have hb : ∀ (st0 : Storage) (g0 : Group) (couple : List Int),
      (Group.bind_couple st0 g0 couple).2.m_version = g0.m_version ∧
      (Group.bind_couple st0 g0 couple).2.m_frozen = g0.m_frozen ∧
      (Group.bind_couple st0 g0 couple).2.m_service = g0.m_service := by
    intro st0 g0 couple
    unfold Group.bind_couple
    cases hc : g0.m_couple with
    | some c =>
      simp only
      split
      · exact ⟨rfl, rfl, rfl⟩
      · obtain ⟨_, _, _, _, _, _, _, d8, d9, d10, _⟩ := derive_status_fields st0 g0
        exact ⟨d9, d8, d10⟩
    | none =>
      simp only
      obtain ⟨_, _, _, h4, _, h6, h7⟩ := create_couple_fields st0 couple g0
      obtain ⟨_, _, _, _, _, _, _, d8, d9, d10, _⟩ := derive_status_fields
        (st0.create_couple couple g0).1 (st0.create_couple couple g0).2
      exact ⟨d9.trans h6, d8.trans h7, d10.trans h4⟩
  unfold Group.process_metadata
  simp only [hclean, hunpack, hdecode, Bool.false_eq_true, if_false]
  cases hn : g.m_namespace with
  | none => exact hb _ _ _
  | some name =>
    simp only
    split
    · exact ⟨rfl, rfl, rfl⟩
    · exact hb _ _ _

/-! ## Lemmas: Group::merge -/

theorem create_couple_frame (st : Storage) (ids : List Int) (g : Group) :
    ∃ c, (st.create_couple ids g).2 = { g with m_couple := some c } := by
  unfold Storage.create_couple
  split
  · exact ⟨_, rfl⟩
  · exact ⟨_, rfl⟩

theorem merge_couple_frame (st : Storage) (g other : Group) :
    ∃ c, (Group.merge_couple st g other).2 = { g with m_couple := c } ∧
      (∀ couple, g.m_couple = some couple → c = some couple) ∧
      (other.m_couple = none → c = g.m_couple) ∧
      (g.m_couple = none → ∀ oc, other.m_couple = some oc → ∃ couple, c = some couple) := by
  unfold Group.merge_couple
  cases ho : other.m_couple with
  | none => exact ⟨g.m_couple, rfl, fun _ h => h, fun _ => rfl, fun _ _ h => (by cases h)⟩
  | some oc =>
    cases hg : g.m_couple with
    | some c =>
      refine ⟨some c, ?_, fun _ h => h, fun h => (by cases h), fun h => (by cases h)⟩
      simp only
      rw [← hg]
    | none =>
      simp only
      cases hs : st.get_couple oc.get_key with
      | some couple =>
        exact ⟨some couple, rfl, fun _ h => (by cases h), fun h => (by cases h),
          fun _ _ _ => ⟨couple, rfl⟩⟩
      | none =>
        simp only
        obtain ⟨c, hc⟩ := create_couple_frame st oc.get_group_ids g
        exact ⟨some c, hc, fun _ h => (by cases h), fun h => (by cases h), fun _ _ _ => ⟨c, rfl⟩⟩

theorem merge_namespace_frame (st : Storage) (g other : Group) :
    ∃ n, (Group.merge_namespace st g other).2 = { g with m_namespace := n } ∧
      (∀ name, g.m_namespace = some name → n = some name) ∧
      (g.m_namespace = none → n = other.m_namespace) := by
  unfold Group.merge_namespace
  cases ho : other.m_namespace with
  | none => exact ⟨g.m_namespace, rfl, fun _ h => h, fun h => h⟩
  | some oname =>
    cases hg : g.m_namespace with
    | some name =>
      refine ⟨some name, ?_, fun _ h => h, fun h => (by cases h)⟩
      simp only
      rw [← hg]
    | none => exact ⟨some oname, rfl, fun _ h => (by cases h), fun _ => rfl⟩

/-- What `Group::merge` does when it takes the record of `other`: the copied
fields are those of `other`, the id and the backends stay, and the couple and
the namespace are the results of the two binding steps. -/
theorem merge_taken (st : Storage) (g other : Group)
    (h : g.m_metadata_process_start < other.m_metadata_process_start) :
    ∃ c n, (Group.merge st g other).2 =
        { g with
          m_clean := other.m_clean
          m_metadata := other.m_metadata
          m_status_text := other.m_status_text
          m_status := other.m_status
          m_metadata_process_start := other.m_metadata_process_start
          m_metadata_process_time := other.m_metadata_process_time
          m_frozen := other.m_frozen
          m_version := other.m_version
          m_service := other.m_service
          m_couple := c
          m_namespace := n } ∧
      (∀ couple, g.m_couple = some couple → c = some couple) ∧
      (other.m_couple = none → c = g.m_couple) ∧
      (g.m_couple = none → ∀ oc, other.m_couple = some oc → ∃ couple, c = some couple) ∧
      (∀ name, g.m_namespace = some name → n = some name) ∧
      (g.m_namespace = none → n = other.m_namespace) := by
  unfold Group.merge
  rw [if_neg (by omega)]
  simp only
  obtain ⟨c, hc, c1, c2, c3⟩ := merge_couple_frame st
    { g with
      m_clean := other.m_clean
      m_metadata := other.m_metadata
      m_status_text := other.m_status_text
      m_status := other.m_status
      m_metadata_process_start := other.m_metadata_process_start
      m_metadata_process_time := other.m_metadata_process_time
      m_frozen := other.m_frozen
      m_version := other.m_version
      m_service := { migrating := other.m_service.migrating, job_id := other.m_service.job_id } }
    other
  rcases hmc : Group.merge_couple st
    { g with
      m_clean := other.m_clean
      m_metadata := other.m_metadata
      m_status_text := other.m_status_text
      m_status := other.m_status
      m_metadata_process_start := other.m_metadata_process_start
      m_metadata_process_time := other.m_metadata_process_time
      m_frozen := other.m_frozen
      m_version := other.m_version
      m_service := { migrating := other.m_service.migrating, job_id := other.m_service.job_id } }
    other with ⟨st2, g2⟩
  rw [hmc] at hc
  simp only at hc
  obtain ⟨n, hn, n1, n2⟩ := merge_namespace_frame st2 g2 other
  rcases hmn : Group.merge_namespace st2 g2 other with ⟨st3, g3⟩
  rw [hmn] at hn
  simp only at hn
  have hg3 : g3 =
      { g with
        m_clean := other.m_clean
        m_metadata := other.m_metadata
        m_status_text := other.m_status_text
        m_status := other.m_status
        m_metadata_process_start := other.m_metadata_process_start
        m_metadata_process_time := other.m_metadata_process_time
        m_frozen := other.m_frozen
        m_version := other.m_version
        m_service := other.m_service
        m_couple := c
        m_namespace := n } := by
    rw [hn, hc]
  refine ⟨c, n, ?_, c1, c2, c3, ?_, ?_⟩
  · split <;> exact hg3
  · intro name hname
    exact n1 name (by rw [hc]; exact hname)
  · intro hname
    exact n2 (by rw [hc]; exact hname)

/-! ## Decoded fields and unknown shapes (C11, C12) -/

/-- C11 fails as stated: the 'version' 2^32 + 2 of a metadata map is stored as
version 2. -/
theorem process_metadata_map_fields_counterexample :
    MsgObject.lookup [(MsgObject.RAW "version", MsgObject.POSITIVE_INTEGER 4294967298)] "version"
      = some (.POSITIVE_INTEGER 4294967298) ∧
    (group_S1.process_metadata
      (Runtime.yielding (.MAP [(.RAW "version", .POSITIVE_INTEGER 4294967298)]))
      (Storage.init Config.new)).2.m_version = 2 ∧
    (2 : Int) ≠ 4294967298 := by
  refine ⟨rfl, rfl, by decide⟩

/-- C11 amended: for a metadata map that decodes without error, after
`Group::process_metadata` the version of the group is the 'version' entry of
the map when that is below 2^31, the frozen flag is the 'frozen' entry and the
job_id is the 'job_id' entry of the 'service' map (0, false and empty when
absent; the last entry of a key counts); `service.migrating` is true exactly
when a 'service' map has a 'status' entry that is the string "MIGRATING";
entries with unknown keys or keys that are not strings are ignored. -/
theorem process_metadata_map_fields (rt : Runtime) (st : Storage) (g : Group)
    (map : List (MsgObject × MsgObject)) (l : Group.Locals) (hclean : g.m_clean = false)
    (hunpack : rt.unpack g.m_metadata = .ok (.MAP map))
    (hdecode : Group.decode (.MAP map) = .ok l) :
    (∀ u, MsgObject.lookup map "version" = some (.POSITIVE_INTEGER u) → u < 2 ^ 31 →
      (g.process_metadata rt st).2.m_version = (u : Int)) ∧
    (MsgObject.lookup map "version" = none → (g.process_metadata rt st).2.m_version = 0) ∧
    (∀ b, MsgObject.lookup map "frozen" = some (.BOOLEAN b) →
      (g.process_metadata rt st).2.m_frozen = b) ∧
    (MsgObject.lookup map "frozen" = none → (g.process_metadata rt st).2.m_frozen = false) ∧
    (∀ srv s, MsgObject.lookup map "service" = some (.MAP srv) →
      MsgObject.lookup srv "job_id" = some (.RAW s) →
      (g.process_metadata rt st).2.m_service.job_id = s) ∧
    ((∀ srv v, (MsgObject.RAW "service", MsgObject.MAP srv) ∈ map →
        (MsgObject.RAW "job_id", v) ∉ srv) →
      (g.process_metadata rt st).2.m_service.job_id = "") ∧
    ((g.process_metadata rt st).2.m_service.migrating = true ↔
      ∃ srv, (MsgObject.RAW "service", MsgObject.MAP srv) ∈ map ∧
        (MsgObject.RAW "status", MsgObject.RAW "MIGRATING") ∈ srv) ∧
    Group.decode (.MAP (map.filter (fun kv => Group.map_key_known kv.1))) = .ok l ∧
    (∀ srv l0, Group.service_loop (srv.filter (fun kv => Group.service_key_known kv.1)) l0
      = Group.service_loop srv l0) := by
  obtain ⟨hv, hf, hs⟩ := process_metadata_decoded_fields rt st g _ l hclean hunpack hdecode
  have hmap : Group.map_loop map Group.Locals.init = .ok l := by
    simpa [Group.decode] using hdecode
  obtain ⟨v0, v1⟩ := map_loop_version map _ l hmap
  obtain ⟨f0, f1⟩ := map_loop_frozen map _ l hmap
  obtain ⟨sm, sabs, slast⟩ := map_loop_service_result map _ l hmap
  rw [hv, hf, hs]
  refine ⟨fun u hu hlt => ?_, v0, f1, f0, slast, sabs, ?_, ?_, service_loop_filter_known⟩
  · rw [v1 u hu, int_of_u64_small u hlt]
  · rw [sm]
    simp [Group.Locals.init]
  · simp only [Group.decode]
    rw [map_loop_filter_known]
    exact hmap

/-- C11 amended, at the metadata of scenario S3 with two more entries, one of
unknown key and one whose key is not a string. -/
theorem process_metadata_map_fields_witness :
    (group_S3.process_metadata (Runtime.yielding metadata_S3_extra)
      (Storage.init Config.new)).2.m_version = 2 ∧
    (group_S3.process_metadata (Runtime.yielding metadata_S3_extra)
      (Storage.init Config.new)).2.m_frozen = false ∧
    (group_S3.process_metadata (Runtime.yielding metadata_S3_extra)
      (Storage.init Config.new)).2.m_service.job_id = "job-42" ∧
    Group.decode metadata_S3 =
      .ok { version := 2, couple := [7], ns := "ns", frozen := false,
            service_migrating := true, service_job_id := "job-42" } :=
  have h := process_metadata_map_fields (Runtime.yielding metadata_S3_extra)
    (Storage.init Config.new) group_S3
    [(.RAW "version", .POSITIVE_INTEGER 2), (.RAW "future_field", .NIL),
      (.RAW "couple", .ARRAY [.POSITIVE_INTEGER 7]), (.POSITIVE_INTEGER 1, .RAW "x"),
      (.RAW "namespace", .RAW "ns"), (.RAW "frozen", .BOOLEAN false),
      (.RAW "service", .MAP [(.RAW "status", .RAW "MIGRATING"), (.RAW "job_id", .RAW "job-42")])]
    { version := 2, couple := [7], ns := "ns", frozen := false, service_migrating := true,
      service_job_id := "job-42" } rfl rfl rfl
  ⟨h.1 2 rfl (by decide), h.2.2.1 false rfl,
    h.2.2.2.2.1 [(.RAW "status", .RAW "MIGRATING"), (.RAW "job_id", .RAW "job-42")] "job-42"
      rfl rfl,
    h.2.2.2.2.2.2.2.1⟩

/-- C12 on the code: metadata that unpacks to an integer (or to nil, or to a
string) is not rejected: the group is bound to the namespace with the empty
name and to a couple without groups, and its status is derived from the
backends. -/
theorem process_metadata_unknown_shape :
    (group_S1.process_metadata (Runtime.yielding (.POSITIVE_INTEGER 5))
      (Storage.init Config.new)).2.m_status = Group.Status.COUPLED ∧
    (group_S1.process_metadata (Runtime.yielding (.POSITIVE_INTEGER 5))
      (Storage.init Config.new)).2.m_status_text = "Group is OK" ∧
    (group_S1.process_metadata (Runtime.yielding (.POSITIVE_INTEGER 5))
      (Storage.init Config.new)).2.m_namespace = some "" ∧
    (group_S1.process_metadata (Runtime.yielding (.POSITIVE_INTEGER 5))
      (Storage.init Config.new)).2.m_couple = some { m_key := "", m_group_ids := [] } ∧
    (group_S1.process_metadata (Runtime.yielding (.POSITIVE_INTEGER 5))
      (Storage.init Config.new)).1.m_couples = [{ m_key := "", m_group_ids := [] }] ∧
    (group_S1.process_metadata (Runtime.yielding .NIL)
      (Storage.init Config.new)).2.m_status = Group.Status.COUPLED ∧
    (group_S1.process_metadata (Runtime.yielding (.RAW "text"))
      (Storage.init Config.new)).2.m_status = Group.Status.COUPLED := by
  refine ⟨rfl, rfl, rfl, rfl, rfl, rfl, rfl⟩

/-! ## Malformed metadata and plain statuses (C13, C14) -/

theorem append_ne_empty (a b : String) (h : a ≠ "") : a ++ b ≠ "" := by
  intro e
  apply h
  have := congrArg String.data e
  simp only [String.data_append, List.append_eq_nil] at this
  exact String.ext this.1

theorem service_entry_error_text (key val : MsgObject) (l : Group.Locals) (text : String)
    (h : Group.service_entry key val l = .error text) : text ≠ "" := by
  unfold Group.service_entry at h
  repeat' split at h
  all_goals first
    | (simp only [Except.error.injEq] at h
       subst h
       exact append_ne_empty _ _ (by decide))
    | cases h

theorem service_loop_error_text :
    ∀ (srv : List (MsgObject × MsgObject)) (l : Group.Locals) (text : String),
      Group.service_loop srv l = .error text → text ≠ "" := by
  intro srv
  induction srv with
  | nil => intro l text h; simp [Group.service_loop] at h
  | cons kv rest ih =>
    intro l text h
    obtain ⟨key, val⟩ := kv
    unfold Group.service_loop at h
    split at h
    · exact ih _ _ h
    · rename_i t ht
      simp only [Except.error.injEq] at h
      subst h
      exact service_entry_error_text key val l _ ht

theorem map_entry_error_text (key val : MsgObject) (l : Group.Locals) (text : String)
    (h : Group.map_entry key val l = .error text) : text ≠ "" := by
  unfold Group.map_entry at h
  repeat' split at h
  all_goals first
    | exact service_loop_error_text _ _ _ h
    | (simp only [Except.error.injEq] at h
       subst h
       first
         | exact append_ne_empty _ _ (by decide)
         | decide)
    | cases h

theorem map_loop_error_text :
    ∀ (kvs : List (MsgObject × MsgObject)) (l : Group.Locals) (text : String),
      Group.map_loop kvs l = .error text → text ≠ "" := by
  intro kvs
  induction kvs with
  | nil => intro l text h; simp [Group.map_loop] at h
  | cons kv rest ih =>
    intro l text h
    obtain ⟨key, val⟩ := kv
    unfold Group.map_loop at h
    split at h
    · exact ih _ _ h
    · rename_i t ht
      simp only [Except.error.injEq] at h
      subst h
      exact map_entry_error_text key val l _ ht

theorem decode_error_text (obj : MsgObject) (text : String)
    (h : Group.decode obj = .error text) : text ≠ "" := by
  unfold Group.decode at h
  split at h
  · exact map_loop_error_text _ _ _ h
  · split at h
    · exact absurd h (by simp)
    · simp only [Except.error.injEq] at h
      subst h
      decide
  · exact absurd h (by simp)

theorem service_loop_error_of_mem (key val : MsgObject)
    (hbad : ∀ l, ∃ text, Group.service_entry key val l = .error text) :
    ∀ (srv : List (MsgObject × MsgObject)), (key, val) ∈ srv →
      ∀ l, ∃ text, Group.service_loop srv l = .error text := by
  intro srv
  induction srv with
  | nil => intro h; simp at h
  | cons kv rest ih =>
    intro hmem l
    obtain ⟨k, v⟩ := kv
    unfold Group.service_loop
    cases he : Group.service_entry k v l with
    | error t => exact ⟨t, rfl⟩
    | ok l2 =>
      simp only
      rcases List.mem_cons.mp hmem with e | hmem
      · simp only [Prod.mk.injEq] at e
        obtain ⟨t, ht⟩ := hbad l
        rw [e.1, e.2, he] at ht
        cases ht
      · exact ih hmem l2

theorem map_loop_error_of_mem (key val : MsgObject)
    (hbad : ∀ l, ∃ text, Group.map_entry key val l = .error text) :
    ∀ (kvs : List (MsgObject × MsgObject)), (key, val) ∈ kvs →
      ∀ l, ∃ text, Group.map_loop kvs l = .error text := by
  intro kvs
  induction kvs with
  | nil => intro h; simp at h
  | cons kv rest ih =>
    intro hmem l
    obtain ⟨k, v⟩ := kv
    unfold Group.map_loop
    cases he : Group.map_entry k v l with
    | error t => exact ⟨t, rfl⟩
    | ok l2 =>
      simp only
      rcases List.mem_cons.mp hmem with e | hmem
      · simp only [Prod.mk.injEq] at e
        obtain ⟨t, ht⟩ := hbad l
        rw [e.1, e.2, he] at ht
        cases ht
      · exact ih hmem l2

theorem parse_couple_loop_true :
    ∀ (array : List MsgObject) (couple pushed : List Int),
      parse_couple_loop array couple = (true, pushed) →
      ∃ ids : List Nat, array = ids.map MsgObject.POSITIVE_INTEGER := by
  intro array
  induction array with
  | nil => intro _ _ _; exact ⟨[], rfl⟩
  | cons x rest ih =>
    intro couple pushed h
    unfold parse_couple_loop at h
    split at h
    · rename_i u
      obtain ⟨ids, hids⟩ := ih _ _ h
      exact ⟨u :: ids, by rw [hids]; rfl⟩
    · simp at h

theorem parse_couple_false (obj : MsgObject) (couple : List Int) (h : ¬ obj.is_id_array) :
    (parse_couple obj couple).1 = false := by
  unfold parse_couple
  split
  · rename_i array
    split
    · rename_i pushed hp
      exact absurd (by
        obtain ⟨ids, hids⟩ := parse_couple_loop_true array couple pushed hp
        exact ⟨ids, by rw [hids]⟩) h
    · rfl
  · rfl

theorem decode_malformed (obj : MsgObject) (h : Group.metadata_malformed obj) :
    ∃ text, Group.decode obj = .error text := by
  rcases h with ⟨map, rfl, hcase⟩ | ⟨array, rfl, harr⟩
  · simp only [Group.decode]
    rcases hcase with ⟨v, hm, hv⟩ | ⟨v, hm, hv⟩ | ⟨v, hm, hv⟩ | ⟨v, hm, hv⟩ |
      ⟨srv, v, hm, hj, hv⟩ | ⟨v, hm, hv⟩
    · refine map_loop_error_of_mem _ _ (fun l => ?_) map hm _
      unfold Group.map_entry
      simp only [if_true]
      exact ⟨_, rfl⟩
    · refine map_loop_error_of_mem _ _ (fun l => ?_) map hm _
      unfold Group.map_entry
      simp only [String.reduceEq, if_false, if_true]
      exact ⟨_, rfl⟩
    · refine map_loop_error_of_mem _ _ (fun l => ?_) map hm _
      unfold Group.map_entry
      simp only [String.reduceEq, if_false, if_true]
      exact ⟨_, rfl⟩
    · refine map_loop_error_of_mem _ _ (fun l => ?_) map hm _
      unfold Group.map_entry
      simp only [String.reduceEq, if_false, if_true]
      exact ⟨_, rfl⟩
    · refine map_loop_error_of_mem _ _ (fun l => ?_) map hm _
      unfold Group.map_entry
      simp only [String.reduceEq, if_false, if_true]
      refine service_loop_error_of_mem _ _ (fun l0 => ?_) srv hj l
      unfold Group.service_entry
      simp only [String.reduceEq, if_false, if_true]
      exact ⟨_, rfl⟩
    · refine map_loop_error_of_mem _ _ (fun l => ?_) map hm _
      unfold Group.map_entry
      simp only [String.reduceEq, if_false, if_true]
      have hp := parse_couple_false v l.couple hv
      rcases hpc : parse_couple v l.couple with ⟨ok, pushed⟩
      rw [hpc] at hp
      simp only at hp
      subst hp
      exact ⟨_, rfl⟩
  · simp only [Group.decode]
    have hp := parse_couple_false (.ARRAY array) Group.Locals.init.couple harr
    rcases hpc : parse_couple (.ARRAY array) Group.Locals.init.couple with ⟨ok, pushed⟩
    rw [hpc] at hp
    simp only at hp
    subst hp
    exact ⟨_, rfl⟩

/-- C13: when the pending metadata cannot be unpacked, or unpacks to a
malformed object (a wrongly typed 'version', 'namespace', 'frozen', 'service',
'job_id' or 'couple', or a bare array that is not an array of positive
integers), `Group::process_metadata` sets status BAD with a status text that
is not empty and returns: the storage and the other fields of the group are
as before, no status is derived from the backends. -/
theorem process_metadata_malformed (rt : Runtime) (st : Storage) (g : Group)
    (hclean : g.m_clean = false)
    (hbad : (∃ e, rt.unpack g.m_metadata = .error e) ∨
      (∃ obj, rt.unpack g.m_metadata = .ok obj ∧ Group.metadata_malformed obj)) :
    ∃ text, text ≠ "" ∧
      g.process_metadata rt st =
        (st, { g with
          m_metadata_process_start := rt.clock
          m_metadata_process_time := rt.elapsed
          m_clean := true
          m_status_text := text
          m_status := Group.Status.BAD }) := by
  unfold Group.process_metadata
  simp only [hclean, Bool.false_eq_true, if_false]
  rcases hbad with ⟨e, he⟩ | ⟨obj, ho, hm⟩
  · rw [he]
    cases e with
    | some what => exact ⟨_, append_ne_empty _ _ (by decide), rfl⟩
    | none => exact ⟨_, by decide, rfl⟩
  · obtain ⟨text, ht⟩ := decode_malformed obj hm
    rw [ho]
    simp only [ht]
    exact ⟨text, decode_error_text obj text ht, rfl⟩

/-- C13, at the map `{version:"2"}`, whose 'version' is a string. -/
theorem process_metadata_malformed_witness :
    ∃ text, text ≠ "" ∧
      group_S1.process_metadata (Runtime.yielding (.MAP [(.RAW "version", .RAW "2")]))
          (Storage.init Config.new) =
        (Storage.init Config.new, { group_S1 with
          m_metadata_process_start := 1
          m_metadata_process_time := 0
          m_clean := true
          m_status_text := text
          m_status := Group.Status.BAD }) :=
  process_metadata_malformed (Runtime.yielding (.MAP [(.RAW "version", .RAW "2")]))
    (Storage.init Config.new) group_S1 rfl
    (Or.inr ⟨_, rfl, Or.inl ⟨_, rfl, Or.inl ⟨.RAW "2", List.mem_cons_self _ _,
      fun u e => by cases e⟩⟩⟩)

theorem derive_status_empty (st : Storage) (g : Group) (h : g.m_backends = []) :
    (Group.derive_status st g).m_status = Group.Status.INIT ∧
    (Group.derive_status st g).m_status_text = "No node backends" := by
  unfold Group.derive_status
  simp [h]

theorem derive_status_all_ok (st : Storage) (g : Group) (hne : g.m_backends ≠ [])
    (hok : ∀ b ∈ g.m_backends, b.status = Backend.Status.OK)
    (hdht : ¬ (g.m_backends.length > 1 ∧ st.config.forbidden_dht_groups ≠ 0)) :
    (Group.derive_status st g).m_status = Group.Status.COUPLED ∧
    (Group.derive_status st g).m_status_text = "Group is OK" := by
  unfold Group.derive_status
  have h0 : g.m_backends.isEmpty = false := by
    simpa [List.isEmpty_iff] using hne
  have hbad : ∀ b ∈ g.m_backends, b.status ≠ Backend.Status.BAD :=
    fun b hb e => by rw [hok b hb] at e; cases e
  have h1 : (g.m_backends.any fun b => decide (b.status = Backend.Status.RO)) = false := by
    rw [Bool.eq_false_iff]
    intro h
    simp only [List.any_eq_true, decide_eq_true_eq] at h
    obtain ⟨b, hb, e⟩ := h
    rw [hok b hb] at e
    cases e
  have h2 : (g.m_backends.any fun b => !decide (b.status = Backend.Status.RO)
      && !decide (b.status = Backend.Status.OK)) = false := by
    rw [Bool.eq_false_iff]
    intro h
    simp only [List.any_eq_true, Bool.and_eq_true, Bool.not_eq_true',
      decide_eq_false_iff_not] at h
    obtain ⟨b, hb, _, e⟩ := h
    exact e (hok b hb)
  rw [h0, if_neg (by simp), if_neg hdht, backends_loop_no_bad g.m_backends hbad, h1, h2]
  simp

/-- C14: a new group has status INIT, no couple, no namespace, version 0,
frozen false and service.migrating false; a group without backends whose
pending metadata is processed successfully gets status INIT and the status
text "No node backends"; a group with backends that are all OK, to which the
DHT rule does not apply, gets the status text "Group is OK" (status
COUPLED). -/
theorem new_group_and_plain_statuses :
    (∀ id : Int, (Group.new id).m_status = Group.Status.INIT ∧
      (Group.new id).m_couple = none ∧ (Group.new id).m_namespace = none ∧
      (Group.new id).m_version = 0 ∧ (Group.new id).m_frozen = false ∧
      (Group.new id).m_service.migrating = false) ∧
    (∀ (rt : Runtime) (st : Storage) (g : Group) (obj : MsgObject) (l : Group.Locals),
      g.m_clean = false → rt.unpack g.m_metadata = .ok obj → Group.decode obj = .ok l →
      (∀ name, g.m_namespace = some name → name = l.ns) →
      (∀ c, g.m_couple = some c → c.check l.couple = true) →
      (g.m_backends = [] →
        (g.process_metadata rt st).2.m_status = Group.Status.INIT ∧
        (g.process_metadata rt st).2.m_status_text = "No node backends") ∧
      (g.m_backends ≠ [] → (∀ b ∈ g.m_backends, b.status = Backend.Status.OK) →
        ¬ (g.m_backends.length > 1 ∧ st.config.forbidden_dht_groups ≠ 0) →
        (g.process_metadata rt st).2.m_status = Group.Status.COUPLED ∧
        (g.process_metadata rt st).2.m_status_text = "Group is OK")) := by
  refine ⟨fun id => ⟨rfl, rfl, rfl, rfl, rfl, rfl⟩, ?_⟩
  intro rt st g obj l hclean hunpack hdecode hns hcouple
  obtain ⟨st1, g1, e, h1, h2, _⟩ :=
    process_metadata_accepted rt st g obj l hclean hunpack hdecode hns hcouple
  rw [e]
  refine ⟨fun hb => ?_, fun hne hok hdht => ?_⟩
  · exact derive_status_empty st1 g1 (h2.trans hb)
  · exact derive_status_all_ok st1 g1 (by rw [h2]; exact hne) (by rw [h2]; exact hok)
      (by rw [h1, h2]; exact hdht)

/-- C14, at a new group 7 that receives the metadata of scenario S1, and at
group 7 of scenario S1 with its backend in status OK. -/
theorem new_group_and_plain_statuses_witness :
    ((({ Group.new 7 with m_clean := false } : Group).process_metadata
        (Runtime.yielding metadata_S1) (Storage.init Config.new)).2.m_status
      = Group.Status.INIT ∧
     (({ Group.new 7 with m_clean := false } : Group).process_metadata
        (Runtime.yielding metadata_S1) (Storage.init Config.new)).2.m_status_text
      = "No node backends") ∧
    ((group_S1.process_metadata (Runtime.yielding metadata_S1)
        (Storage.init Config.new)).2.m_status = Group.Status.COUPLED ∧
     (group_S1.process_metadata (Runtime.yielding metadata_S1)
        (Storage.init Config.new)).2.m_status_text = "Group is OK") :=
  ⟨(new_group_and_plain_statuses.2 (Runtime.yielding metadata_S1) (Storage.init Config.new)
      { Group.new 7 with m_clean := false } metadata_S1
      { version := 2, couple := [7], ns := "ns", frozen := false, service_migrating := false,
        service_job_id := "" }
      rfl rfl rfl (fun name h => by cases h) (fun c h => by cases h)).1 rfl,
   (new_group_and_plain_statuses.2 (Runtime.yielding metadata_S1) (Storage.init Config.new)
      group_S1 metadata_S1
      { version := 2, couple := [7], ns := "ns", frozen := false, service_migrating := false,
        service_job_id := "" }
      rfl rfl rfl (fun name h => by cases h) (fun c h => by cases h)).2
      (by decide) (by decide) (by decide)⟩

/-! ## Group::merge, the handlers and the metadata stage of a round (C15-C20) -/

/-- C15: `Group::merge(other)` leaves the group and the storage as they are
when the metadata_process_start of the group is not below that of `other`;
when it is below, the status, status text, raw metadata, clean flag, frozen
flag, version, service.migrating, service.job_id, metadata_process_start and
metadata_process_time of the group afterwards are those of `other`. -/
theorem merge_takes_newer_record (st : Storage) (g other : Group) :
    (g.m_metadata_process_start ≥ other.m_metadata_process_start →
      Group.merge st g other = (st, g)) ∧
    (g.m_metadata_process_start < other.m_metadata_process_start →
      (Group.merge st g other).2.m_status = other.m_status ∧
      (Group.merge st g other).2.m_status_text = other.m_status_text ∧
      (Group.merge st g other).2.m_metadata = other.m_metadata ∧
      (Group.merge st g other).2.m_clean = other.m_clean ∧
      (Group.merge st g other).2.m_frozen = other.m_frozen ∧
      (Group.merge st g other).2.m_version = other.m_version ∧
      (Group.merge st g other).2.m_service.migrating = other.m_service.migrating ∧
      (Group.merge st g other).2.m_service.job_id = other.m_service.job_id ∧
      (Group.merge st g other).2.m_metadata_process_start = other.m_metadata_process_start ∧
      (Group.merge st g other).2.m_metadata_process_time = other.m_metadata_process_time) := by
  constructor
  · intro h
    unfold Group.merge
    rw [if_pos h]
  · intro h
    obtain ⟨c, n, e, _⟩ := merge_taken st g other h
    rw [e]
    exact ⟨rfl, rfl, rfl, rfl, rfl, rfl, rfl, rfl, rfl, rfl⟩

/-- C15, at the new group 7 merged with the group of scenario S3 after its
metadata was processed at clock 1. -/
theorem merge_takes_newer_record_witness :
    (Group.merge (Storage.init Config.new) (Group.new 7)
      (group_S3.process_metadata (Runtime.yielding metadata_S3)
        (Storage.init Config.new)).2).2.m_status = Group.Status.MIGRATING ∧
    (Group.merge (Storage.init Config.new) (Group.new 7)
      (group_S3.process_metadata (Runtime.yielding metadata_S3)
        (Storage.init Config.new)).2).2.m_metadata_process_start = 1 ∧
    Group.merge (Storage.init Config.new) group_S4 (Group.new 3)
      = (Storage.init Config.new, group_S4) :=
  ⟨((merge_takes_newer_record (Storage.init Config.new) (Group.new 7)
      (group_S3.process_metadata (Runtime.yielding metadata_S3)
        (Storage.init Config.new)).2).2 (by decide)).1,
   ((merge_takes_newer_record (Storage.init Config.new) (Group.new 7)
      (group_S3.process_metadata (Runtime.yielding metadata_S3)
        (Storage.init Config.new)).2).2 (by decide)).2.2.2.2.2.2.2.2.1,
   (merge_takes_newer_record (Storage.init Config.new) group_S4 (Group.new 3)).1
      (by decide)⟩

/-- C16: `Group::merge(other)` keeps the couple binding and the namespace
binding the group already has, whatever `other` is bound to; a binding changes
only when the group had none, the record of `other` is taken and `other` has
one (the namespace then being that of `other`). -/
theorem merge_keeps_bindings (st : Storage) (g other : Group) :
    (∀ couple, g.m_couple = some couple →
      (Group.merge st g other).2.m_couple = some couple) ∧
    (∀ name, g.m_namespace = some name →
      (Group.merge st g other).2.m_namespace = some name) ∧
    ((Group.merge st g other).2.m_couple ≠ g.m_couple →
      g.m_couple = none ∧ other.m_couple ≠ none ∧
      g.m_metadata_process_start < other.m_metadata_process_start) ∧
    ((Group.merge st g other).2.m_namespace ≠ g.m_namespace →
      g.m_namespace = none ∧ (Group.merge st g other).2.m_namespace = other.m_namespace ∧
      g.m_metadata_process_start < other.m_metadata_process_start) := by
  by_cases h : g.m_metadata_process_start < other.m_metadata_process_start
  · obtain ⟨c, n, e, c1, c2, _, n1, n2⟩ := merge_taken st g other h
    rw [e]
    refine ⟨c1, n1, fun hne => ?_, fun hne => ?_⟩
    · simp only at hne
      cases hg : g.m_couple with
      | some couple => exact absurd (c1 couple hg) (by rw [hg] at hne; exact hne)
      | none =>
        refine ⟨rfl, fun ho => ?_, h⟩
        exact hne (c2 ho)
    · simp only at hne
      cases hg : g.m_namespace with
      | some name => exact absurd (n1 name hg) (by rw [hg] at hne; exact hne)
      | none => exact ⟨rfl, n2 hg, h⟩
  · have e : Group.merge st g other = (st, g) := by
      unfold Group.merge
      rw [if_pos (by omega)]
    rw [e]
    exact ⟨fun _ hc => hc, fun _ hn => hn, fun hne => absurd rfl hne,
      fun hne => absurd rfl hne⟩

/-- C16, at group 3 of scenario S4 (couple 3:4, namespace `ns`) merged with a
newer record of the group that is bound to the couple 3:5 and the namespace
`default`. -/
theorem merge_keeps_bindings_witness :
    (Group.merge storage_S4 group_S4
      { group_S4 with
        m_metadata_process_start := 5
        m_couple := some { m_key := "3:5", m_group_ids := [3, 5] }
        m_namespace := some "default" }).2.m_couple
      = some { m_key := "3:4", m_group_ids := [3, 4] } ∧
    (Group.merge storage_S4 group_S4
      { group_S4 with
        m_metadata_process_start := 5
        m_couple := some { m_key := "3:5", m_group_ids := [3, 5] }
        m_namespace := some "default" }).2.m_namespace = some "ns" :=
  ⟨(merge_keeps_bindings storage_S4 group_S4
      { group_S4 with
        m_metadata_process_start := 5
        m_couple := some { m_key := "3:5", m_group_ids := [3, 5] }
        m_namespace := some "default" }).1 _ rfl,
   (merge_keeps_bindings storage_S4 group_S4
      { group_S4 with
        m_metadata_process_start := 5
        m_couple := some { m_key := "3:5", m_group_ids := [3, 5] }
        m_namespace := some "default" }).2.1 _ rfl⟩

/-- C17: `on_get_snapshot::on_chunk` and `on_refresh::on_chunk` answer a chunk
that is not empty and on which the filter parser does not end in a good state
with the error -1 "Incorrect filter syntax", close the response and make no
call to the collector; on an empty chunk (the parser is not run, the filter
stays) or a chunk that parses well they call `get_snapshot`, respectively
`refresh`, once and send nothing; `on_summary` and `on_force_update` call the
collector for every chunk, without parsing. -/
theorem on_chunk_incorrect_filter (parser : FilterParser) (m_filter : Filter) (chunk : String) :
    (chunk ≠ "" → (parser.parse (c_str chunk) m_filter).2 = false →
      (on_get_snapshot.on_chunk parser m_filter chunk).2.response
        = [.error (-1) "Incorrect filter syntax", .close] ∧
      (on_get_snapshot.on_chunk parser m_filter chunk).2.collector = [] ∧
      (on_refresh.on_chunk parser m_filter chunk).2.response
        = [.error (-1) "Incorrect filter syntax", .close] ∧
      (on_refresh.on_chunk parser m_filter chunk).2.collector = []) ∧
    (chunk ≠ "" → (parser.parse (c_str chunk) m_filter).2 = true →
      (on_get_snapshot.on_chunk parser m_filter chunk).2.response = [] ∧
      (on_get_snapshot.on_chunk parser m_filter chunk).2.collector
        = [.get_snapshot (parser.parse (c_str chunk) m_filter).1] ∧
      (on_refresh.on_chunk parser m_filter chunk).2.response = [] ∧
      (on_refresh.on_chunk parser m_filter chunk).2.collector
        = [.refresh (parser.parse (c_str chunk) m_filter).1]) ∧
    (chunk = "" →
      on_get_snapshot.on_chunk parser m_filter chunk =
        (m_filter, { log := ["Snapshot requested: ''"], response := [],
                     collector := [.get_snapshot m_filter] }) ∧
      on_refresh.on_chunk parser m_filter chunk =
        (m_filter, { log := ["Refresh requested: ''"], response := [],
                     collector := [.refresh m_filter] })) ∧
    (on_summary.on_chunk chunk).collector = [.summary] ∧
    (on_summary.on_chunk chunk).response = [] ∧
    (on_force_update.on_chunk chunk).collector = [.force_update] ∧
    (on_force_update.on_chunk chunk).response = [] := by
  refine ⟨fun hne hbad => ?_, fun hne hgood => ?_, fun he => ?_, rfl, rfl, rfl, rfl⟩
  · unfold on_get_snapshot.on_chunk on_refresh.on_chunk
    rcases hp : parser.parse (c_str chunk) m_filter with ⟨filter, good⟩
    rw [hp] at hbad
    simp only at hbad
    subst hbad
    simp [hne]
  · unfold on_get_snapshot.on_chunk on_refresh.on_chunk
    rcases hp : parser.parse (c_str chunk) m_filter with ⟨filter, good⟩
    rw [hp] at hgood
    simp only at hgood
    subst hgood
    simp [hne]
  · subst he
    exact ⟨rfl, rfl⟩

/-- C17, at the chunk `[1,2` and a parser that never ends in a good
state. -/
theorem on_chunk_incorrect_filter_witness :
    (on_get_snapshot.on_chunk { parse := fun _ filter => (filter, false) } Filter.none
        "[1,2").2.response = [.error (-1) "Incorrect filter syntax", .close] ∧
    (on_get_snapshot.on_chunk { parse := fun _ filter => (filter, false) } Filter.none
        "[1,2").2.collector = [] ∧
    (on_refresh.on_chunk { parse := fun _ filter => (filter, false) } Filter.none
        "[1,2").2.response = [.error (-1) "Incorrect filter syntax", .close] ∧
    (on_refresh.on_chunk { parse := fun _ filter => (filter, false) } Filter.none
        "[1,2").2.collector = [] :=
  (on_chunk_incorrect_filter { parse := fun _ filter => (filter, false) } Filter.none
    "[1,2").1 (by decide) rfl

theorem handle_step (r : Round) :
    r.handle_group_download_completed.m_nr_groups = r.m_nr_groups - 1 ∧
    r.handle_group_download_completed.m_calls = r.m_calls ∧
    r.handle_group_download_completed.m_queue =
      r.m_queue ++ (if r.m_nr_groups = 1 then [Round.Task.step4_perform_update] else []) := by
  unfold Round.handle_group_download_completed
  by_cases hz : r.m_nr_groups - 1 = 0
  · rw [if_pos hz, if_pos (by omega)]
    exact ⟨rfl, rfl, rfl⟩
  · rw [if_neg hz, if_neg (by omega)]
    exact ⟨rfl, rfl, by simp⟩

theorem handle_iterate (k : Nat) :
    ∀ r : Round,
      (Round.handle_group_download_completed^[k] r).m_nr_groups = r.m_nr_groups - k ∧
      (Round.handle_group_download_completed^[k] r).m_calls = r.m_calls ∧
      (Round.handle_group_download_completed^[k] r).m_queue =
        r.m_queue ++
          (if 1 ≤ r.m_nr_groups ∧ r.m_nr_groups ≤ k then [Round.Task.step4_perform_update]
           else []) := by
  induction k with
  | zero =>
    intro r
    simp only [Function.iterate_zero, id_eq, Nat.cast_zero, sub_zero, true_and]
    rw [if_neg (by omega)]
    simp
  | succ k ih =>
    intro r
    rw [Function.iterate_succ_apply']
    obtain ⟨h1, h2, h3⟩ := ih r
    obtain ⟨s1, s2, s3⟩ := handle_step (Round.handle_group_download_completed^[k] r)
    rw [s1, s2, s3, h1, h2, h3]
    refine ⟨by push_cast; omega, rfl, ?_⟩
    by_cases hk : 1 ≤ r.m_nr_groups ∧ r.m_nr_groups ≤ (k : Int)
    · rw [if_pos hk, if_neg (by omega), if_pos ⟨hk.1, by push_cast; omega⟩]
      simp
    · rw [if_neg hk]
      by_cases hl : r.m_nr_groups - (k : Int) = 1
      · rw [if_pos hl, if_pos ⟨by omega, by push_cast; omega⟩]
        simp
      · rw [if_neg hl, if_neg (by push_cast; omega)]
        simp

/-- C18: after `step3_prepare_metadata_download` on n >= 1 groups the counter
is n and one metadata read per group is scheduled; after k calls of
`handle_group_download_completed` the queue holds, after these reads, one
`step4_perform_update` when k >= n and none when k < n: step 4 is dispatched
once, by the n-th call. -/
theorem step4_dispatched_by_last_read (r : Round) (groups : List Int) (k : Nat)
    (hn : 1 ≤ groups.length) :
    (r.step3_prepare_metadata_download groups).m_nr_groups = groups.length ∧
    (r.step3_prepare_metadata_download groups).m_queue =
      r.m_queue ++ groups.map Round.Task.request_group_metadata ∧
    (Round.handle_group_download_completed^[k]
        (r.step3_prepare_metadata_download groups)).m_queue =
      r.m_queue ++ groups.map Round.Task.request_group_metadata ++
        (if groups.length ≤ k then [Round.Task.step4_perform_update] else []) := by
  refine ⟨rfl, rfl, ?_⟩
  rw [(handle_iterate k _).2.2]
  have e1 : (r.step3_prepare_metadata_download groups).m_nr_groups = (groups.length : Int) :=
    rfl
  have e2 : (r.step3_prepare_metadata_download groups).m_queue =
      r.m_queue ++ groups.map Round.Task.request_group_metadata := rfl
  rw [e1, e2]
  by_cases hk : groups.length ≤ k
  · rw [if_pos ⟨by omega, by omega⟩, if_pos hk]
  · rw [if_neg (by omega), if_neg hk]

/-- C18, at a round with the groups 3 and 4 and two calls of
`handle_group_download_completed`. -/
theorem step4_dispatched_by_last_read_witness :
    (Round.at_step3.step3_prepare_metadata_download [3, 4]).m_nr_groups = 2 ∧
    (Round.at_step3.step3_prepare_metadata_download [3, 4]).m_queue =
      [.step2_curl_download, .step3_prepare_metadata_download, .request_group_metadata 3,
        .request_group_metadata 4] ∧
    (Round.handle_group_download_completed^[2]
        (Round.at_step3.step3_prepare_metadata_download [3, 4])).m_queue =
      [.step2_curl_download, .step3_prepare_metadata_download, .request_group_metadata 3,
        .request_group_metadata 4, .step4_perform_update] :=
  step4_dispatched_by_last_read Round.at_step3 [3, 4] 2 (by decide)

/-- C19 on the code: with no group in the storage after
`update_group_structure`, `step3_prepare_metadata_download` sets the counter
to 0 and dispatches nothing: no metadata read will report completion and
`step4_perform_update` is not dispatched, so neither `Storage::update` nor
`Collector::finalize_round` is called. -/
theorem step3_without_groups (r : Round) :
    (r.step3_prepare_metadata_download []).m_nr_groups = 0 ∧
    (r.step3_prepare_metadata_download []).m_queue = r.m_queue ∧
    (r.step3_prepare_metadata_download []).m_calls = r.m_calls ++ [.update_group_structure] ∧
    (Round.at_step3.step3_prepare_metadata_download []).m_queue
      = [.step2_curl_download, .step3_prepare_metadata_download] ∧
    (Round.at_step3.step3_prepare_metadata_download []).m_calls = [.update_group_structure] := by
  refine ⟨rfl, ?_, rfl, rfl, rfl⟩
  simp [Round.step3_prepare_metadata_download]

/-- C20: `GroupMetadataHandle::final` with an error sets the status text of
the group to "Metadata download failed: " followed by the message of the error
and leaves every other field of the group as it was; with or without error it
calls `handle_group_download_completed` once, so that the counter of the round
goes down by one. -/
theorem final_keeps_previous_data (error : Option String) (message : String) (round : Round)
    (group : Group) :
    (Round.GroupMetadataHandle.final (some message) round group).2 =
      { group with m_status_text := "Metadata download failed: " ++ message } ∧
    (Round.GroupMetadataHandle.final none round group).2 = group ∧
    (Round.GroupMetadataHandle.final error round group).1
      = round.handle_group_download_completed ∧
    (Round.GroupMetadataHandle.final error round group).1.m_nr_groups
      = round.m_nr_groups - 1 := by
  refine ⟨rfl, rfl, ?_, ?_⟩
  · cases error <;> rfl
  · have : (Round.GroupMetadataHandle.final error round group).1
        = round.handle_group_download_completed := by cases error <;> rfl
    rw [this]
    unfold Round.handle_group_download_completed
    split <;> rfl

/-! ## Lemmas: the download stage and print_json -/

theorem destroy_released (io : Round.Transfer) :
    (CurlGuard.destroy io).m_curl_handle = false ∧ (CurlGuard.destroy io).m_epollfd < 0 := by
  unfold CurlGuard.destroy
  by_cases h1 : io.m_curl_handle = true <;> by_cases h2 : io.m_epollfd ≥ 0 <;>
    simp [h1, h2] <;> omega

theorem perform_download_released (env : Curl.Env) (nodes : List String) (self : Round)
    (io : Round.Transfer) (r : Int × Round × Round.Transfer)
    (h : Round.perform_download env nodes self io = some r) :
    r.2.2.m_curl_handle = false ∧ r.2.2.m_epollfd < 0 := by
  unfold Round.perform_download at h
  cases hb : Round.perform_download.body env nodes self io with
  | none => rw [hb] at h; cases h
  | some b =>
    rw [hb] at h
    simp only [Option.map_some', Option.some.injEq] at h
    subst h
    exact destroy_released _

theorem print_json_backends_eq (backends : List Backend) (writer : List Writer.Call) :
    Group.print_json.backends backends writer =
      writer ++ backends.map (fun backend => Writer.Call.String (c_str backend.key)) := by
  induction backends generalizing writer with
  | nil => simp [Group.print_json.backends]
  | cons b rest ih => simp [Group.print_json.backends, ih]

/-! ## The download stage (C21, C22) -/

/-- C21, as stated, fails: when `curl_multi_init` returns null, and likewise
when `epoll_create` returns -1, `perform_download` returns -1 and
`step2_curl_download` still dispatches `step3_prepare_metadata_download`; with
one group, the metadata stage then dispatches `step4_perform_update`. -/
theorem step2_dispatches_step3_counterexample :
    (Round.perform_download Curl.Env.no_driver ["a"] Round.at_step2 Round.Transfer.new).map
        (fun r => r.1) = some (-1) ∧
    (Round.step2_curl_download Curl.Env.no_driver ["a"] Round.at_step2 Round.Transfer.new).map
        (fun r => r.1.m_queue) = some [.step3_prepare_metadata_download] ∧
    (Round.perform_download Curl.Env.no_poller ["a"] Round.at_step2 Round.Transfer.new).map
        (fun r => r.1) = some (-1) ∧
    (Round.step2_curl_download Curl.Env.no_poller ["a"] Round.at_step2 Round.Transfer.new).map
        (fun r => r.1.m_queue) = some [.step3_prepare_metadata_download] ∧
    (Round.step2_curl_download Curl.Env.no_driver ["a"] Round.at_step2 Round.Transfer.new).map
        (fun r => (Round.GroupMetadataHandle.final none
          (r.1.step3_prepare_metadata_download [1]) (Group.new 1)).1.m_queue) =
      some [.step3_prepare_metadata_download, .request_group_metadata 1,
        .step4_perform_update] := by
  decide

/-- C21, amended: if the multi handle or the epoll descriptor cannot be
created, `perform_download` returns -1, having created no easy handle and
scheduled no parse and having released the multi handle if it got one, and
`step2_curl_download`, which does not use that result, still dispatches
`step3_prepare_metadata_download`, as the one new task of the round. -/
theorem step2_dispatches_step3 (env : Curl.Env) (nodes : List String) (self : Round)
    (io : Round.Transfer) (hio : io.m_curl_handle = false ∧ io.m_epollfd = -1)
    (h : env.curl_multi_init = false ∨ env.epoll_create = none) :
    let io1 : Round.Transfer :=
      { io with m_calls := io.m_calls ++
          (if env.curl_multi_init then [.curl_multi_init, .curl_multi_cleanup] else []) }
    Round.perform_download env nodes self io = some (-1, self, io1) ∧
    Round.step2_curl_download env nodes self io =
      some ({ self with m_queue := self.m_queue ++ [.step3_prepare_metadata_download] }, io1) := by
  obtain ⟨hh, hfd⟩ := hio
  cases io with
  | mk handle fd calls =>
    simp only at hh hfd
    subst hh hfd
    by_cases hm : env.curl_multi_init = true
    · have he : env.epoll_create = none := by
        rcases h with h | h
        · rw [hm] at h; cases h
        · exact h
      simp [Round.step2_curl_download, Round.perform_download, Round.perform_download.body,
        CurlGuard.destroy, hm, he]
    · have hm2 : env.curl_multi_init = false := by simpa using hm
      simp [Round.step2_curl_download, Round.perform_download, Round.perform_download.body,
        CurlGuard.destroy, hm2]

theorem step2_dispatches_step3_witness :
    (Round.Transfer.new.m_curl_handle = false ∧ Round.Transfer.new.m_epollfd = -1) ∧
    (Curl.Env.no_poller.curl_multi_init = false ∨ Curl.Env.no_poller.epoll_create = none) ∧
    Round.step2_curl_download Curl.Env.no_poller ["a", "b"] Round.at_step2 Round.Transfer.new =
      some ({ Round.at_step2 with m_queue := [.step3_prepare_metadata_download] },
        { Round.Transfer.new with m_calls := [.curl_multi_init, .curl_multi_cleanup] }) :=
  ⟨⟨rfl, rfl⟩, Or.inr rfl,
    (step2_dispatches_step3 Curl.Env.no_poller ["a", "b"] Round.at_step2 Round.Transfer.new
      ⟨rfl, rfl⟩ (Or.inr rfl)).2⟩

/-- C22 fails for the easy handles: with the nodes "a" and "b", when
`curl_easy_init` returns null for "b", `perform_download` returns -1; the
guard has cleaned up the multi handle and closed the epoll descriptor, but the
easy handle created for "a" and added to the multi handle has neither been
removed from it nor cleaned up. -/
theorem perform_download_leaves_easy_handle :
    Round.perform_download Curl.Env.no_easy_handle_for_b ["a", "b"] Round.at_step2
        Round.Transfer.new =
      some (-1, Round.at_step2,
        { m_curl_handle := false
          m_epollfd := -1
          m_calls := [.curl_multi_init, .epoll_create 3, .curl_easy_init "a",
            .curl_multi_add_handle "a", .curl_multi_cleanup, .close 3] }) ∧
    (Round.perform_download Curl.Env.no_easy_handle_for_b ["a", "b"] Round.at_step2
        Round.Transfer.new).map
      (fun r => decide (Curl.Call.curl_easy_init "a" ∈ r.2.2.m_calls) &&
        !decide (Curl.Call.curl_multi_remove_handle "a" ∈ r.2.2.m_calls) &&
        !decide (Curl.Call.curl_easy_cleanup "a" ∈ r.2.2.m_calls)) = some true := by
  decide

/-! ## Lemmas: a whole download -/

/-- C28, as stated, fails: a group that is bound to no couple, as every new
group is, is printed without the key "couple". -/
theorem print_json_keys_counterexample :
    Writer.Call.Key "couple" ∉ Group.print_json (Group.new 1) [] ∧
    Group.print_json (Group.new 1) [] =
      [.StartObject, .Key "id", .Uint64 1, .Key "backends", .StartArray, .EndArray,
       .Key "status_text", .String "", .Key "status", .String "INIT",
       .Key "frozen", .Bool false, .Key "version", .Uint64 0,
       .Key "namespace", .String "", .EndObject] := by
  decide

/-- C28, amended: `Group::print_json` emits one object with the keys id,
couple (only when the group is bound to a couple), backends, status_text,
status, frozen, version and namespace, in that order, followed by service when
the group migrates or has a job id; backends is the array of the keys of the
backends, status the name given by `status_str`, couple the key of the couple
and namespace the name of the namespace, empty when there is none. -/
theorem print_json_keys (self : Group) (writer : List Writer.Call) :
    Group.print_json self writer =
      writer ++ [.StartObject, .Key "id", .Uint64 (uint64_of_int self.m_id)] ++
        (match self.m_couple with
          | some couple => [.Key "couple", .String (c_str couple.get_key)]
          | none => []) ++
        [.Key "backends", .StartArray] ++
        self.m_backends.map (fun backend => Writer.Call.String (c_str backend.key)) ++
        [.EndArray,
         .Key "status_text", .String (c_str self.m_status_text),
         .Key "status", .String (Group.status_str self.m_status),
         .Key "frozen", .Bool self.m_frozen,
         .Key "version", .Uint64 (uint64_of_int self.m_version),
         .Key "namespace",
         .String (match self.m_namespace with | some name => c_str name | none => "")] ++
        (if self.m_service.migrating || !self.m_service.job_id.isEmpty then
          [.Key "service", .StartObject,
           .Key "migrating", .Bool self.m_service.migrating,
           .Key "job_id", .String (c_str self.m_service.job_id), .EndObject]
         else []) ++
        [.EndObject] ∧
    (Writer.Call.Key "couple" ∈ Group.print_json self [] ↔ self.m_couple ≠ none) := by
  have hform : ∀ w : List Writer.Call, Group.print_json self w =
      w ++ [.StartObject, .Key "id", .Uint64 (uint64_of_int self.m_id)] ++
        (match self.m_couple with
          | some couple => [.Key "couple", .String (c_str couple.get_key)]
          | none => []) ++
        [.Key "backends", .StartArray] ++
        self.m_backends.map (fun backend => Writer.Call.String (c_str backend.key)) ++
        [.EndArray,
         .Key "status_text", .String (c_str self.m_status_text),
         .Key "status", .String (Group.status_str self.m_status),
         .Key "frozen", .Bool self.m_frozen,
         .Key "version", .Uint64 (uint64_of_int self.m_version),
         .Key "namespace",
         .String (match self.m_namespace with | some name => c_str name | none => "")] ++
        (if self.m_service.migrating || !self.m_service.job_id.isEmpty then
          [.Key "service", .StartObject,
           .Key "migrating", .Bool self.m_service.migrating,
           .Key "job_id", .String (c_str self.m_service.job_id), .EndObject]
         else []) ++
        [.EndObject] := by
    intro w
    unfold Group.print_json
    simp only [print_json_backends_eq]
    cases self.m_couple <;> cases self.m_namespace <;> split <;> simp
  refine ⟨hform writer, ?_⟩
  rw [hform []]
  cases hc : self.m_couple with
  | none =>
    simp only [ne_eq, not_true_eq_false, iff_false]
    split <;> simp
  | some c =>
    simp

theorem print_json_keys_witness :
    Writer.Call.Key "couple" ∈
      Group.print_json { Group.new 1 with m_couple := some ⟨"1:2", [1, 2]⟩ } [] :=
  (print_json_keys { Group.new 1 with m_couple := some ⟨"1:2", [1, 2]⟩ } []).2.mpr
    (by decide)

/-- C29: a default-constructed `Config` has monitor_port 10025, wait_timeout
10, forbidden_dht_groups 0, node_backend_stat_stale_timeout 120,
reserved_space 105 * 2^30 = 112742891520, three net, io and nonblocking io
threads and metadata.options.connectTimeoutMS 5000, each the constant of
`Config::Default`. -/
theorem default_config_values :
    Config.new.monitor_port = 10025 ∧
    Config.new.wait_timeout = 10 ∧
    Config.new.forbidden_dht_groups = 0 ∧
    Config.new.node_backend_stat_stale_timeout = 120 ∧
    Config.new.reserved_space = 105 * 2 ^ 30 ∧
    Config.new.reserved_space = 112742891520 ∧
    Config.new.net_thread_num = 3 ∧
    Config.new.io_thread_num = 3 ∧
    Config.new.nonblocking_io_thread_num = 3 ∧
    Config.new.metadata.options_connectTimeoutMS = 5000 ∧
    Config.new.monitor_port = Config.Default.monitor_port ∧
    Config.new.wait_timeout = Config.Default.wait_timeout ∧
    Config.new.forbidden_dht_groups = Config.Default.forbidden_dht_groups ∧
    Config.new.node_backend_stat_stale_timeout =
      Config.Default.node_backend_stat_stale_timeout ∧
    Config.new.reserved_space = Config.Default.reserved_space ∧
    Config.new.net_thread_num = Config.Default.net_thread_num ∧
    Config.new.io_thread_num = Config.Default.io_thread_num ∧
    Config.new.nonblocking_io_thread_num = Config.Default.nonblocking_io_thread_num ∧
    Config.new.metadata.options_connectTimeoutMS =
      Config.Default.metadata_options_connectTimeoutMS := by
  decide

/-! ## Lemmas: the parser tables -/

theorem compatible_of_matches (p q : Parser.Pattern) (k : String)
    (hp : p.matches k = true) (hq : q.matches k = true) : p.compatible q = true := by
  cases p <;> cases q <;>
    simp_all [Parser.Pattern.matches, Parser.Pattern.compatible]
  exact fun h => hp h.symm

theorem filter_matches_le_one (k : String) (rows : List Parser.Folder)
    (h : rows.Pairwise (fun a b => a.str.compatible b.str = false)) :
    (rows.filter (fun row => row.str.matches k)).length ≤ 1 := by
  induction rows with
  | nil => simp
  | cons a rest ih =>
    rw [List.pairwise_cons] at h
    by_cases ha : a.str.matches k = true
    · have hrest : rest.filter (fun row => row.str.matches k) = [] := by
        rw [List.filter_eq_nil_iff]
        intro b hb hbk
        have := compatible_of_matches a.str b.str k ha hbk
        rw [h.1 b hb] at this
        cases this
      simp [List.filter_cons, ha, hrest]
    · simp only [List.filter_cons, ha]
      exact ih h.2

theorem backend_folders_check :
    ∀ root ∈ [0, 1], ∀ d ∈ List.range 7,
      ∀ m ∈ Parser.reachable StatsParser.backend_folders root d,
        ((Parser.rows StatsParser.backend_folders d).filter
          (fun row => m &&& row.keys == row.keys)).Pairwise
          (fun a b => a.str.compatible b.str = false) := by
  decide

theorem backend_folders_rows_beyond (d : Nat) (hd : 7 ≤ d) :
    Parser.rows StatsParser.backend_folders d = [] := by
  unfold Parser.rows
  apply List.getD_eq_default
  have : StatsParser.backend_folders.length = 7 := by decide
  omega

theorem backend_folders_path_masks_nodup :
    ∀ root ∈ [0, 1],
      ((Parser.all_paths StatsParser.backend_folders root).map Prod.snd).Nodup := by
  decide

theorem info_masks_nodup :
    (StatsParser.backend_uint_info.map (fun row => row.keys) ++
      StatsParser.backend_string_info.map (fun row => row.keys)).Nodup := by
  decide

theorem info_masks_are_path_masks :
    ∀ mask ∈ StatsParser.backend_uint_info.map (fun row => row.keys) ++
        StatsParser.backend_string_info.map (fun row => row.keys),
      mask ∈ (Parser.all_paths StatsParser.backend_folders 0).map Prod.snd := by
  decide

theorem info_fields_nodup :
    (StatsParser.backend_uint_info.map (fun row => row.off)).Nodup ∧
    (StatsParser.backend_string_info.map (fun row => row.off)).Nodup := by
  decide

theorem filter_length_eq_count {α : Type} (f : α → Nat) (m : Nat) (l : List α) :
    (l.filter (fun x => f x == m)).length = (l.map f).count m := by
  induction l with
  | nil => simp
  | cons a rest ih =>
    by_cases h : f a = m
    · simp [List.filter_cons, h, ih]
    · have h2 : (f a == m) = false := by simpa using h
      simp [List.filter_cons, h2, ih, List.count_cons, h]

theorem path_of_mask_unique (root : Nat) (hroot : root ∈ [0, 1])
    (p q : List Nat × Nat)
    (hp : p ∈ Parser.all_paths StatsParser.backend_folders root)
    (hq : q ∈ Parser.all_paths StatsParser.backend_folders root)
    (h : p.2 = q.2) : p = q :=
  List.inj_on_of_nodup_map (backend_folders_path_masks_nodup root hroot) hp hq h

/-! ## Lemmas: a run of the parser -/

/-- C24: when `StatsParser::EndObject` is called with `m_keys ==
(Backends|BackendFolder|1)` at depth 3, the staging record is appended, as one
new last element, to the output vector and the staging record becomes a
default-constructed `BackendStat`; any other call of `EndObject` leaves the
output vector as it is. -/
theorem EndObject_appends_staging_record (base : Parser.Base) (nr_members : Nat)
    (self : StatsParser) :
    (self.m_keys = (StatsParser.Backends ||| StatsParser.BackendFolder ||| 1) ∧
        self.m_depth = 3 →
      (StatsParser.EndObject base nr_members self).2.m_backend_stats =
        self.m_backend_stats ++ [self.m_data.backend] ∧
      (StatsParser.EndObject base nr_members self).2.m_data.backend = BackendStat.new) ∧
    (¬(self.m_keys = (StatsParser.Backends ||| StatsParser.BackendFolder ||| 1) ∧
        self.m_depth = 3) →
      (StatsParser.EndObject base nr_members self).2.m_backend_stats =
        self.m_backend_stats) := by
  constructor
  · intro h
    simp [StatsParser.EndObject, StatsParser.EndObject.leave, h]
  · intro h
    simp only [StatsParser.EndObject, StatsParser.EndObject.leave, h, if_false]
    split <;> (try split) <;> rfl

theorem EndObject_appends_staging_record_witness :
    (StatsParser.leaving_backend.m_keys =
        (StatsParser.Backends ||| StatsParser.BackendFolder ||| 1) ∧
      StatsParser.leaving_backend.m_depth = 3) ∧
    (StatsParser.EndObject StatsParser.super 1 StatsParser.leaving_backend).2.m_backend_stats =
      [{ BackendStat.new with backend_id := 5 }] ∧
    (StatsParser.EndObject StatsParser.super 1 StatsParser.leaving_backend).2.m_data.backend =
      BackendStat.new :=
  ⟨by decide,
    (EndObject_appends_staging_record StatsParser.super 1 StatsParser.leaving_backend).1
      (by decide)⟩

/-- C26: in `backend_folders`, for every depth d, every key k and every mask m
reached at depth d by following the table from the root (mask 0, or 1 as in
the running parser), at most one row of depth d is selected by m and k. -/
theorem backend_folders_rows_disjoint (root d m : Nat) (k : String)
    (hroot : root = 0 ∨ root = 1)
    (hm : m ∈ Parser.reachable StatsParser.backend_folders root d) :
    ((Parser.rows StatsParser.backend_folders d).filter
      (fun row => row.selected m k)).length ≤ 1 := by
  by_cases hd : d < 7
  · have hpair := backend_folders_check root (by rcases hroot with h | h <;> simp [h]) d
      (List.mem_range.mpr hd) m hm
    have hsplit : (Parser.rows StatsParser.backend_folders d).filter
          (fun row => row.selected m k) =
        ((Parser.rows StatsParser.backend_folders d).filter
          (fun row => m &&& row.keys == row.keys)).filter (fun row => row.str.matches k) := by
      rw [List.filter_filter]
      congr 1
      funext row
      simp only [Parser.Folder.selected, Bool.and_comm]
    rw [hsplit]
    exact filter_matches_le_one k _ hpair
  · rw [backend_folders_rows_beyond d (by omega)]
    simp

theorem backend_folders_rows_disjoint_witness :
    (1 = 0 ∨ 1 = 1) ∧
    (StatsParser.Backends ||| StatsParser.BackendFolder ||| StatsParser.Commands ||| 1) ∈
      Parser.reachable StatsParser.backend_folders 1 3 ∧
    ((Parser.rows StatsParser.backend_folders 3).filter
      (fun row => row.selected
        (StatsParser.Backends ||| StatsParser.BackendFolder ||| StatsParser.Commands ||| 1)
        "READ")).length ≤ 1 :=
  ⟨Or.inr rfl, by decide,
    backend_folders_rows_disjoint 1 3
      (StatsParser.Backends ||| StatsParser.BackendFolder ||| StatsParser.Commands ||| 1)
      "READ" (Or.inr rfl) (by decide)⟩

/-- C27: two different key paths of `backend_folders` accumulate different
masks; the required masks of the rows of `backend_uint_info` and
`backend_string_info` are pairwise different and each is the mask of exactly
one key path; hence at most one info row has the required mask that `m_keys`
equals, and no field is the target of two rows. -/
theorem info_rows_have_distinct_path_masks :
    (∀ p ∈ Parser.all_paths StatsParser.backend_folders 0,
      ∀ q ∈ Parser.all_paths StatsParser.backend_folders 0, p.1 ≠ q.1 → p.2 ≠ q.2) ∧
    (StatsParser.backend_uint_info.map (fun row => row.keys) ++
      StatsParser.backend_string_info.map (fun row => row.keys)).Nodup ∧
    (∀ mask ∈ StatsParser.backend_uint_info.map (fun row => row.keys) ++
        StatsParser.backend_string_info.map (fun row => row.keys),
      ∃ p ∈ Parser.all_paths StatsParser.backend_folders 0, p.2 = mask ∧
        ∀ q ∈ Parser.all_paths StatsParser.backend_folders 0, q.2 = mask → q.1 = p.1) ∧
    (∀ m_keys : Nat,
      (StatsParser.backend_uint_info.filter (fun row => row.keys == m_keys)).length +
        (StatsParser.backend_string_info.filter (fun row => row.keys == m_keys)).length
          ≤ 1) ∧
    (StatsParser.backend_uint_info.map (fun row => row.off)).Nodup ∧
    (StatsParser.backend_string_info.map (fun row => row.off)).Nodup := by
  refine ⟨?_, info_masks_nodup, ?_, ?_, info_fields_nodup.1, info_fields_nodup.2⟩
  · intro p hp q hq hne heq
    exact hne (congrArg Prod.fst (path_of_mask_unique 0 (by simp) p q hp hq heq))
  · intro mask hmask
    obtain ⟨p, hp, hpm⟩ := List.mem_map.mp (info_masks_are_path_masks mask hmask)
    refine ⟨p, hp, hpm, fun q hq hqm => ?_⟩
    exact congrArg Prod.fst (path_of_mask_unique 0 (by simp) q p hq hp (hqm.trans hpm.symm))
  · intro m_keys
    rw [filter_length_eq_count (fun row : Parser.UIntInfo => row.keys),
      filter_length_eq_count (fun row : Parser.StringInfo => row.keys), ← List.count_append]
    exact List.nodup_iff_count_le_one.mp info_masks_nodup m_keys

theorem info_rows_have_distinct_path_masks_witness :
    ([0, 0, 0, 0, 2], StatsParser.Backends ||| StatsParser.BackendFolder |||
        StatsParser.Backend ||| StatsParser.Dstat ||| StatsParser.Error) ∈
      Parser.all_paths StatsParser.backend_folders 0 ∧
    ([0, 0, 0, 1, 11], StatsParser.Backends ||| StatsParser.BackendFolder |||
        StatsParser.Backend ||| StatsParser.Vfs ||| StatsParser.Error) ∈
      Parser.all_paths StatsParser.backend_folders 0 ∧
    (StatsParser.Backends ||| StatsParser.BackendFolder ||| StatsParser.Backend |||
        StatsParser.Dstat ||| StatsParser.Error) ≠
      (StatsParser.Backends ||| StatsParser.BackendFolder ||| StatsParser.Backend |||
        StatsParser.Vfs ||| StatsParser.Error) := by
  have h1 : ([0, 0, 0, 0, 2], StatsParser.Backends ||| StatsParser.BackendFolder |||
        StatsParser.Backend ||| StatsParser.Dstat ||| StatsParser.Error) ∈
      Parser.all_paths StatsParser.backend_folders 0 := by decide
  have h2 : ([0, 0, 0, 1, 11], StatsParser.Backends ||| StatsParser.BackendFolder |||
        StatsParser.Backend ||| StatsParser.Vfs ||| StatsParser.Error) ∈
      Parser.all_paths StatsParser.backend_folders 0 := by decide
  exact ⟨h1, h2, info_rows_have_distinct_path_masks.1 _ h1 _ h2 (by decide)⟩

/-! ## Two runs of the parser (C30) -/

theorem print_json_eq (self : Group) (writer : List Writer.Call) :
    Group.print_json self writer =
      writer ++
        ([.StartObject, .Key "id", .Uint64 (uint64_of_int self.m_id)] ++
          (match self.m_couple with
            | some couple => [.Key "couple", .String (c_str couple.get_key)]
            | none => []) ++
          [.Key "backends", .StartArray] ++
          self.m_backends.map (fun backend => Writer.Call.String (c_str backend.key)) ++
          [.EndArray,
           .Key "status_text", .String (c_str self.m_status_text),
           .Key "status", .String (Group.status_str self.m_status),
           .Key "frozen", .Bool self.m_frozen,
           .Key "version", .Uint64 (uint64_of_int self.m_version)]) ++
        ([.Key "namespace",
          .String (match self.m_namespace with | some name => c_str name | none => "")] ++
         (if self.m_service.migrating || !self.m_service.job_id.isEmpty then
            [.Key "service", .StartObject,
             .Key "migrating", .Bool self.m_service.migrating,
             .Key "job_id", .String (c_str self.m_service.job_id), .EndObject]
          else []) ++
         [.EndObject]) := by
  unfold Group.print_json
  simp only [print_json_backends_eq]
  cases self.m_couple <;> cases self.m_namespace <;> split <;> simp

theorem service_condition (self : Group) :
    (self.m_service.migrating || !self.m_service.job_id.isEmpty) = true ↔
      (self.m_service.migrating = true ∨ self.m_service.job_id ≠ "") := by
  have h := String.isEmpty_iff self.m_service.job_id
  cases hm : self.m_service.migrating <;> cases he : self.m_service.job_id.isEmpty <;>
    simp_all

/-! ## Group::match with one backend constraint (C31, C32) -/

/-- C31: for a group that passes the group, namespace and couple criteria:
with only the Backend constraint active, `Group::match` returns true exactly
when some backend of the group has its key in `filter.backends`; with only the
FS constraint active, exactly when some backend of the group has a filesystem
whose key is in `filter.filesystems`. -/
theorem match_backend_only_and_fs_only (g : Group) (filter : Filter) (item_types : Nat)
    (hg : is_sorted int_less filter.groups)
    (hn : is_sorted string_less filter.namespaces)
    (hc : is_sorted string_less filter.couples)
    (hpass : g.passes_criteria filter item_types)
    (hN : item_types &&& Filter.Node = 0 ∨ filter.nodes = []) :
    ((item_types &&& Filter.FS = 0 ∨ filter.filesystems = []) →
      item_types &&& Filter.Backend ≠ 0 ∧ filter.backends ≠ [] →
      is_sorted string_less filter.backends →
      (g.match_ filter item_types = true ↔
        ∃ backend ∈ g.m_backends, backend.key ∈ filter.backends)) ∧
    ((item_types &&& Filter.Backend = 0 ∨ filter.backends = []) →
      item_types &&& Filter.FS ≠ 0 ∧ filter.filesystems ≠ [] →
      is_sorted string_less filter.filesystems →
      (g.match_ filter item_types = true ↔
        ∃ backend ∈ g.m_backends, ∃ fs_key, backend.fs_key = some fs_key ∧
          fs_key ∈ filter.filesystems)) := by
  have h1 : filter.check_nodes item_types = false := check_inactive hN
  constructor
  · intro hF hB hb
    rw [match_iff g filter item_types hg hn hc]
    have h2 : filter.check_backends item_types = true := check_active hB.1 hB.2
    have h3 : filter.check_fs item_types = false := check_inactive hF
    rw [h1, h2, h3, match_loop_eq filter false true false g.m_backends false false false
      (by simp) (by simp) (by simp)]
    have eb : ∀ backend : Backend,
        Backend.backend_hit filter backend = true ↔ backend.key ∈ filter.backends :=
      fun backend => binary_search_iff string_less_strictTotal hb backend.key
    simp only [hpass, true_and, Bool.or_self, Bool.true_or, forall_const, Bool.not_false,
      Bool.not_true, Bool.false_or, Bool.and_true, Bool.and_eq_true, Bool.not_eq_true',
      List.isEmpty_eq_false, List.any_eq_true, eb, Bool.true_and, Bool.or_true, Bool.or_false]
    constructor
    · rintro ⟨_, h⟩
      exact h
    · rintro ⟨b, hb1, hb2⟩
      exact ⟨List.ne_nil_of_mem hb1, b, hb1, hb2⟩
  · intro hB hF hf
    rw [match_iff g filter item_types hg hn hc]
    have h2 : filter.check_backends item_types = false := check_inactive hB
    have h3 : filter.check_fs item_types = true := check_active hF.1 hF.2
    rw [h1, h2, h3, match_loop_eq filter false false true g.m_backends false false false
      (by simp) (by simp) (by simp)]
    have ef : ∀ backend : Backend, Backend.fs_hit filter backend = true ↔
        ∃ fs_key, backend.fs_key = some fs_key ∧ fs_key ∈ filter.filesystems := by
      intro backend
      unfold Backend.fs_hit
      cases backend.fs_key with
      | none => simp
      | some k => simpa using binary_search_iff string_less_strictTotal hf k
    simp only [hpass, true_and, Bool.or_self, Bool.true_or, forall_const, Bool.not_false,
      Bool.not_true, Bool.false_or, Bool.and_true, Bool.and_eq_true, Bool.not_eq_true',
      List.isEmpty_eq_false, List.any_eq_true, ef, Bool.true_and, Bool.or_true, Bool.or_false]
    constructor
    · rintro ⟨_, h⟩
      exact h
    · rintro ⟨b, hb1, hb2⟩
      exact ⟨List.ne_nil_of_mem hb1, b, hb1, hb2⟩

theorem match_backend_only_and_fs_only_witness :
    (two_backend_group.match_ { Filter.none with backends := ["h1:1025:2/2"] }
        Filter.Backend = true ↔
      ∃ backend ∈ two_backend_group.m_backends, backend.key ∈ ["h1:1025:2/2"]) :=
  (match_backend_only_and_fs_only two_backend_group
      { Filter.none with backends := ["h1:1025:2/2"] } Filter.Backend
      (by decide) (by decide) (by decide)
      ⟨Or.inl (by decide), Or.inl (by decide), Or.inl (by decide)⟩
      (Or.inl (by decide))).1
    (Or.inl (by decide)) ⟨by decide, by decide⟩ (by decide)

/-- C32: for a group with no backend and a filter in which the Node, the
Backend or the FS constraint is active, `Group::match` returns false. -/
theorem match_without_backends (g : Group) (filter : Filter) (item_types : Nat)
    (hempty : g.m_backends = [])
    (hactive : (item_types &&& Filter.Node ≠ 0 ∧ filter.nodes ≠ []) ∨
      (item_types &&& Filter.Backend ≠ 0 ∧ filter.backends ≠ []) ∨
      (item_types &&& Filter.FS ≠ 0 ∧ filter.filesystems ≠ [])) :
    g.match_ filter item_types = false := by
  have hchk : (filter.check_nodes item_types || filter.check_backends item_types
      || filter.check_fs item_types) = true := by
    rcases hactive with h | h | h
    · have : filter.check_nodes item_types = true := check_active h.1 h.2
      simp [this]
    · have : filter.check_backends item_types = true := check_active h.1 h.2
      simp [this]
    · have : filter.check_fs item_types = true := check_active h.1 h.2
      simp [this]
  unfold Group.match_
  rw [hchk, hempty]
  simp only [Group.match_loop, if_true]
  split
  · rfl
  · split
    · rfl
    · split <;> rfl

theorem match_without_backends_witness :
    (Group.new 1).m_backends = [] ∧
    (Group.new 1).match_ { Filter.none with backends := ["h1:1025:2/2"] } Filter.Backend =
      false :=
  ⟨rfl, match_without_backends (Group.new 1)
    { Filter.none with backends := ["h1:1025:2/2"] } Filter.Backend rfl
    (Or.inr (Or.inl ⟨by decide, by decide⟩))⟩

/-! ## The key service of print_json (C34) -/

/-- C34: `Group::print_json` emits the key "service" exactly when
`service.migrating` is true or `service.job_id` is not empty; it then follows
the value of "namespace", as the last key of the object, and its value is an
object with the keys "migrating" and "job_id", in that order, and no other;
otherwise the object ends after the value of "namespace". -/
theorem print_json_service (self : Group) (writer : List Writer.Call) :
    (Writer.Call.Key "service" ∈ Group.print_json self [] ↔
      (self.m_service.migrating = true ∨ self.m_service.job_id ≠ "")) ∧
    ∃ before : List Writer.Call,
      Writer.Call.Key "service" ∉ before ∧ Writer.Call.Key "namespace" ∉ before ∧
      ((self.m_service.migrating = true ∨ self.m_service.job_id ≠ "") →
        Group.print_json self writer =
          writer ++ before ++
            [.Key "namespace",
             .String (match self.m_namespace with | some name => c_str name | none => ""),
             .Key "service", .StartObject,
             .Key "migrating", .Bool self.m_service.migrating,
             .Key "job_id", .String (c_str self.m_service.job_id), .EndObject,
             .EndObject]) ∧
      (¬(self.m_service.migrating = true ∨ self.m_service.job_id ≠ "") →
        Group.print_json self writer =
          writer ++ before ++
            [.Key "namespace",
             .String (match self.m_namespace with | some name => c_str name | none => ""),
             .EndObject]) := by
  have hbefore : ∀ name : String, name ≠ "id" → name ≠ "couple" → name ≠ "backends" →
      name ≠ "status_text" → name ≠ "status" → name ≠ "frozen" → name ≠ "version" →
      Writer.Call.Key name ∉
        ([.StartObject, .Key "id", .Uint64 (uint64_of_int self.m_id)] ++
          (match self.m_couple with
            | some couple => [.Key "couple", .String (c_str couple.get_key)]
            | none => []) ++
          [.Key "backends", .StartArray] ++
          self.m_backends.map (fun backend => Writer.Call.String (c_str backend.key)) ++
          [.EndArray,
           .Key "status_text", .String (c_str self.m_status_text),
           .Key "status", .String (Group.status_str self.m_status),
           .Key "frozen", .Bool self.m_frozen,
           .Key "version", .Uint64 (uint64_of_int self.m_version)] : List Writer.Call) := by
    intro name h1 h2 h3 h4 h5 h6 h7
    cases self.m_couple <;> simp [h1, h2, h3, h4, h5, h6, h7]
  have hs := hbefore "service" (by decide) (by decide) (by decide) (by decide) (by decide)
    (by decide) (by decide)
  have hn := hbefore "namespace" (by decide) (by decide) (by decide) (by decide) (by decide)
    (by decide) (by decide)
  constructor
  · rw [print_json_eq self []]
    by_cases hc : (self.m_service.migrating || !self.m_service.job_id.isEmpty) = true
    · exact iff_of_true (by simp [hc]) ((service_condition self).mp hc)
    · refine iff_of_false ?_ (fun h => hc ((service_condition self).mpr h))
      rw [if_neg hc, List.nil_append]
      intro hmem
      rcases List.mem_append.mp hmem with h | h
      · exact hs h
      · simp at h
  · refine ⟨_, hs, hn, ?_, ?_⟩
    · intro h
      rw [print_json_eq self writer, if_pos ((service_condition self).mpr h)]
      simp
    · intro h
      rw [print_json_eq self writer, if_neg (fun hc => h ((service_condition self).mp hc))]
      simp

theorem print_json_service_witness :
    (group_processed.m_service.migrating = true ∨ group_processed.m_service.job_id ≠ "") ∧
    Writer.Call.Key "service" ∈ Group.print_json group_processed [] :=
  ⟨Or.inr (by decide),
    (print_json_service group_processed []).1.mpr (Or.inr (by decide))⟩

/-! ## Group::save_metadata, Group::merge twice and Group::clone_from (C36, C39, C40) -/

/-- C36, as stated, fails: a group that is not clean and receives the bytes it
already holds is left as it was, although it was not clean. -/
theorem save_metadata_effect_counterexample :
    group_pending.m_clean = false ∧
    group_pending.save_metadata [1] = group_pending ∧
    ({ Group.new 1 with m_clean := false } : Group).save_metadata [] =
      { Group.new 1 with m_clean := false } := by
  decide

/-- C36, amended: after `Group::save_metadata(bytes)` the stored metadata
equals the bytes and no field other than the metadata and the clean flag has
changed; when the group was clean and the bytes are non-empty and equal to the
stored metadata, nothing changes; in every other case the group is not clean
afterwards; the state is left as it was exactly in the first case and when the
group was not clean and the bytes equal the stored metadata. -/
theorem save_metadata_effect (g : Group) (bytes : List Nat) :
    (g.save_metadata bytes).m_metadata = bytes ∧
    g.save_metadata bytes =
      { g with m_metadata := bytes, m_clean := (g.save_metadata bytes).m_clean } ∧
    (g.m_clean = true ∧ bytes ≠ [] ∧ bytes = g.m_metadata → g.save_metadata bytes = g) ∧
    (¬(g.m_clean = true ∧ bytes ≠ [] ∧ bytes = g.m_metadata) →
      (g.save_metadata bytes).m_clean = false) ∧
    (g.save_metadata bytes = g ↔
      (g.m_clean = true ∧ bytes ≠ [] ∧ bytes = g.m_metadata) ∨
      (g.m_clean = false ∧ bytes = g.m_metadata)) := by
  by_cases hcond : g.m_clean = true ∧ bytes ≠ [] ∧ bytes = g.m_metadata
  · obtain ⟨h1, h2, h3⟩ := hcond
    subst h3
    have hs : g.save_metadata g.m_metadata = g := by
      simp [Group.save_metadata, h1, h2]
    rw [hs]
    refine ⟨rfl, rfl, fun _ => rfl, fun h => absurd ⟨h1, h2, rfl⟩ h, ?_⟩
    simp [h1, h2]
  · have hs : g.save_metadata bytes = { g with m_metadata := bytes, m_clean := false } := by
      unfold Group.save_metadata
      rw [if_neg]
      intro h
      simp only [Bool.and_eq_true, Bool.not_eq_true', List.isEmpty_eq_false, beq_iff_eq,
        decide_eq_true_eq] at h
      obtain ⟨⟨⟨h1, h2⟩, _⟩, h4⟩ := h
      exact hcond ⟨h1, h4 ▸ h2, h4.symm⟩
    rw [hs]
    refine ⟨rfl, rfl, fun h => absurd h hcond, fun _ => rfl, ?_⟩
    constructor
    · intro h
      right
      have hc := congrArg Group.m_clean h
      have hm := congrArg Group.m_metadata h
      simp only at hc hm
      exact ⟨hc.symm, hm⟩
    · rintro (h | ⟨h1, h2⟩)
      · exact absurd h hcond
      · cases g
        simp only at h1 h2
        subst h1 h2
        rfl

theorem save_metadata_effect_witness :
    (group_processed.m_clean = true ∧ [1, 2, 3] ≠ [] ∧ [1, 2, 3] = group_processed.m_metadata) ∧
    group_processed.save_metadata [1, 2, 3] = group_processed :=
  ⟨by decide, (save_metadata_effect group_processed [1, 2, 3]).2.2.1 (by decide)⟩

/-- C39: `Group::merge` changes neither the id nor the backend set of the
group, and a second merge of the same other group changes nothing: the state
after two merges is the state after one. -/
theorem merge_idempotent (st : Storage) (g other : Group) :
    (Group.merge st g other).2.m_id = g.m_id ∧
    (Group.merge st g other).2.m_backends = g.m_backends ∧
    Group.merge (Group.merge st g other).1 (Group.merge st g other).2 other =
      Group.merge st g other := by
  by_cases h : g.m_metadata_process_start ≥ other.m_metadata_process_start
  · have h1 : Group.merge st g other = (st, g) := by
      unfold Group.merge
      rw [if_pos h]
    rw [h1]
    exact ⟨rfl, rfl, h1⟩
  · obtain ⟨c, n, heq, _⟩ := merge_taken st g other (by omega)
    have hstart : (Group.merge st g other).2.m_metadata_process_start =
        other.m_metadata_process_start := by rw [heq]
    refine ⟨by rw [heq], by rw [heq], ?_⟩
    generalize Group.merge st g other = r at hstart
    unfold Group.merge
    rw [if_pos (by omega)]

/-- C40: `clone_from` on a newly constructed group: when the metadata of the
other group was never processed (`metadata_process_start = 0`), only the id is
copied, the clone is a new group with the id of the other; when it was
processed, the clone has the id, the status, the status text, the metadata,
the frozen flag, the version and the service fields of the other. -/
theorem clone_from_fresh (st : Storage) (id : Int) (other : Group) :
    (other.m_metadata_process_start = 0 →
      Group.clone_from st (Group.new id) other = (st, Group.new other.m_id)) ∧
    (0 < other.m_metadata_process_start →
      (Group.clone_from st (Group.new id) other).2.m_id = other.m_id ∧
      (Group.clone_from st (Group.new id) other).2.m_status = other.m_status ∧
      (Group.clone_from st (Group.new id) other).2.m_status_text = other.m_status_text ∧
      (Group.clone_from st (Group.new id) other).2.m_metadata = other.m_metadata ∧
      (Group.clone_from st (Group.new id) other).2.m_frozen = other.m_frozen ∧
      (Group.clone_from st (Group.new id) other).2.m_version = other.m_version ∧
      (Group.clone_from st (Group.new id) other).2.m_service = other.m_service) := by
  constructor
  · intro h
    unfold Group.clone_from Group.merge
    rw [if_pos (by simp [Group.new, h])]
    rfl
  · intro h
    obtain ⟨c, n, heq, _⟩ := merge_taken st { Group.new id with m_id := other.m_id } other
      (by simpa [Group.new] using h)
    unfold Group.clone_from
    rw [heq]
    exact ⟨rfl, rfl, rfl, rfl, rfl, rfl, rfl⟩

theorem clone_from_fresh_witness :
    group_failed_read.m_metadata_process_start = 0 ∧
    Group.clone_from (Storage.init Config.new) (Group.new 0) group_failed_read =
      (Storage.init Config.new, Group.new 9) :=
  ⟨rfl, (clone_from_fresh (Storage.init Config.new) 0 group_failed_read).1 rfl⟩

/-! ## Lemmas: the namespace index and the clean flag -/

theorem get_namespace_has (st : Storage) (name : String) :
    ∃ n ∈ (st.get_namespace name).m_namespaces, n.m_name = name := by
  unfold Storage.get_namespace
  by_cases h : st.m_namespaces.any (fun n => n.m_name == name) = true
  · rw [if_pos h]
    obtain ⟨n, hn, hname⟩ := List.any_eq_true.mp h
    exact ⟨n, hn, by simpa using hname⟩
  · rw [if_neg h]
    exact ⟨{ m_name := name, m_couples := [] }, by simp, rfl⟩

theorem get_namespace_keeps (st : Storage) (name other : String)
    (h : ∃ n ∈ st.m_namespaces, n.m_name = name) :
    ∃ n ∈ (st.get_namespace other).m_namespaces, n.m_name = name := by
  obtain ⟨n, hn, hname⟩ := h
  unfold Storage.get_namespace
  split
  · exact ⟨n, hn, hname⟩
  · exact ⟨n, by simp [hn], hname⟩

theorem namespace_add_couple_fields (n : Namespace) (couple : Couple) :
    (n.add_couple couple).m_name = n.m_name ∧ couple.m_key ∈ (n.add_couple couple).m_couples := by
  unfold Namespace.add_couple
  split
  · exact ⟨rfl, by assumption⟩
  · exact ⟨rfl, by simp⟩

theorem storage_add_couple_member (st : Storage) (name : String) (couple : Couple)
    (h : ∃ n ∈ st.m_namespaces, n.m_name = name) :
    (∃ n ∈ (st.add_couple name couple).m_namespaces, n.m_name = name) ∧
    ∀ n ∈ (st.add_couple name couple).m_namespaces, n.m_name = name →
      couple.m_key ∈ n.m_couples := by
  unfold Storage.add_couple
  constructor
  · obtain ⟨n, hn, hname⟩ := h
    refine ⟨n.add_couple couple, ?_, ?_⟩
    · simp only [List.mem_map]
      exact ⟨n, hn, by simp [hname]⟩
    · rw [(namespace_add_couple_fields n couple).1, hname]
  · intro n hn hname
    simp only [List.mem_map] at hn
    obtain ⟨m, _, hm⟩ := hn
    by_cases hmn : m.m_name = name
    · rw [if_pos hmn] at hm
      rw [← hm]
      exact (namespace_add_couple_fields m couple).2
    · rw [if_neg hmn] at hm
      rw [← hm] at hname
      exact absurd hname hmn

theorem merge_couple_namespaces (st : Storage) (g other : Group) :
    (Group.merge_couple st g other).1.m_namespaces = st.m_namespaces ∧
    (Group.merge_couple st g other).2.m_namespace = g.m_namespace := by
  unfold Group.merge_couple
  cases other.m_couple with
  | none => exact ⟨rfl, rfl⟩
  | some oc =>
    cases g.m_couple with
    | some c => exact ⟨rfl, rfl⟩
    | none =>
      simp only
      cases st.get_couple oc.get_key with
      | some c => exact ⟨rfl, rfl⟩
      | none =>
        have h := create_couple_fields st oc.get_group_ids g
        exact ⟨h.2.1, h.2.2.2.2.1⟩

theorem merge_namespace_valid (st : Storage) (g other : Group)
    (hvalid : ∀ name, g.m_namespace = some name → ∃ n ∈ st.m_namespaces, n.m_name = name) :
    ∀ name, (Group.merge_namespace st g other).2.m_namespace = some name →
      ∃ n ∈ (Group.merge_namespace st g other).1.m_namespaces, n.m_name = name := by
  unfold Group.merge_namespace
  cases ho : other.m_namespace with
  | none => exact hvalid
  | some oname =>
    cases hg : g.m_namespace with
    | some gname =>
      simp only
      intro name hname
      exact hvalid name (by rw [← hname, hg])
    | none =>
      simp only
      intro name hname
      cases hname
      exact get_namespace_has st oname

theorem bind_couple_clean (st : Storage) (g : Group) (couple : List Int) :
    (Group.bind_couple st g couple).2.m_clean = g.m_clean := by
  unfold Group.bind_couple
  cases g.m_couple with
  | some c =>
    simp only
    split
    · rfl
    · exact (derive_status_fields st g).2.2.2.1
  | none =>
    simp only
    obtain ⟨c, hc⟩ := create_couple_frame st couple g
    rw [(derive_status_fields _ _).2.2.2.1, hc]

theorem process_metadata_leaves_clean (rt : Runtime) (st : Storage) (g : Group) :
    (g.process_metadata rt st).2.m_clean = true := by
  unfold Group.process_metadata
  by_cases hclean : g.m_clean = true
  · rw [if_pos hclean]
    exact hclean
  · rw [if_neg hclean]
    simp only
    cases rt.unpack g.m_metadata with
    | error e => cases e <;> rfl
    | ok obj =>
      simp only
      cases Group.decode obj with
      | error text => rfl
      | ok l =>
        simp only
        cases g.m_namespace with
        | none =>
          simp only
          rw [bind_couple_clean]
        | some name =>
          simp only
          split
          · rfl
          · rw [bind_couple_clean]

/-! ## The couple of a merged group in its namespace (C33) -/

/-- C33: after a `Group::merge(other)` that takes the record of the other
group, if the group is bound to a couple and to a namespace then the key of
that couple is in the couple set of that namespace of the storage. The
namespace the group was bound to before the merge, if any, is one of the
storage (the pointer `m_namespace` refers to an object of the storage). -/
theorem merge_adds_couple_to_namespace (st : Storage) (g other : Group)
    (htaken : g.m_metadata_process_start < other.m_metadata_process_start)
    (hvalid : ∀ name, g.m_namespace = some name → ∃ n ∈ st.m_namespaces, n.m_name = name) :
    ∀ couple name,
      (Group.merge st g other).2.m_couple = some couple →
      (Group.merge st g other).2.m_namespace = some name →
      (∃ n ∈ (Group.merge st g other).1.m_namespaces, n.m_name = name) ∧
      ∀ n ∈ (Group.merge st g other).1.m_namespaces, n.m_name = name →
        couple.m_key ∈ n.m_couples := by
  intro couple name hcouple hname
  unfold Group.merge at hcouple hname ⊢
  rw [if_neg (by omega)] at hcouple hname ⊢
  simp only at hcouple hname ⊢
  generalize hg1 : ({ g with
        m_clean := other.m_clean
        m_metadata := other.m_metadata
        m_status_text := other.m_status_text
        m_status := other.m_status
        m_metadata_process_start := other.m_metadata_process_start
        m_metadata_process_time := other.m_metadata_process_time
        m_frozen := other.m_frozen
        m_version := other.m_version
        m_service := { migrating := other.m_service.migrating,
                       job_id := other.m_service.job_id } } : Group) = g1
    at hcouple hname ⊢
  have hg1n : g1.m_namespace = g.m_namespace := by rw [← hg1]
  have hmc := merge_couple_namespaces st g1 other
  have hvalid2 : ∀ nm, (Group.merge_couple st g1 other).2.m_namespace = some nm →
      ∃ n ∈ (Group.merge_couple st g1 other).1.m_namespaces, n.m_name = nm := by
    intro nm hnm
    rw [hmc.1]
    exact hvalid nm (by rw [← hg1n, ← hmc.2, hnm])
  have hvalid3 := merge_namespace_valid (Group.merge_couple st g1 other).1
    (Group.merge_couple st g1 other).2 other hvalid2
  generalize Group.merge_namespace (Group.merge_couple st g1 other).1
    (Group.merge_couple st g1 other).2 other = r at hcouple hname hvalid3 ⊢
  rcases r with ⟨st3, g3⟩
  simp only at hcouple hname hvalid3 ⊢
  cases hc3 : g3.m_couple with
  | none =>
    rw [hc3] at hcouple
    simp only at hcouple
    rw [hc3] at hcouple
    cases hcouple
  | some c3 =>
    cases hn3 : g3.m_namespace with
    | none =>
      rw [hc3, hn3] at hname
      simp only at hname
      rw [hn3] at hname
      cases hname
    | some n3 =>
      simp only [hc3, hn3, Option.some.injEq] at hcouple hname ⊢
      subst hcouple hname
      exact storage_add_couple_member st3 n3 c3 (hvalid3 n3 hn3)

theorem merge_adds_couple_to_namespace_witness :
    (Group.new 7).m_metadata_process_start < group_processed.m_metadata_process_start ∧
    (Group.merge (Storage.init Config.new) (Group.new 7) group_processed).2.m_couple =
      some { m_key := "1:2", m_group_ids := [1, 2] } ∧
    (Group.merge (Storage.init Config.new) (Group.new 7) group_processed).2.m_namespace =
      some "A" ∧
    ∀ n ∈ (Group.merge (Storage.init Config.new) (Group.new 7) group_processed).1.m_namespaces,
      n.m_name = "A" → "1:2" ∈ n.m_couples :=
  ⟨by decide, by decide, by decide,
    (merge_adds_couple_to_namespace (Storage.init Config.new) (Group.new 7) group_processed
      (by decide) (fun name h => by cases h)
      { m_key := "1:2", m_group_ids := [1, 2] } "A" (by decide) (by decide)).2⟩

/-! ## Group::process_metadata: the clean flag and the frame of a rejection (C35, C37, C38) -/

/-- C35: `Group::process_metadata` on a clean group changes nothing, whatever
its backends are; every call leaves the group clean; hence a second call right
after a first one changes nothing. -/
theorem process_metadata_twice (rt rt2 : Runtime) (st : Storage) (g : Group) :
    (g.m_clean = true → g.process_metadata rt st = (st, g)) ∧
    (g.process_metadata rt st).2.m_clean = true ∧
    (g.process_metadata rt st).2.process_metadata rt2 (g.process_metadata rt st).1 =
      g.process_metadata rt st := by
  have hfirst : ∀ (r : Runtime) (s : Storage) (x : Group), x.m_clean = true →
      x.process_metadata r s = (s, x) := by
    intro r s x hx
    unfold Group.process_metadata
    rw [if_pos hx]
  exact ⟨hfirst rt st g, process_metadata_leaves_clean rt st g,
    hfirst rt2 _ _ (process_metadata_leaves_clean rt st g)⟩

theorem process_metadata_twice_witness :
    group_processed.m_clean = true ∧
    group_processed.process_metadata (Runtime.yielding metadata_S1)
        (Storage.init Config.new) =
      (Storage.init Config.new, group_processed) :=
  ⟨rfl,
    (process_metadata_twice (Runtime.yielding metadata_S1) (Runtime.yielding metadata_S1)
      (Storage.init Config.new) group_processed).1 rfl⟩

/-- C37: when `Group::process_metadata` runs and the metadata cannot be
decoded (msgpack cannot unpack it, or the decoding of the map or of the bare
array stops at a wrongly typed field), the storage is left as it was and the
group differs from what it was only in the status (BAD), the status text, the
clean flag and the two processing times: version, frozen flag, service fields,
namespace and couple are what they were. -/
theorem process_metadata_decode_failure (rt : Runtime) (st : Storage) (g : Group)
    (hclean : g.m_clean = false)
    (hfail : (∃ e, rt.unpack g.m_metadata = .error e) ∨
      (∃ obj text, rt.unpack g.m_metadata = .ok obj ∧ Group.decode obj = .error text) ∨
      (∃ obj, rt.unpack g.m_metadata = .ok obj ∧ Group.metadata_malformed obj)) :
    (∃ text,
      g.process_metadata rt st =
        (st, { g with
          m_metadata_process_start := rt.clock
          m_metadata_process_time := rt.elapsed
          m_clean := true
          m_status_text := text
          m_status := Group.Status.BAD })) ∧
    (g.process_metadata rt st).2.m_version = g.m_version ∧
    (g.process_metadata rt st).2.m_frozen = g.m_frozen ∧
    (g.process_metadata rt st).2.m_service = g.m_service ∧
    (g.process_metadata rt st).2.m_namespace = g.m_namespace ∧
    (g.process_metadata rt st).2.m_couple = g.m_couple ∧
    (g.process_metadata rt st).2.m_status = Group.Status.BAD := by
  have hform : ∃ text,
      g.process_metadata rt st =
        (st, { g with
          m_metadata_process_start := rt.clock
          m_metadata_process_time := rt.elapsed
          m_clean := true
          m_status_text := text
          m_status := Group.Status.BAD }) := by
    have hdec : ∀ obj text, rt.unpack g.m_metadata = .ok obj →
        Group.decode obj = .error text →
        g.process_metadata rt st =
          (st, { g with
            m_metadata_process_start := rt.clock
            m_metadata_process_time := rt.elapsed
            m_clean := true
            m_status_text := text
            m_status := Group.Status.BAD }) := by
      intro obj text hu hd
      unfold Group.process_metadata
      simp only [hclean, hu, hd, Bool.false_eq_true, if_false]
    rcases hfail with ⟨e, he⟩ | ⟨obj, text, hu, hd⟩ | ⟨obj, hu, hm⟩
    · cases e with
      | none =>
        refine ⟨"msgpack could not parse group metadta with unknown reason", ?_⟩
        unfold Group.process_metadata
        simp only [hclean, he, Bool.false_eq_true, if_false]
      | some what =>
        refine ⟨"msgpack could not parse group metadata: " ++ what, ?_⟩
        unfold Group.process_metadata
        simp only [hclean, he, Bool.false_eq_true, if_false]
    · exact ⟨text, hdec obj text hu hd⟩
    · obtain ⟨text, hd⟩ := decode_malformed obj hm
      exact ⟨text, hdec obj text hu hd⟩
  obtain ⟨text, h⟩ := hform
  refine ⟨⟨text, h⟩, ?_⟩
  rw [h]
  exact ⟨rfl, rfl, rfl, rfl, rfl, rfl⟩

theorem process_metadata_decode_failure_witness :
    group_S4.m_clean = false ∧
    (group_S4.process_metadata (Runtime.yielding metadata_bad_version) storage_S4).2.m_frozen =
      false ∧
    (group_S4.process_metadata (Runtime.yielding metadata_bad_version) storage_S4).2.m_couple =
      some { m_key := "3:4", m_group_ids := [3, 4] } ∧
    (group_S4.process_metadata (Runtime.yielding metadata_bad_version) storage_S4).2.m_status =
      Group.Status.BAD :=
  have h := process_metadata_decode_failure (Runtime.yielding metadata_bad_version)
    storage_S4 group_S4 rfl (Or.inr (Or.inl ⟨_, _, rfl, rfl⟩))
  ⟨rfl, h.2.2.1, h.2.2.2.2.2.1, h.2.2.2.2.2.2⟩

/-- C38: when the metadata decodes without error, after
`Group::process_metadata` the version, the frozen flag and the service fields
of the group are the decoded ones on every path, also when the call marks the
group BAD because the decoded namespace differs from the one the group is
bound to, or because the decoded couple does not pass the check of the couple
the group is bound to. -/
theorem process_metadata_rejection_keeps_decoded (rt : Runtime) (st : Storage) (g : Group)
    (obj : MsgObject) (l : Group.Locals) (hclean : g.m_clean = false)
    (hunpack : rt.unpack g.m_metadata = .ok obj) (hdecode : Group.decode obj = .ok l) :
    ((g.process_metadata rt st).2.m_version = l.version ∧
      (g.process_metadata rt st).2.m_frozen = l.frozen ∧
      (g.process_metadata rt st).2.m_service.migrating = l.service_migrating ∧
      (g.process_metadata rt st).2.m_service.job_id = l.service_job_id) ∧
    (∀ old, g.m_namespace = some old → old ≠ l.ns →
      (g.process_metadata rt st).2.m_status = Group.Status.BAD ∧
      (g.process_metadata rt st).2.m_namespace = some old) ∧
    (∀ couple, (∀ name, g.m_namespace = some name → name = l.ns) →
      g.m_couple = some couple → couple.check l.couple = false →
      (g.process_metadata rt st).2.m_status = Group.Status.BAD ∧
      (g.process_metadata rt st).2.m_couple = some couple) := by
  have hf := process_metadata_decoded_fields rt st g obj l hclean hunpack hdecode
  refine ⟨⟨hf.1, hf.2.1, by rw [hf.2.2], by rw [hf.2.2]⟩, ?_, ?_⟩
  · intro old hold hne
    unfold Group.process_metadata
    simp only [hclean, hunpack, hdecode, Bool.false_eq_true, if_false, hold, ne_eq, hne,
      not_false_eq_true, if_true]
    exact ⟨trivial, trivial⟩
  · intro couple hns hbound hcheck
    unfold Group.process_metadata
    simp only [hclean, hunpack, hdecode, Bool.false_eq_true, if_false]
    cases hn : g.m_namespace with
    | none =>
      simp only [Group.bind_couple, hbound, hcheck, Bool.not_false, if_true]
      exact ⟨trivial, trivial⟩
    | some name =>
      have := hns name hn
      subst this
      simp only [ne_eq, not_true_eq_false, if_false, Group.bind_couple, hbound, hcheck,
        Bool.not_false, if_true]
      exact ⟨trivial, trivial⟩

theorem process_metadata_rejection_keeps_decoded_witness :
    Group.decode metadata_other_couple =
      .ok { version := 9, couple := [3, 5], ns := "ns", frozen := true,
            service_migrating := false, service_job_id := "" } ∧
    (group_S4.process_metadata (Runtime.yielding metadata_other_couple)
      storage_S4).2.m_version = 9 ∧
    (group_S4.process_metadata (Runtime.yielding metadata_other_couple)
      storage_S4).2.m_frozen = true ∧
    (group_S4.process_metadata (Runtime.yielding metadata_other_couple)
      storage_S4).2.m_status = Group.Status.BAD :=
  have h := process_metadata_rejection_keeps_decoded (Runtime.yielding metadata_other_couple)
    storage_S4 group_S4 metadata_other_couple
    { version := 9, couple := [3, 5], ns := "ns", frozen := true,
      service_migrating := false, service_job_id := "" } rfl rfl rfl
  ⟨rfl, h.1.1, h.1.2.1,
    (h.2.2 { m_key := "3:4", m_group_ids := [3, 4] }
      (fun _ hn => (Option.some.inj hn).symm) rfl (by decide)).1⟩

end Mastermind
